import Mathlib

/-!
The xennet receive path (`src/xennet/receiver.c`).

A shallow embedding of the receive-side descriptor pool of the xennet driver:
`__ReceiverAllocateNetBufferList`, `__ReceiverReleaseNetBufferList`,
`__ReceiverReturnNetBufferList`, `__ReceiverReceivePacket`, `__ReceiverPushPacket`,
`ReceiverInitialize`, `ReceiverReturnNetBufferLists` and `ReceiverQueuePacket`.

Memory is an explicit heap of `NET_BUFFER_LIST` objects addressed by pointers
(`0` is `NULL`); the two free lists are the intrusive chains the C code builds
through the `Next` field.  The code is modelled as it runs on one processor:
an interlocked operation is its sequential effect, the spin lock is not
modelled.  Calls that leave the driver (the NDIS allocator, the indication to
NDIS, the notification of the VIF back end) are recorded in logs kept in the
state.
-/

namespace Xennet

/-- A pointer; `0` is `NULL`. -/
abbrev Ptr := Nat

/-- `IN_NDIS_MAX` (receiver.c line 53). -/
def IN_NDIS_MAX : Int := 1024

/-- `NDIS_RECEIVE_FLAGS_DISPATCH_LEVEL` of ndis.h. -/
def NDIS_RECEIVE_FLAGS_DISPATCH_LEVEL : Nat := 1

/-- `NDIS_RECEIVE_FLAGS_RESOURCES` of ndis.h. -/
def NDIS_RECEIVE_FLAGS_RESOURCES : Nat := 2

/-- The value a 32-bit signed `LONG` holds after an arithmetic result `x`
(two's complement wrap-around), as `InterlockedIncrement` and
`InterlockedDecrement` produce it. -/
def toLONG (x : Int) : Int := (x + 2147483648) % 4294967296 - 2147483648

/-- The values of a `LONG`. -/
def IsLONG (x : Int) : Prop := -2147483648 ≤ x ∧ x < 2147483648

instance (x : Int) : Decidable (IsLONG x) := by unfold IsLONG; infer_instance

/-- The six outcome bits of `XENVIF_PACKET_CHECKSUM_FLAGS` that the receiver reads
(each is a one-bit field). -/
structure XENVIF_PACKET_CHECKSUM_FLAGS where
  IpChecksumSucceeded : Bool
  IpChecksumFailed : Bool
  TcpChecksumSucceeded : Bool
  TcpChecksumFailed : Bool
  UdpChecksumSucceeded : Bool
  UdpChecksumFailed : Bool
  deriving DecidableEq, Repr

/-- The union `NDIS_TCP_IP_CHECKSUM_NET_BUFFER_LIST_INFO`: the six one-bit fields
of its `Receive` member that the code assigns, and `Rest`, the number formed by
all its other bits.  `Value = 0` is the record with every field cleared. -/
structure NDIS_TCP_IP_CHECKSUM_NET_BUFFER_LIST_INFO where
  IpChecksumSucceeded : Bool
  IpChecksumFailed : Bool
  TcpChecksumSucceeded : Bool
  TcpChecksumFailed : Bool
  UdpChecksumSucceeded : Bool
  UdpChecksumFailed : Bool
  Rest : Nat
  deriving DecidableEq, Repr

/-- The `TagHeader` member of `NDIS_NET_BUFFER_LIST_8021Q_INFO`: a 3-bit priority,
a 1-bit canonical format indicator and a 12-bit VLAN identifier.  The record with
three zeros is the `NULL` value of the out-of-band slot.  The union's remaining
bits are never assigned by the receiver and are not part of the model. -/
structure NDIS_NET_BUFFER_LIST_8021Q_INFO where
  UserPriority : Nat
  CanonicalFormatId : Nat
  VlanId : Nat
  deriving DecidableEq, Repr

/-- The `NET_BUFFER` embedded in a descriptor (`fAllocateNetBuffer = TRUE`). -/
structure NET_BUFFER where
  Next : Ptr
  FirstMdl : Nat
  CurrentMdl : Nat
  DataOffset : Nat
  DataLength : Nat
  CurrentMdlOffset : Nat
  deriving DecidableEq, Repr

/-- The fields of a `NET_BUFFER_LIST` that the receiver reads or writes.
`Cookie` is the `NET_BUFFER_LIST_RESERVED` overlay of `MiniportReserved`
(lines 55-59); `0` is the `NULL` cookie. -/
structure NET_BUFFER_LIST where
  Next : Ptr
  FirstNetBuffer : NET_BUFFER
  Cookie : Nat
  SourceHandle : Nat
  TcpIpChecksumNetBufferListInfo : NDIS_TCP_IP_CHECKSUM_NET_BUFFER_LIST_INFO
  Ieee8021QNetBufferListInfo : NDIS_NET_BUFFER_LIST_8021Q_INFO
  deriving DecidableEq, Repr

/-- One call of `NdisMIndicateReceiveNetBufferLists`: the descriptor handed to
NDIS and the receive flags.  `InNDIS` is instrumentation: the value that
`InterlockedIncrement` returned for this admission (line 241). -/
structure Indication where
  NetBufferList : Ptr
  Flags : Nat
  InNDIS : Int
  deriving DecidableEq, Repr

/-- The ways the modelled code stops without returning.  `NullDereference` is an
access through a `NULL` pointer, `AssertionFailure n` is the failing `ASSERT` of
source line `n`.  `OutOfFuel` is not a behaviour of the driver: it marks a loop
that the model cut off before the C loop ended. -/
inductive Fault where
  | NullDereference
  | AssertionFailure (line : Nat)
  | OutOfFuel
  deriving DecidableEq, Repr

/-- The memory the receiver works on: the fields of `struct _XENNET_RECEIVER`
(lines 41-50; the lock and the offload options take no part in the modelled
code), the heap of descriptors, and the logs of the calls that leave the driver.
`Allocated` counts the successful `NdisAllocateNetBufferAndNetBufferList` calls,
`Freed` lists the arguments of `NdisFreeNetBufferList`, `Notified` the cookies
passed to `ReceiverReturnPacket` of the VIF interface, `Indicated` the
indications to NDIS, each in call order. -/
structure State where
  Adapter : Nat
  PutList : Ptr
  GetList : Ptr
  InNDIS : Int
  InNDISMax : Int
  Heap : Ptr → NET_BUFFER_LIST
  Allocated : Nat
  Freed : List Ptr
  Notified : List Nat
  Indicated : List Indication

/-- A zero-filled descriptor. -/
def zeroNetBufferList : NET_BUFFER_LIST :=
  { Next := 0
    FirstNetBuffer :=
      { Next := 0, FirstMdl := 0, CurrentMdl := 0, DataOffset := 0, DataLength := 0,
        CurrentMdlOffset := 0 }
    Cookie := 0
    SourceHandle := 0
    TcpIpChecksumNetBufferListInfo :=
      { IpChecksumSucceeded := false, IpChecksumFailed := false,
        TcpChecksumSucceeded := false, TcpChecksumFailed := false,
        UdpChecksumSucceeded := false, UdpChecksumFailed := false, Rest := 0 }
    Ieee8021QNetBufferListInfo := { UserPriority := 0, CanonicalFormatId := 0, VlanId := 0 } }

/-- The NDIS routine `NdisAllocateNetBufferAndNetBufferList(pool, 0, 0, Mdl, Offset,
Length)`, which is outside the driver.  Whether it succeeds is the input `ok`.
On success it returns a descriptor at an address never handed out before
(`Allocated + 1`), zero-filled except for its `NET_BUFFER`, which describes
`(Mdl, Offset, Length)`; on failure it returns `NULL`. -/
def NdisAllocateNetBufferAndNetBufferList (s : State) (ok : Bool) (Mdl Offset Length : Nat) :
    Ptr × State :=
  if ok then
    (s.Allocated + 1,
      { s with
        Allocated := s.Allocated + 1
        Heap := Function.update s.Heap (s.Allocated + 1)
          { zeroNetBufferList with
            FirstNetBuffer :=
              { Next := 0, FirstMdl := Mdl, CurrentMdl := Mdl, DataOffset := Offset,
                DataLength := Length, CurrentMdlOffset := Offset } } })
  else
    (0, s)

/-- The NDIS routine `NdisFreeNetBufferList`: the descriptor goes back to the pool. -/
def NdisFreeNetBufferList (s : State) (NetBufferList : Ptr) : State :=
  { s with Freed := s.Freed ++ [NetBufferList] }

/-- Lines 106-108 of `__ReceiverAllocateNetBufferList`: the cookie slot of the
descriptor is read, asserted empty and written.  `NetBufferList` is dereferenced
without a `NULL` test. -/
def stampCookie (s : State) (NetBufferList : Ptr) (Cookie : Nat) : Except Fault (Ptr × State) :=
  if NetBufferList = 0 then
    .error .NullDereference
  else if (s.Heap NetBufferList).Cookie ≠ 0 then
    .error (.AssertionFailure 107)
  else
    .ok (NetBufferList,
      { s with
        Heap := Function.update s.Heap NetBufferList
          { s.Heap NetBufferList with Cookie := Cookie } })

/-- `__ReceiverAllocateNetBufferList` (lines 61-111).  `allocOk` is the outcome of
the NDIS allocator, should the code call it. -/
def __ReceiverAllocateNetBufferList (s : State) (allocOk : Bool)
    (Mdl Offset Length Cookie : Nat) : Except Fault (Ptr × State) :=
  -- lines 76-77
  let s1 : State := if s.GetList = 0 then { s with GetList := s.PutList, PutList := 0 } else s
  -- line 79
  let NetBufferList := s1.GetList
  if NetBufferList ≠ 0 then
    -- lines 83-91
    let nbl := s1.Heap NetBufferList
    let nb : NET_BUFFER :=
      { nbl.FirstNetBuffer with
        FirstMdl := Mdl, CurrentMdl := Mdl, DataOffset := Offset, DataLength := Length,
        CurrentMdlOffset := Offset }
    let s2 : State :=
      { s1 with
        GetList := nbl.Next
        Heap := Function.update s1.Heap NetBufferList
          { nbl with Next := 0, FirstNetBuffer := nb } }
    -- line 93
    if nb.Next ≠ 0 then
      .error (.AssertionFailure 93)
    else
      stampCookie s2 NetBufferList Cookie
  else
    -- lines 95-101
    let r := NdisAllocateNetBufferAndNetBufferList s1 allocOk Mdl Offset Length
    if r.1 ≠ 0 ∧ (r.2.Heap r.1).Next ≠ 0 then
      .error (.AssertionFailure 101)
    else
      stampCookie r.2 r.1 Cookie

/-- `__ReceiverReleaseNetBufferList` (lines 113-144): the cookie is read and
cleared; the descriptor is pushed on the put list (`Cache`) or freed.  The
compare-exchange loop of lines 133-138 succeeds at its first round when nothing
runs beside it. -/
def __ReceiverReleaseNetBufferList (s : State) (NetBufferList : Ptr) (Cache : Bool) :
    Except Fault (Nat × State) :=
  if NetBufferList = 0 then
    .error .NullDereference
  else
    -- lines 123-125
    let Cookie := (s.Heap NetBufferList).Cookie
    let s1 : State :=
      { s with
        Heap := Function.update s.Heap NetBufferList { s.Heap NetBufferList with Cookie := 0 } }
    if Cache then
      -- line 131
      if (s1.Heap NetBufferList).Next ≠ 0 then
        .error (.AssertionFailure 131)
      else
        -- lines 133-138
        let Old := s1.PutList
        .ok (Cookie,
          { s1 with
            Heap := Function.update s1.Heap NetBufferList
              { s1.Heap NetBufferList with Next := Old }
            PutList := NetBufferList })
    else
      -- line 140
      .ok (Cookie, NdisFreeNetBufferList s1 NetBufferList)

/-- `__ReceiverReturnNetBufferList` (lines 146-165): release, notify the VIF back
end with the recovered cookie, decrement `InNDIS`. -/
def __ReceiverReturnNetBufferList (s : State) (NetBufferList : Ptr) (Cache : Bool) :
    Except Fault State :=
  match __ReceiverReleaseNetBufferList s NetBufferList Cache with
  | .error f => .error f
  | .ok (Cookie, s1) =>
    .ok { s1 with Notified := s1.Notified ++ [Cookie], InNDIS := toLONG (s1.InNDIS - 1) }

/-- Modelled from the spec: the macro `UNPACK_TAG_CONTROL_INFORMATION` (line 212)
is defined in a header that is not among the sources.  The spec says that the tag
value "is unpacked into priority, format-indicator, and identifier fields"; the
three projections are left open, and the code is modelled for every choice of
them. -/
structure TagUnpack where
  UserPriority : Nat → Nat
  CanonicalFormatId : Nat → Nat
  VlanId : Nat → Nat

/-- Modelled from the spec: the unpacking of an IEEE 802.1Q tag control word into
the spec's priority (top 3 bits), format indicator (1 bit) and identifier (low 12
bits), used where a concrete unpacking is needed to run the code. -/
def ieee8021Q : TagUnpack :=
  { UserPriority := fun t => (t / 8192) % 8
    CanonicalFormatId := fun t => (t / 4096) % 2
    VlanId := fun t => t % 4096 }

/-- `__ReceiverReceivePacket` (lines 167-230).  The result pointer `0` is the
`NULL` of `fail1`.  `MaximumSegmentSize` and `Info` are unreferenced, as in the
source.  The handle of the adapter stands for `AdapterGetHandle(Adapter)`. -/
def __ReceiverReceivePacket (U : TagUnpack) (s : State) (allocOk : Bool)
    (Mdl Offset Length : Nat) (Flags : XENVIF_PACKET_CHECKSUM_FLAGS)
    (MaximumSegmentSize TagControlInformation Info Cookie : Nat) :
    Except Fault (Ptr × State) :=
  let _ := MaximumSegmentSize
  let _ := Info
  match __ReceiverAllocateNetBufferList s allocOk Mdl Offset Length Cookie with
  | .error f => .error f
  | .ok (NetBufferList, s1) =>
    if NetBufferList = 0 then
      -- lines 191-192, fail1
      .ok (0, s1)
    else
      -- lines 194-207
      let csumInfo : NDIS_TCP_IP_CHECKSUM_NET_BUFFER_LIST_INFO :=
        { IpChecksumSucceeded := Flags.IpChecksumSucceeded
          IpChecksumFailed := Flags.IpChecksumFailed
          TcpChecksumSucceeded := Flags.TcpChecksumSucceeded
          TcpChecksumFailed := Flags.TcpChecksumFailed
          UdpChecksumSucceeded := Flags.UdpChecksumSucceeded
          UdpChecksumFailed := Flags.UdpChecksumFailed
          Rest := 0 }
      let s2 : State :=
        { s1 with
          Heap := Function.update s1.Heap NetBufferList
            { s1.Heap NetBufferList with
              SourceHandle := s1.Adapter
              TcpIpChecksumNetBufferListInfo := csumInfo } }
      -- line 209
      if TagControlInformation ≠ 0 then
        -- lines 212-215: the three bit-fields keep 3, 1 and 12 bits
        let Ieee8021QInfo : NDIS_NET_BUFFER_LIST_8021Q_INFO :=
          { UserPriority := U.UserPriority TagControlInformation % 8
            CanonicalFormatId := U.CanonicalFormatId TagControlInformation % 2
            VlanId := U.VlanId TagControlInformation % 4096 }
        -- line 217
        if Ieee8021QInfo.VlanId ≠ 0 then
          -- fail2, line 226
          match __ReceiverReleaseNetBufferList s2 NetBufferList true with
          | .error f => .error f
          | .ok (_, s3) => .ok (0, s3)
        else
          -- line 220
          .ok (NetBufferList,
            { s2 with
              Heap := Function.update s2.Heap NetBufferList
                { s2.Heap NetBufferList with Ieee8021QNetBufferListInfo := Ieee8021QInfo } })
      else
        .ok (NetBufferList, s2)

/-- `__ReceiverPushPacket` (lines 232-268).  The compare-exchange loop of lines
247-258 leaves `InNDISMax` at `InNDIS` when `InNDIS` is larger and untouched
otherwise.  The indication is recorded in `Indicated`; NDIS does not change the
descriptor during the call. -/
def __ReceiverPushPacket (s : State) (NetBufferList : Ptr) : Except Fault State :=
  -- line 241
  let InNDIS := toLONG (s.InNDIS + 1)
  let s1 : State := { s with InNDIS := InNDIS }
  -- lines 243-245
  let Flags : Nat :=
    if InNDIS > IN_NDIS_MAX then
      NDIS_RECEIVE_FLAGS_DISPATCH_LEVEL ||| NDIS_RECEIVE_FLAGS_RESOURCES
    else
      NDIS_RECEIVE_FLAGS_DISPATCH_LEVEL
  -- lines 247-258
  let s2 : State :=
    { s1 with InNDISMax := if InNDIS ≤ s1.InNDISMax then s1.InNDISMax else InNDIS }
  -- lines 260-264
  let s3 : State :=
    { s2 with
      Indicated := s2.Indicated ++
        [{ NetBufferList := NetBufferList, Flags := Flags, InNDIS := InNDIS }] }
  -- lines 266-267
  if Flags &&& NDIS_RECEIVE_FLAGS_RESOURCES ≠ 0 then
    __ReceiverReturnNetBufferList s3 NetBufferList false
  else
    .ok s3

/-- `ReceiverInitialize` (lines 270-313): `none` is the `NDIS_STATUS_RESOURCES`
outcome (either allocation failed), otherwise the zero-filled receiver bound to
`Adapter`.  No descriptor has been allocated and nothing has been logged. -/
def ReceiverInitialize (Adapter : Nat) (receiverOk poolOk : Bool) : Option State :=
  if !receiverOk then
    none
  else if !poolOk then
    none
  else
    some
      { Adapter := Adapter
        PutList := 0
        GetList := 0
        InNDIS := 0
        InNDISMax := 0
        Heap := fun _ => zeroNetBufferList
        Allocated := 0
        Freed := []
        Notified := []
        Indicated := [] }

/-- `ReceiverReturnNetBufferLists` (lines 356-375).  The `while` loop follows the
chain that starts at `NetBufferList`; the first argument (fuel) bounds the number
of rounds, and the loop test of line 365 comes first whatever fuel is left.
`ReturnFlags` is unreferenced, as in the source. -/
def ReceiverReturnNetBufferLists : Nat → State → Ptr → Nat → Except Fault State
  | 0, s, NetBufferList, _ =>
    if NetBufferList = 0 then .ok s else .error .OutOfFuel
  | fuel + 1, s, NetBufferList, ReturnFlags =>
    -- line 365
    if NetBufferList = 0 then
      .ok s
    else
      -- lines 368-369
      let Next := (s.Heap NetBufferList).Next
      let s1 : State :=
        { s with
          Heap := Function.update s.Heap NetBufferList { s.Heap NetBufferList with Next := 0 } }
      -- line 371
      match __ReceiverReturnNetBufferList s1 NetBufferList true with
      | .error f => .error f
      | .ok s2 => ReceiverReturnNetBufferLists fuel s2 Next ReturnFlags

/-- `ReceiverQueuePacket` (lines 377-412). -/
def ReceiverQueuePacket (U : TagUnpack) (s : State) (allocOk : Bool)
    (Mdl Offset Length : Nat) (Flags : XENVIF_PACKET_CHECKSUM_FLAGS)
    (MaximumSegmentSize TagControlInformation Info Cookie : Nat) : Except Fault State :=
  match __ReceiverReceivePacket U s allocOk Mdl Offset Length Flags MaximumSegmentSize
      TagControlInformation Info Cookie with
  | .error f => .error f
  | .ok (NetBufferList, s1) =>
    if NetBufferList ≠ 0 then
      __ReceiverPushPacket s1 NetBufferList
    else
      .ok { s1 with Notified := s1.Notified ++ [Cookie] }

/-- One of the two `while` loops of `ReceiverTeardown` (lines 325-334 and
337-346): every descriptor of the chain that starts at `NetBufferList` is unlinked
and freed.  The first argument (fuel) bounds the number of rounds. -/
def teardownLoop : Nat → State → Ptr → Except Fault State
  | 0, s, NetBufferList =>
    if NetBufferList = 0 then .ok s else .error .OutOfFuel
  | fuel + 1, s, NetBufferList =>
    if NetBufferList = 0 then
      .ok s
    else
      let Next := (s.Heap NetBufferList).Next
      let s1 : State :=
        { s with
          Heap := Function.update s.Heap NetBufferList { s.Heap NetBufferList with Next := 0 } }
      teardownLoop fuel (NdisFreeNetBufferList s1 NetBufferList) Next

/-- `ReceiverTeardown` (lines 315-354): the get list, then the put list, are
drained into `NdisFreeNetBufferList`; the pool handle and the adapter are
cleared (lines 348-351).  The release of the pool and of the receiver itself
leaves no trace in the model. -/
def ReceiverTeardown (fuel : Nat) (s : State) : Except Fault State :=
  match teardownLoop fuel s s.GetList with
  | .error f => .error f
  | .ok s1 =>
    match teardownLoop fuel s1 s1.PutList with
    | .error f => .error f
    | .ok s2 => .ok { s2 with Adapter := 0 }

/-- The chain that starts at `p` and follows `Next` to `NULL` consists of the
descriptors `l`, in that order. -/
def IsList (h : Ptr → NET_BUFFER_LIST) : Ptr → List Ptr → Prop
  | p, [] => p = 0
  | p, x :: xs => p = x ∧ x ≠ 0 ∧ IsList h (h x).Next xs

instance IsList.decidable (h : Ptr → NET_BUFFER_LIST) :
    (p : Ptr) → (l : List Ptr) → Decidable (IsList h p l)
  | p, [] => by unfold IsList; infer_instance
  | p, x :: xs => by
    unfold IsList
    have := IsList.decidable h (h x).Next xs
    infer_instance


/-- The receiver right after a successful `ReceiverInitialize` for adapter `1`. -/
def initial : State :=
  { Adapter := 1
    PutList := 0
    GetList := 0
    InNDIS := 0
    InNDISMax := 0
    Heap := fun _ => zeroNetBufferList
    Allocated := 0
    Freed := []
    Notified := []
    Indicated := [] }

/-- A packet with no checksum outcome reported. -/
def noFlags : XENVIF_PACKET_CHECKSUM_FLAGS :=
  { IpChecksumSucceeded := false, IpChecksumFailed := false,
    TcpChecksumSucceeded := false, TcpChecksumFailed := false,
    UdpChecksumSucceeded := false, UdpChecksumFailed := false }

/-- A descriptor used twice: a packet `(Flags1, Tag1, Cookie1)` is received on the
state `s` (acquire and annotate), the descriptor is released with caching, and a
packet `(Flags2, Tag2, Cookie2)` is received.  The result is the content of the
descriptor that the second reception returns. -/
def useTwice (U : TagUnpack) (s : State) (Flags1 : XENVIF_PACKET_CHECKSUM_FLAGS)
    (Tag1 Cookie1 : Nat) (Flags2 : XENVIF_PACKET_CHECKSUM_FLAGS) (Tag2 Cookie2 : Nat) :
    Except Fault (Ptr × Ptr × NET_BUFFER_LIST) :=
  match __ReceiverReceivePacket U s true 100 0 64 Flags1 0 Tag1 0 Cookie1 with
  | .error f => .error f
  | .ok (p, s1) =>
    match __ReceiverReleaseNetBufferList s1 p true with
    | .error f => .error f
    | .ok (_, s2) =>
      match __ReceiverReceivePacket U s2 true 200 0 64 Flags2 0 Tag2 0 Cookie2 with
      | .error f => .error f
      | .ok (q, s3) => .ok (p, q, s3.Heap q)

/-- The state of a successful acquisition or reception, `d` if it stopped. -/
def stateOf (r : Except Fault (Ptr × State)) (d : State) : State :=
  match r with
  | .ok (_, s) => s
  | .error _ => d

/-- `__ReceiverPushPacket` called for each descriptor of `l` in turn, with no
return from NDIS in between. -/
def admitAll : State → List Ptr → Except Fault State
  | s, [] => .ok s
  | s, p :: ps =>
    match __ReceiverPushPacket s p with
    | .error f => .error f
    | .ok s1 => admitAll s1 ps

/-- The state a call returned with, `d` if it stopped. -/
def finalState (r : Except Fault State) (d : State) : State :=
  match r with
  | .ok s => s
  | .error _ => d

/-- The receiver with no descriptor of its own and `n` descriptors counted as
outstanding. -/
def outstanding (n : Int) : State := { initial with InNDIS := n, InNDISMax := n }

/-- The host stack chains the descriptors `l` through their `Next` fields, the
last one ending the chain, before it hands them back.  This is the behaviour of
NDIS, not code of the driver. -/
def hostChain (h : Ptr → NET_BUFFER_LIST) : List Ptr → (Ptr → NET_BUFFER_LIST)
  | [] => h
  | x :: r => Function.update (hostChain h r) x { hostChain h r x with Next := r.headD 0 }

/-- A call into the receiver: a packet queued by the VIF back end (with the
outcome of the NDIS allocator, should it be asked), or a chain of descriptors
returned by NDIS. -/
inductive Call where
  | queuePacket (allocOk : Bool) (Mdl Offset Length : Nat)
      (Flags : XENVIF_PACKET_CHECKSUM_FLAGS)
      (MaximumSegmentSize TagControlInformation Info Cookie : Nat)
  | returnDescriptors (l : List Ptr) (ReturnFlags : Nat)

/-- One call, run to completion.  For a return, NDIS has chained the descriptors
of `l`, and the loop of `ReceiverReturnNetBufferLists` gets one round per
descriptor. -/
def step (U : TagUnpack) (s : State) : Call → Except Fault State
  | .queuePacket allocOk Mdl Offset Length Flags MaximumSegmentSize TagControlInformation
      Info Cookie =>
    ReceiverQueuePacket U s allocOk Mdl Offset Length Flags MaximumSegmentSize
      TagControlInformation Info Cookie
  | .returnDescriptors l ReturnFlags =>
    ReceiverReturnNetBufferLists l.length { s with Heap := hostChain s.Heap l } (l.headD 0)
      ReturnFlags

/-- A sequence of calls, each run to completion before the next. -/
def run (U : TagUnpack) : State → List Call → Except Fault State
  | s, [] => .ok s
  | s, c :: cs =>
    match step U s c with
    | .error f => .error f
    | .ok s1 => run U s1 cs

/-- The largest of the values that `InterlockedIncrement` returned to the
admissions logged in `Indicated`; `0` when there was none. -/
def maxAdmitted (s : State) : Int :=
  (s.Indicated.map Indication.InNDIS).foldl max 0

/-- The receiver after two packets, with cookies `7` and `8`, were queued on the
initialized receiver and delivered in the descriptors `1` and `2`, and NDIS has
chained descriptor `2` in front of descriptor `1` for their return. -/
def twoDelivered : State :=
  let s := finalState (run ieee8021Q initial
    [.queuePacket true 100 0 64 noFlags 0 0 0 7, .queuePacket true 200 0 64 noFlags 0 0 0 8])
    initial
  { s with Heap := hostChain s.Heap [2, 1] }

/-- The receiver after a packet with cookie `7` was queued on the initialized
receiver, delivered in descriptor `1`, and returned by NDIS: descriptor `1` is on
the put list and the get list is empty. -/
def oneReturned : State :=
  finalState (run ieee8021Q initial
    [.queuePacket true 100 0 64 noFlags 0 0 0 7, .returnDescriptors [1] 0]) initial

/-- The value of `csumInfo` after lines 196-205: every bit zero except the six
outcome bits, which are those of `Flags`. -/
def checksumInfo (Flags : XENVIF_PACKET_CHECKSUM_FLAGS) :
    NDIS_TCP_IP_CHECKSUM_NET_BUFFER_LIST_INFO :=
  { IpChecksumSucceeded := Flags.IpChecksumSucceeded
    IpChecksumFailed := Flags.IpChecksumFailed
    TcpChecksumSucceeded := Flags.TcpChecksumSucceeded
    TcpChecksumFailed := Flags.TcpChecksumFailed
    UdpChecksumSucceeded := Flags.UdpChecksumSucceeded
    UdpChecksumFailed := Flags.UdpChecksumFailed
    Rest := 0 }

/-- The value of `Ieee8021QInfo.TagHeader` after lines 212-215. -/
def tagHeader (U : TagUnpack) (TagControlInformation : Nat) : NDIS_NET_BUFFER_LIST_8021Q_INFO :=
  { UserPriority := U.UserPriority TagControlInformation % 8
    CanonicalFormatId := U.CanonicalFormatId TagControlInformation % 2
    VlanId := U.VlanId TagControlInformation % 4096 }

/-- Two releases with caching, of `a` and then of `b`
(`__ReceiverReleaseNetBufferList(Receiver, _, TRUE)` twice). -/
def releaseTwo (s : State) (a b : Ptr) : Except Fault State :=
  match __ReceiverReleaseNetBufferList s a true with
  | .error f => .error f
  | .ok (_, s1) =>
    match __ReceiverReleaseNetBufferList s1 b true with
    | .error f => .error f
    | .ok (_, s2) => .ok s2

/-- The receiver with empty free lists in which the descriptors `1` and `2` have
been allocated and are held outside the free lists: the state after two packets
were delivered on the initialized receiver. -/
def twoHeld : State :=
  finalState (run ieee8021Q initial
    [.queuePacket true 100 0 64 noFlags 0 0 0 7, .queuePacket true 200 0 64 noFlags 0 0 0 8])
    initial

/-- The descriptors that NDIS owns after the call `c` took the receiver from `s`
to `s'`, each with the cookie of the packet it was admitted for, given those it
owned before.  A queued packet adds the descriptor of every indication the call
made without the resources flag (a Normal admission), with the cookie of the
call; a return removes the descriptors returned. -/
def ownedAfter (s s' : State) (owned : List (Ptr × Nat)) : Call → List (Ptr × Nat)
  | .queuePacket _ _ _ _ _ _ _ _ Cookie =>
    owned ++
      ((s'.Indicated.drop s.Indicated.length).filter
        (fun i => i.Flags &&& NDIS_RECEIVE_FLAGS_RESOURCES = 0)).map
        (fun i => (i.NetBufferList, Cookie))
  | .returnDescriptors l _ => owned.filter (fun pc => pc.1 ∉ l)

/-- What NDIS may do: it returns only descriptors it owns, each once. -/
def allowed (owned : List (Ptr × Nat)) : Call → Prop
  | .queuePacket _ _ _ _ _ _ _ _ _ => True
  | .returnDescriptors l _ => l.Nodup ∧ ∀ p ∈ l, p ∈ owned.map Prod.fst

/-- The call does not make the NDIS allocator fail. -/
def allocSucceeds : Call → Prop
  | .queuePacket allocOk _ _ _ _ _ _ _ _ => allocOk = true
  | .returnDescriptors _ _ => True

/-- The states of the receiver between completed calls, with the descriptors NDIS
owns: the receiver after a successful `ReceiverInitialize` (NDIS owns nothing),
and the state after any call that NDIS or the VIF back end may make on such a
state and that returned. -/
inductive Reachable (U : TagUnpack) : State → List (Ptr × Nat) → Prop where
  | init (Adapter : Nat) (s0 : State) :
      ReceiverInitialize Adapter true true = some s0 → Reachable U s0 []
  | call (s s' : State) (owned : List (Ptr × Nat)) (c : Call) :
      Reachable U s owned → allowed owned c → step U s c = .ok s' →
      Reachable U s' (ownedAfter s s' owned c)

/-- The descriptors of the get list, of the put list, of NDIS and those freed,
counted with multiplicity. -/
def cells (gl pl : List Ptr) (owned : List (Ptr × Nat)) (freed : List Ptr) : Multiset Ptr :=
  (gl : Multiset Ptr) + (pl : Multiset Ptr) + ((owned.map Prod.fst : List Ptr) : Multiset Ptr) +
    (freed : Multiset Ptr)

/-- The invariant of the receiver between calls, for free lists `gl` and `pl` and
the descriptors `owned` by NDIS: the free lists are chains; every descriptor ever
allocated is in exactly one of get list, put list, NDIS, freed; only descriptors
owned by NDIS hold a cookie, and they hold the cookie recorded for them; every
descriptor has one `NET_BUFFER`; `InNDIS` counts the descriptors NDIS owns, at
most 1024, and `InNDISMax` is at most 1025. -/
structure Inv (s : State) (owned : List (Ptr × Nat)) (gl pl : List Ptr) : Prop where
  getList : IsList s.Heap s.GetList gl
  putList : IsList s.Heap s.PutList pl
  nodup : (cells gl pl owned s.Freed).Nodup
  range : ∀ x ∈ cells gl pl owned s.Freed, x ≠ 0 ∧ x ≤ s.Allocated
  card : Multiset.card (cells gl pl owned s.Freed) = s.Allocated
  cookieFree : ∀ x, x ∉ owned.map Prod.fst → (s.Heap x).Cookie = 0
  cookieOwned : ∀ pc ∈ owned, (s.Heap pc.1).Cookie = pc.2
  oneBuffer : ∀ x, (s.Heap x).FirstNetBuffer.Next = 0
  inNDIS : s.InNDIS = owned.length
  bound : owned.length ≤ 1024
  mark : s.InNDISMax ≤ 1025

/-- The packet `(100, 0, 64)` with no checksum outcome, no tag and cookie `7`,
queued while the NDIS allocator works. -/
def packet7 : Call := .queuePacket true 100 0 64 noFlags 0 0 0 7

/-- The same packet with the `NULL` cookie. -/
def packetNull : Call := .queuePacket true 100 0 64 noFlags 0 0 0 0

/-- The receiver after `packet7` was queued on the initialized receiver: it is
delivered in descriptor `1`, which NDIS owns. -/
def delivered : State := finalState (step ieee8021Q initial packet7) initial

/-- The receiver after `packetNull` was queued on the initialized receiver. -/
def deliveredNull : State := finalState (step ieee8021Q initial packetNull) initial

/-- The packet `(100, 0, 64)` with tag value `5` (identifier 5) and cookie `7`. -/
def packetTag5 : Call := .queuePacket true 100 0 64 noFlags 0 5 0 7

/-- The number of descriptors in existence: allocated by NDIS and not yet freed. -/
def inExistence (s : State) : Nat := s.Allocated - s.Freed.length

/-- The receiver after NDIS returned descriptor `1` of `delivered`: the descriptor
is on the put list and NDIS owns nothing. -/
def returned : State :=
  finalState (step ieee8021Q delivered (.returnDescriptors [1] 0)) initial

/-- After `delivered`, a packet with cookie `10` was queued and delivered in
descriptor `2`. -/
def mixed2 : State :=
  finalState (step ieee8021Q delivered (.queuePacket true 200 0 64 noFlags 0 0 0 10)) initial

/-- After `mixed2`, a packet with cookie `12` was queued and delivered in
descriptor `3`: NDIS owns the descriptors `1`, `2` and `3`. -/
def mixed3 : State :=
  finalState (step ieee8021Q mixed2 (.queuePacket true 300 0 64 noFlags 0 0 0 12)) initial

/-- After `mixed3`, NDIS returned descriptor `1`. -/
def mixed4 : State := finalState (step ieee8021Q mixed3 (.returnDescriptors [1] 0)) initial

/-- After `mixed4`, NDIS returned descriptor `3`: the put list is `3, 1`. -/
def mixed5 : State := finalState (step ieee8021Q mixed4 (.returnDescriptors [3] 0)) initial

/-- After `mixed5`, a packet with tag identifier 5 was queued and rejected: the
acquisition moved the put list to the get list and popped descriptor `3`, which
the rejection pushed back on the put list.  The get list is `1`, the put list is
`3`, and NDIS owns descriptor `2`. -/
def mixed : State := finalState (step ieee8021Q mixed5 packetTag5) initial

/-! ## Theorems -/

theorem queuePacket_of_receive_ok (U : TagUnpack) (s s1 : State) (allocOk : Bool)
    (Mdl Offset Length : Nat) (Flags : XENVIF_PACKET_CHECKSUM_FLAGS)
    (MaximumSegmentSize TagControlInformation Info Cookie : Nat) (nbl : Ptr)
    (hrecv : __ReceiverReceivePacket U s allocOk Mdl Offset Length Flags MaximumSegmentSize
      TagControlInformation Info Cookie = .ok (nbl, s1))
    (hne : nbl ≠ 0) :
    ReceiverQueuePacket U s allocOk Mdl Offset Length Flags MaximumSegmentSize
      TagControlInformation Info Cookie = __ReceiverPushPacket s1 nbl := by
  simp [ReceiverQueuePacket, hrecv, hne]

theorem ReceiverInitialize_eq_initial : ReceiverInitialize 1 true true = some initial := rfl

/-- C1 (as the code behaves): with both free lists empty and the NDIS allocator
failing, `__ReceiverAllocateNetBufferList` does not report a rejection: it reaches
lines 106-108 with `NetBufferList = NULL` and dereferences it, so
`ReceiverQueuePacket` stops there, before the `NULL` test of line 191 and before
any notification of line 408. -/
theorem C1_queuePacket_alloc_failure_null_dereference (U : TagUnpack) (s : State)
    (Mdl Offset Length : Nat) (Flags : XENVIF_PACKET_CHECKSUM_FLAGS)
    (MaximumSegmentSize TagControlInformation Info Cookie : Nat)
    (hget : s.GetList = 0) (hput : s.PutList = 0) :
    __ReceiverAllocateNetBufferList s false Mdl Offset Length Cookie
        = .error .NullDereference ∧
      ReceiverQueuePacket U s false Mdl Offset Length Flags MaximumSegmentSize
        TagControlInformation Info Cookie = .error .NullDereference := by
  have h : __ReceiverAllocateNetBufferList s false Mdl Offset Length Cookie
      = .error .NullDereference := by
    simp [__ReceiverAllocateNetBufferList, NdisAllocateNetBufferAndNetBufferList, stampCookie,
      hget, hput]
  refine ⟨h, ?_⟩
  simp [ReceiverQueuePacket, __ReceiverReceivePacket, h]

/-- C1 at the freshly initialized receiver: a packet with cookie `7` is queued
while the allocator fails. -/
theorem C1_queuePacket_alloc_failure_witness :
    __ReceiverAllocateNetBufferList initial false 100 0 64 7 = .error .NullDereference ∧
      ReceiverQueuePacket ieee8021Q initial false 100 0 64 noFlags 0 0 0 7
        = .error .NullDereference :=
  C1_queuePacket_alloc_failure_null_dereference ieee8021Q initial 100 0 64 noFlags 0 0 0 7
    rfl rfl

/-- C2 (as the code behaves): a descriptor first used for a packet tagged `0x2000`
(priority 1, identifier 0), released with caching, and reused for an untagged
packet (tag value 0) still carries priority 1 in its tag metadata; had the first
packet been tagged `0x4000` it would carry priority 2.  Line 209 skips the write
of line 220 and nothing resets the slot of a recycled descriptor, so the tag
metadata after the second annotation depends on the first use. -/
theorem C2_stale_tag_metadata_on_reuse :
    useTwice ieee8021Q initial noFlags 8192 7 noFlags 0 8 = .ok (1, 1,
      { zeroNetBufferList with
        FirstNetBuffer :=
          { Next := 0, FirstMdl := 200, CurrentMdl := 200, DataOffset := 0, DataLength := 64,
            CurrentMdlOffset := 0 }
        Cookie := 8
        SourceHandle := 1
        Ieee8021QNetBufferListInfo :=
          { UserPriority := 1, CanonicalFormatId := 0, VlanId := 0 } }) ∧
    useTwice ieee8021Q initial noFlags 16384 7 noFlags 0 8 = .ok (1, 1,
      { zeroNetBufferList with
        FirstNetBuffer :=
          { Next := 0, FirstMdl := 200, CurrentMdl := 200, DataOffset := 0, DataLength := 64,
            CurrentMdlOffset := 0 }
        Cookie := 8
        SourceHandle := 1
        Ieee8021QNetBufferListInfo :=
          { UserPriority := 2, CanonicalFormatId := 0, VlanId := 0 } }) :=
  ⟨rfl, rfl⟩

/-! ### Chains and heap updates -/

theorem IsList_update_of_not_mem (h : Ptr → NET_BUFFER_LIST) (x : Ptr) (v : NET_BUFFER_LIST)
    (l : List Ptr) (hx : x ∉ l) (p : Ptr) :
    IsList (Function.update h x v) p l ↔ IsList h p l := by
  induction l generalizing p with
  | nil => simp [IsList]
  | cons y ys ih =>
    have hyx : y ≠ x := fun e => hx (by simp [e])
    have hys : x ∉ ys := fun e => hx (by simp [e])
    simp [IsList, Function.update_noteq hyx, ih hys]

theorem IsList_congr (h h' : Ptr → NET_BUFFER_LIST) (l : List Ptr)
    (hl : ∀ x ∈ l, (h' x).Next = (h x).Next) (p : Ptr) :
    IsList h' p l ↔ IsList h p l := by
  induction l generalizing p with
  | nil => simp [IsList]
  | cons y ys ih =>
    have hy := hl y (by simp)
    have hys : ∀ x ∈ ys, (h' x).Next = (h x).Next := fun x hx => hl x (by simp [hx])
    simp [IsList, hy, ih hys]

theorem IsList_zero (h : Ptr → NET_BUFFER_LIST) (l : List Ptr) (hl : IsList h 0 l) : l = [] := by
  cases l with
  | nil => rfl
  | cons y ys => exact absurd hl.1.symm hl.2.1

theorem IsList_functional (h : Ptr → NET_BUFFER_LIST) (l l' : List Ptr) (p : Ptr)
    (hl : IsList h p l) (hl' : IsList h p l') : l = l' := by
  induction l generalizing p l' with
  | nil =>
    have hp : p = 0 := hl
    subst hp
    exact (IsList_zero h l' hl').symm
  | cons y ys ih =>
    obtain ⟨hpy, hy0, hys⟩ := hl
    cases l' with
    | nil =>
      have hp : p = 0 := hl'
      exact absurd (hpy.symm.trans hp) hy0
    | cons z zs =>
      obtain ⟨hpz, _, hzs⟩ := hl'
      have hyz : y = z := hpy.symm.trans hpz
      subst hyz
      rw [ih zs _ hys hzs]

theorem IsList_suffix (h : Ptr → NET_BUFFER_LIST) (l : List Ptr) (p x : Ptr)
    (hl : IsList h p l) (hx : x ∈ l) :
    ∃ l', IsList h x l' ∧ l'.length ≤ l.length ∧ l' ≠ [] := by
  induction l generalizing p with
  | nil => simp at hx
  | cons y ys ih =>
    obtain ⟨hpy, hy0, hys⟩ := hl
    rcases List.mem_cons.mp hx with hxy | hxys
    · subst hxy
      exact ⟨x :: ys, ⟨rfl, hy0, hys⟩, le_refl _, by simp⟩
    · obtain ⟨l', h1, h2, h3⟩ := ih _ hys hxys
      exact ⟨l', h1, by simp; omega, h3⟩

theorem IsList_head_not_mem_tail (h : Ptr → NET_BUFFER_LIST) (x : Ptr) (xs : List Ptr) (p : Ptr)
    (hl : IsList h p (x :: xs)) : x ∉ xs := by
  intro hx
  obtain ⟨_, hx0, hxs⟩ := hl
  obtain ⟨l', h1, h2, _⟩ := IsList_suffix h xs _ x hxs hx
  have h3 : IsList h x (x :: xs) := ⟨rfl, hx0, hxs⟩
  have h4 := IsList_functional h _ _ _ h3 h1
  rw [← h4] at h2
  simp at h2

theorem IsList_nodup (h : Ptr → NET_BUFFER_LIST) (l : List Ptr) (p : Ptr)
    (hl : IsList h p l) : l.Nodup := by
  induction l generalizing p with
  | nil => simp
  | cons y ys ih =>
    exact List.nodup_cons.mpr ⟨IsList_head_not_mem_tail h y ys p hl, ih _ hl.2.2⟩

theorem IsList_not_mem_zero (h : Ptr → NET_BUFFER_LIST) (l : List Ptr) (p : Ptr)
    (hl : IsList h p l) : (0 : Ptr) ∉ l := by
  induction l generalizing p with
  | nil => simp
  | cons y ys ih =>
    intro h0
    rcases List.mem_cons.mp h0 with e | e
    · exact hl.2.1 e.symm
    · exact ih _ hl.2.2 e

/-! ### What a successful acquisition establishes -/

theorem acquire_ok (s s1 : State) (allocOk : Bool) (Mdl Offset Length Cookie : Nat) (nbl : Ptr)
    (hacq : __ReceiverAllocateNetBufferList s allocOk Mdl Offset Length Cookie = .ok (nbl, s1)) :
    nbl ≠ 0 ∧ (s1.Heap nbl).Next = 0 ∧ (s1.Heap nbl).Cookie = Cookie ∧
      (s1.Heap nbl).FirstNetBuffer =
        { Next := 0, FirstMdl := Mdl, CurrentMdl := Mdl, DataOffset := Offset,
          DataLength := Length, CurrentMdlOffset := Offset } ∧
      s1.Adapter = s.Adapter ∧ s1.InNDIS = s.InNDIS ∧ s1.InNDISMax = s.InNDISMax ∧
      s1.Freed = s.Freed ∧ s1.Notified = s.Notified ∧ s1.Indicated = s.Indicated ∧
      (∀ q, q ≠ nbl → s1.Heap q = s.Heap q) := by
  by_cases hg : s.GetList = 0
  · by_cases hp : s.PutList = 0
    · cases allocOk
      · simp [__ReceiverAllocateNetBufferList, stampCookie,
          NdisAllocateNetBufferAndNetBufferList, hg, hp] at hacq
      · simp [__ReceiverAllocateNetBufferList, stampCookie,
          NdisAllocateNetBufferAndNetBufferList, hg, hp, zeroNetBufferList] at hacq
        obtain ⟨rfl, rfl⟩ := hacq
        simp +contextual [zeroNetBufferList, Function.update_noteq]
    · by_cases hnb : (s.Heap s.PutList).FirstNetBuffer.Next = 0
      · by_cases hc : (s.Heap s.PutList).Cookie = 0
        · simp [__ReceiverAllocateNetBufferList, stampCookie, hg, hp, hnb, hc] at hacq
          obtain ⟨rfl, rfl⟩ := hacq
          simp +contextual [hp, hnb, Function.update_noteq]
        · simp [__ReceiverAllocateNetBufferList, stampCookie, hg, hp, hnb, hc] at hacq
      · simp [__ReceiverAllocateNetBufferList, stampCookie, hg, hp, hnb] at hacq
  · by_cases hnb : (s.Heap s.GetList).FirstNetBuffer.Next = 0
    · by_cases hc : (s.Heap s.GetList).Cookie = 0
      · simp [__ReceiverAllocateNetBufferList, stampCookie, hg, hnb, hc] at hacq
        obtain ⟨rfl, rfl⟩ := hacq
        simp +contextual [hg, hnb, Function.update_noteq]
      · simp [__ReceiverAllocateNetBufferList, stampCookie, hg, hnb, hc] at hacq
    · simp [__ReceiverAllocateNetBufferList, stampCookie, hg, hnb] at hacq

/-- C3: when the tag value is non-zero and its identifier (as kept by the 12-bit
field) is non-zero, and the acquisition succeeded with descriptor `nbl`,
`ReceiverQueuePacket` returns having indicated nothing to NDIS; the descriptor is
the new head of the put list, linked in front of the put list left by the
acquisition, with an empty cookie and not freed; the VIF back end is notified
once, with the packet's cookie; `InNDIS` and `InNDISMax` keep their values. -/
theorem C3_queuePacket_unsupported_tag (U : TagUnpack) (s s1 : State) (allocOk : Bool)
    (Mdl Offset Length : Nat) (Flags : XENVIF_PACKET_CHECKSUM_FLAGS)
    (MaximumSegmentSize TagControlInformation Info Cookie : Nat) (nbl : Ptr)
    (htag : TagControlInformation ≠ 0)
    (hid : U.VlanId TagControlInformation % 4096 ≠ 0)
    (hacq : __ReceiverAllocateNetBufferList s allocOk Mdl Offset Length Cookie = .ok (nbl, s1)) :
    ∃ s', ReceiverQueuePacket U s allocOk Mdl Offset Length Flags MaximumSegmentSize
          TagControlInformation Info Cookie = .ok s' ∧
      s'.Indicated = s.Indicated ∧
      s'.PutList = nbl ∧ (s'.Heap nbl).Next = s1.PutList ∧ (s'.Heap nbl).Cookie = 0 ∧
      (∀ pl, IsList s1.Heap s1.PutList pl → nbl ∉ pl → IsList s'.Heap s'.PutList (nbl :: pl)) ∧
      s'.GetList = s1.GetList ∧
      (∀ q, q ≠ nbl → s'.Heap q = s1.Heap q) ∧
      s'.Freed = s.Freed ∧
      s'.Notified = s.Notified ++ [Cookie] ∧
      s'.InNDIS = s.InNDIS ∧ s'.InNDISMax = s.InNDISMax := by
  obtain ⟨hne, hnext, -, -, -, hin, hmax, hfr, hno, hind, -⟩ :=
    acquire_ok s s1 allocOk Mdl Offset Length Cookie nbl hacq
  simp [ReceiverQueuePacket, __ReceiverReceivePacket, hacq,
      __ReceiverReleaseNetBufferList, hne, htag, hid, hnext]
  refine ⟨hind, ?_, ?_, hfr, hno, hin, hmax⟩
  · intro pl hpl hmem
    simp only [IsList, Function.update_same]
    exact ⟨trivial, hne, (IsList_update_of_not_mem _ _ _ _ hmem _).mpr hpl⟩
  · intro q hq
    simp [Function.update_noteq hq]

/-- C3 on the freshly initialized receiver: a packet with tag value `5`
(identifier 5) and cookie `7`, the allocator succeeding, ends with descriptor `1`
on the put list and the cookie notified. -/
theorem C3_queuePacket_unsupported_tag_witness :
    (5 ≠ 0 ∧ ieee8021Q.VlanId 5 % 4096 ≠ 0) ∧
    ∃ s', ReceiverQueuePacket ieee8021Q initial true 100 0 64 noFlags 0 5 0 7 = .ok s' ∧
      s'.Indicated = [] ∧ s'.PutList = 1 ∧ (s'.Heap 1).Next = 0 ∧ (s'.Heap 1).Cookie = 0 ∧
      s'.Freed = [] ∧ s'.Notified = [7] ∧ s'.InNDIS = 0 ∧ s'.InNDISMax = 0 := by
  refine ⟨by decide, ?_⟩
  obtain ⟨s', h1, h2, h3, h4, h5, _, _, _, h6, h7, h8, h9⟩ :=
    C3_queuePacket_unsupported_tag ieee8021Q initial
      (stateOf (__ReceiverAllocateNetBufferList initial true 100 0 64 7) initial)
      true 100 0 64 noFlags 0 5 0 7 1 (by decide) (by decide) rfl
  exact ⟨s', h1, h2, h3, h4, h5, h6, h7, h8, h9⟩

/-! ### Admission -/

theorem toLONG_of_IsLONG (x : Int) (h : IsLONG x) : toLONG x = x := by
  unfold IsLONG at h
  unfold toLONG
  omega

theorem IsLONG_toLONG (x : Int) : IsLONG (toLONG x) := by
  unfold IsLONG toLONG
  omega

theorem push_normal (s : State) (nbl : Ptr) (h : toLONG (s.InNDIS + 1) ≤ IN_NDIS_MAX) :
    __ReceiverPushPacket s nbl = .ok
      { s with
        InNDIS := toLONG (s.InNDIS + 1)
        InNDISMax :=
          if toLONG (s.InNDIS + 1) ≤ s.InNDISMax then s.InNDISMax else toLONG (s.InNDIS + 1)
        Indicated := s.Indicated ++
          [{ NetBufferList := nbl, Flags := NDIS_RECEIVE_FLAGS_DISPATCH_LEVEL,
             InNDIS := toLONG (s.InNDIS + 1) }] } := by
  have h' : ¬ toLONG (s.InNDIS + 1) > IN_NDIS_MAX := not_lt.mpr h
  simp [__ReceiverPushPacket, h', NDIS_RECEIVE_FLAGS_DISPATCH_LEVEL,
    NDIS_RECEIVE_FLAGS_RESOURCES]

theorem push_forced (s : State) (nbl : Ptr) (h : IN_NDIS_MAX < toLONG (s.InNDIS + 1))
    (hne : nbl ≠ 0) :
    __ReceiverPushPacket s nbl = .ok
      { s with
        InNDIS := toLONG (toLONG (s.InNDIS + 1) - 1)
        InNDISMax :=
          if toLONG (s.InNDIS + 1) ≤ s.InNDISMax then s.InNDISMax else toLONG (s.InNDIS + 1)
        Indicated := s.Indicated ++
          [{ NetBufferList := nbl,
             Flags := NDIS_RECEIVE_FLAGS_DISPATCH_LEVEL ||| NDIS_RECEIVE_FLAGS_RESOURCES,
             InNDIS := toLONG (s.InNDIS + 1) }]
        Heap := Function.update s.Heap nbl { s.Heap nbl with Cookie := 0 }
        Freed := s.Freed ++ [nbl]
        Notified := s.Notified ++ [(s.Heap nbl).Cookie] } := by
  have h' : toLONG (s.InNDIS + 1) > IN_NDIS_MAX := h
  simp [__ReceiverPushPacket, h', NDIS_RECEIVE_FLAGS_DISPATCH_LEVEL,
    NDIS_RECEIVE_FLAGS_RESOURCES, __ReceiverReturnNetBufferList,
    __ReceiverReleaseNetBufferList, NdisFreeNetBufferList, hne]

theorem admitAll_append (l1 l2 : List Ptr) (s s1 : State) (h : admitAll s l1 = .ok s1) :
    admitAll s (l1 ++ l2) = admitAll s1 l2 := by
  induction l1 generalizing s with
  | nil =>
    simp [admitAll] at h
    simp [h]
  | cons p ps ih =>
    simp only [admitAll, List.cons_append] at h ⊢
    cases hp : __ReceiverPushPacket s p with
    | error f => simp [hp] at h
    | ok s2 =>
      simp only [hp] at h ⊢
      exact ih s2 h

theorem admitAll_singleton (s : State) (p : Ptr) :
    admitAll s [p] = __ReceiverPushPacket s p := by
  simp only [admitAll]
  cases __ReceiverPushPacket s p <;> rfl

theorem push_normal_counted (s : State) (nbl : Ptr) (h0 : 0 ≤ s.InNDIS)
    (hmax : s.InNDISMax = s.InNDIS) (h : s.InNDIS + 1 ≤ 1024) :
    ∃ s2, __ReceiverPushPacket s nbl = .ok s2 ∧ s2.InNDIS = s.InNDIS + 1 ∧
      s2.InNDISMax = s.InNDIS + 1 ∧
      s2.Indicated = s.Indicated ++
        [{ NetBufferList := nbl, Flags := NDIS_RECEIVE_FLAGS_DISPATCH_LEVEL,
           InNDIS := s.InNDIS + 1 }] := by
  have hn : toLONG (s.InNDIS + 1) = s.InNDIS + 1 :=
    toLONG_of_IsLONG _ (by unfold IsLONG; omega)
  have hle : toLONG (s.InNDIS + 1) ≤ IN_NDIS_MAX := by
    rw [hn]; unfold IN_NDIS_MAX; omega
  have hpush := push_normal s nbl hle
  rw [hn] at hpush
  have hnot : ¬ s.InNDIS + 1 ≤ s.InNDISMax := by omega
  simp only [hnot, if_false] at hpush
  exact ⟨_, hpush, rfl, rfl, rfl⟩

theorem admitAll_normal (l : List Ptr) (s : State) (h0 : 0 ≤ s.InNDIS)
    (hmax : s.InNDISMax = s.InNDIS) (hlen : s.InNDIS + l.length ≤ 1024) :
    ∃ s', admitAll s l = .ok s' ∧ s'.InNDIS = s.InNDIS + l.length ∧
      s'.InNDISMax = s.InNDIS + l.length ∧
      s'.Indicated.map Indication.Flags =
        s.Indicated.map Indication.Flags ++
          List.replicate l.length NDIS_RECEIVE_FLAGS_DISPATCH_LEVEL ∧
      s'.Indicated.map Indication.NetBufferList =
        s.Indicated.map Indication.NetBufferList ++ l := by
  induction l generalizing s with
  | nil => exact ⟨s, rfl, by simp, by simp [hmax], by simp, by simp⟩
  | cons p ps ih =>
    simp only [List.length_cons, Nat.cast_add, Nat.cast_one] at hlen
    obtain ⟨s2, hpush, e1, e2, e3⟩ := push_normal_counted s p h0 hmax (by omega)
    obtain ⟨s', h1, h2, h3, h4, h5⟩ := ih s2 (by omega) (by omega) (by omega)
    refine ⟨s', ?_, ?_, ?_, ?_, ?_⟩
    · simp only [admitAll, hpush]
      exact h1
    · rw [h2]; simp only [List.length_cons, Nat.cast_add, Nat.cast_one]; omega
    · rw [h3]; simp only [List.length_cons, Nat.cast_add, Nat.cast_one]; omega
    · rw [h4, e3]; simp [List.replicate_succ]
    · rw [h5, e3]; simp

/-- C4: an admission of a descriptor `nbl` is indicated with the
`NDIS_RECEIVE_FLAGS_RESOURCES` flag (Forced) exactly when the value `n` returned
by the increment of `InNDIS` is greater than 1024; and 1025 admissions in a row on
the freshly initialized receiver are indicated in order, the first 1024 without
that flag and the last one with it, leaving `InNDISMax` at 1025. -/
theorem C4_forced_iff_above_ceiling (s : State) (nbl : Ptr) (l : List Ptr)
    (hnbl : nbl ≠ 0) (hlen : l.length = 1025) (hl : ∀ p ∈ l, p ≠ 0) :
    (∃ s' Flags, __ReceiverPushPacket s nbl = .ok s' ∧
      s'.Indicated = s.Indicated ++
        [{ NetBufferList := nbl, Flags := Flags, InNDIS := toLONG (s.InNDIS + 1) }] ∧
      (Flags &&& NDIS_RECEIVE_FLAGS_RESOURCES ≠ 0 ↔ toLONG (s.InNDIS + 1) > 1024)) ∧
    (∃ s', admitAll initial l = .ok s' ∧
      s'.Indicated.map Indication.NetBufferList = l ∧
      s'.Indicated.map Indication.Flags =
        List.replicate 1024 NDIS_RECEIVE_FLAGS_DISPATCH_LEVEL ++
          [NDIS_RECEIVE_FLAGS_DISPATCH_LEVEL ||| NDIS_RECEIVE_FLAGS_RESOURCES] ∧
      s'.InNDISMax = 1025) := by
  constructor
  · by_cases h : toLONG (s.InNDIS + 1) ≤ IN_NDIS_MAX
    · refine ⟨_, _, push_normal s nbl h, rfl, ?_⟩
      have h' : ¬ toLONG (s.InNDIS + 1) > 1024 := not_lt.mpr h
      simp [NDIS_RECEIVE_FLAGS_DISPATCH_LEVEL, NDIS_RECEIVE_FLAGS_RESOURCES, h']
    · have h' : IN_NDIS_MAX < toLONG (s.InNDIS + 1) := not_le.mp h
      refine ⟨_, _, push_forced s nbl h' hnbl, rfl, ?_⟩
      have h'' : toLONG (s.InNDIS + 1) > 1024 := h'
      simp [NDIS_RECEIVE_FLAGS_DISPATCH_LEVEL, NDIS_RECEIVE_FLAGS_RESOURCES, h'']
  · obtain ⟨s1, h1, h2, h3, h4, h5⟩ := admitAll_normal (l.take 1024) initial (le_refl _) rfl
      (by simp [initial, hlen])
    have hlt : l.take 1024 ++ l.drop 1024 = l := List.take_append_drop _ _
    have hdl : (l.drop 1024).length = 1 := by simp [hlen]
    obtain ⟨p, hp⟩ := List.length_eq_one.mp hdl
    have hpl : p ∈ l := by
      rw [← hlt, hp]; simp
    have hp0 : p ≠ 0 := hl p hpl
    have hlen1 : ((l.take 1024).length : Int) = 1024 := by simp [hlen]
    have hin1 : s1.InNDIS = 1024 := by rw [h2, hlen1]; rfl
    have hmax1 : s1.InNDISMax = 1024 := by rw [h3, hlen1]; rfl
    have hn : toLONG (s1.InNDIS + 1) = 1025 := by rw [hin1]; rfl
    have hf := push_forced s1 p (by rw [hn]; decide) hp0
    rw [hn, hmax1] at hf
    have hadm : admitAll initial l = __ReceiverPushPacket s1 p := by
      rw [← hlt, admitAll_append _ _ _ _ h1, hp, admitAll_singleton]
    rw [hadm, hf]
    refine ⟨_, rfl, ?_, ?_, ?_⟩
    · simp only [List.map_append, h5, initial, List.map_nil, List.nil_append, List.map_cons]
      rw [← hp]
      exact hlt
    · have hlenN : (l.take 1024).length = 1024 := by
        rw [List.length_take, hlen]; rfl
      simp only [List.map_append, h4, hlenN, initial, List.map_nil, List.nil_append,
        List.map_cons]
    · simp

/-- C4 at the receiver with 1024 descriptors outstanding (the admission of
descriptor `7` is Forced) and at the descriptors `1, ..., 1025` admitted on the
freshly initialized receiver. -/
theorem C4_forced_iff_above_ceiling_witness :
    ((7 : Ptr) ≠ 0 ∧ (List.range' 1 1025).length = 1025 ∧ ∀ p ∈ List.range' 1 1025, p ≠ 0) ∧
    (∃ s', admitAll initial (List.range' 1 1025) = .ok s' ∧ s'.InNDISMax = 1025) := by
  have hl : ∀ p ∈ List.range' 1 1025, p ≠ 0 := by
    intro p hp
    simp [List.mem_range'] at hp
    omega
  refine ⟨⟨by decide, by simp, hl⟩, ?_⟩
  obtain ⟨-, s', h1, -, -, h2⟩ :=
    C4_forced_iff_above_ceiling { initial with InNDIS := 1024 } 7 (List.range' 1 1025)
      (by decide) (by simp) hl
  exact ⟨s', h1, h2⟩

/-! ### The three paths of an acquisition -/

/-- The descriptor `x` after lines 83-91 and 108: unlinked, its `NET_BUFFER` bound
to `(Mdl, Offset, Length)`, its cookie set. -/
theorem acquire_get_eq (s : State) (allocOk : Bool) (Mdl Offset Length Cookie : Nat)
    (hg : s.GetList ≠ 0) (hnb : (s.Heap s.GetList).FirstNetBuffer.Next = 0)
    (hc : (s.Heap s.GetList).Cookie = 0) :
    __ReceiverAllocateNetBufferList s allocOk Mdl Offset Length Cookie = .ok (s.GetList,
      { s with
        GetList := (s.Heap s.GetList).Next
        Heap := Function.update s.Heap s.GetList
          { s.Heap s.GetList with
            Next := 0
            FirstNetBuffer :=
              { Next := 0, FirstMdl := Mdl, CurrentMdl := Mdl, DataOffset := Offset,
                DataLength := Length, CurrentMdlOffset := Offset }
            Cookie := Cookie } }) := by
  simp [__ReceiverAllocateNetBufferList, stampCookie, hg, hnb, hc]

theorem acquire_put_eq (s : State) (allocOk : Bool) (Mdl Offset Length Cookie : Nat)
    (hg : s.GetList = 0) (hp : s.PutList ≠ 0)
    (hnb : (s.Heap s.PutList).FirstNetBuffer.Next = 0)
    (hc : (s.Heap s.PutList).Cookie = 0) :
    __ReceiverAllocateNetBufferList s allocOk Mdl Offset Length Cookie = .ok (s.PutList,
      { s with
        PutList := 0
        GetList := (s.Heap s.PutList).Next
        Heap := Function.update s.Heap s.PutList
          { s.Heap s.PutList with
            Next := 0
            FirstNetBuffer :=
              { Next := 0, FirstMdl := Mdl, CurrentMdl := Mdl, DataOffset := Offset,
                DataLength := Length, CurrentMdlOffset := Offset }
            Cookie := Cookie } }) := by
  simp [__ReceiverAllocateNetBufferList, stampCookie, hg, hp, hnb, hc]

theorem acquire_fresh_eq (s : State) (Mdl Offset Length Cookie : Nat)
    (hg : s.GetList = 0) (hp : s.PutList = 0) :
    __ReceiverAllocateNetBufferList s true Mdl Offset Length Cookie = .ok (s.Allocated + 1,
      { s with
        PutList := 0
        GetList := 0
        Allocated := s.Allocated + 1
        Heap := Function.update s.Heap (s.Allocated + 1)
          { zeroNetBufferList with
            FirstNetBuffer :=
              { Next := 0, FirstMdl := Mdl, CurrentMdl := Mdl, DataOffset := Offset,
                DataLength := Length, CurrentMdlOffset := Offset }
            Cookie := Cookie } }) := by
  simp [__ReceiverAllocateNetBufferList, stampCookie, NdisAllocateNetBufferAndNetBufferList,
    hg, hp, zeroNetBufferList]

theorem acquire_ok_cases (s s1 : State) (allocOk : Bool) (Mdl Offset Length Cookie : Nat)
    (nbl : Ptr)
    (hacq : __ReceiverAllocateNetBufferList s allocOk Mdl Offset Length Cookie = .ok (nbl, s1)) :
    (s.GetList ≠ 0 ∧ (s.Heap s.GetList).FirstNetBuffer.Next = 0 ∧
        (s.Heap s.GetList).Cookie = 0) ∨
      (s.GetList = 0 ∧ s.PutList ≠ 0 ∧ (s.Heap s.PutList).FirstNetBuffer.Next = 0 ∧
        (s.Heap s.PutList).Cookie = 0) ∨
      (s.GetList = 0 ∧ s.PutList = 0 ∧ allocOk = true) := by
  by_cases hg : s.GetList = 0
  · by_cases hp : s.PutList = 0
    · cases allocOk
      · simp [__ReceiverAllocateNetBufferList, stampCookie,
          NdisAllocateNetBufferAndNetBufferList, hg, hp] at hacq
      · exact Or.inr (Or.inr ⟨hg, hp, rfl⟩)
    · by_cases hnb : (s.Heap s.PutList).FirstNetBuffer.Next = 0
      · by_cases hc : (s.Heap s.PutList).Cookie = 0
        · exact Or.inr (Or.inl ⟨hg, hp, hnb, hc⟩)
        · simp [__ReceiverAllocateNetBufferList, stampCookie, hg, hp, hnb, hc] at hacq
      · simp [__ReceiverAllocateNetBufferList, stampCookie, hg, hp, hnb] at hacq
  · by_cases hnb : (s.Heap s.GetList).FirstNetBuffer.Next = 0
    · by_cases hc : (s.Heap s.GetList).Cookie = 0
      · exact Or.inl ⟨hg, hnb, hc⟩
      · simp [__ReceiverAllocateNetBufferList, stampCookie, hg, hnb, hc] at hacq
    · simp [__ReceiverAllocateNetBufferList, stampCookie, hg, hnb] at hacq

/-- After a successful acquisition on a state whose free lists are the disjoint
chains `gl` and `pl`, the free lists are chains again and the descriptor handed
out is on neither. -/
theorem acquire_lists (s s1 : State) (allocOk : Bool) (Mdl Offset Length Cookie : Nat)
    (nbl : Ptr) (gl pl : List Ptr)
    (hgl : IsList s.Heap s.GetList gl) (hpl : IsList s.Heap s.PutList pl)
    (hdisj : ∀ x ∈ gl, x ∉ pl)
    (hacq : __ReceiverAllocateNetBufferList s allocOk Mdl Offset Length Cookie = .ok (nbl, s1)) :
    ∃ gl' pl', IsList s1.Heap s1.GetList gl' ∧ IsList s1.Heap s1.PutList pl' ∧
      nbl ∉ gl' ∧ nbl ∉ pl' ∧ (∀ x ∈ gl', x ∉ pl') := by
  rcases acquire_ok_cases s s1 allocOk Mdl Offset Length Cookie nbl hacq with
    ⟨hg, hnb, hc⟩ | ⟨hg, hp, hnb, hc⟩ | ⟨hg, hp, hok⟩
  · rw [acquire_get_eq s allocOk Mdl Offset Length Cookie hg hnb hc] at hacq
    simp only [Except.ok.injEq, Prod.mk.injEq] at hacq
    obtain ⟨rfl, rfl⟩ := hacq
    cases gl with
    | nil => exact absurd hgl hg
    | cons x xs =>
      obtain ⟨hx, hx0, hxs⟩ := hgl
      have hnot : x ∉ xs := IsList_head_not_mem_tail s.Heap x xs x ⟨rfl, hx0, hxs⟩
      have hxpl : x ∉ pl := hdisj x (by simp)
      refine ⟨xs, pl, ?_, ?_, ?_, ?_, ?_⟩
      · simp only [hx]
        exact (IsList_update_of_not_mem _ _ _ _ hnot _).mpr hxs
      · simp only [hx]
        exact (IsList_update_of_not_mem _ _ _ _ hxpl _).mpr hpl
      · simpa [hx] using hnot
      · simpa [hx] using hxpl
      · intro y hy
        exact hdisj y (by simp [hy])
  · rw [acquire_put_eq s allocOk Mdl Offset Length Cookie hg hp hnb hc] at hacq
    simp only [Except.ok.injEq, Prod.mk.injEq] at hacq
    obtain ⟨rfl, rfl⟩ := hacq
    cases pl with
    | nil => exact absurd hpl hp
    | cons x xs =>
      obtain ⟨hx, hx0, hxs⟩ := hpl
      have hnot : x ∉ xs := IsList_head_not_mem_tail s.Heap x xs x ⟨rfl, hx0, hxs⟩
      refine ⟨xs, [], ?_, ?_, ?_, ?_, ?_⟩
      · simp only [hx]
        exact (IsList_update_of_not_mem _ _ _ _ hnot _).mpr hxs
      · simp [IsList]
      · simpa [hx] using hnot
      · simp
      · simp
  · subst hok
    rw [acquire_fresh_eq s Mdl Offset Length Cookie hg hp] at hacq
    simp only [Except.ok.injEq, Prod.mk.injEq] at hacq
    obtain ⟨rfl, rfl⟩ := hacq
    exact ⟨[], [], by simp [IsList], by simp [IsList], by simp, by simp, by simp⟩

/-! ### What a successful reception establishes -/

theorem receive_ok (U : TagUnpack) (s s1 : State) (allocOk : Bool)
    (Mdl Offset Length : Nat) (Flags : XENVIF_PACKET_CHECKSUM_FLAGS)
    (MaximumSegmentSize TagControlInformation Info Cookie : Nat) (nbl : Ptr)
    (hrecv : __ReceiverReceivePacket U s allocOk Mdl Offset Length Flags MaximumSegmentSize
      TagControlInformation Info Cookie = .ok (nbl, s1))
    (hne : nbl ≠ 0) :
    ∃ s0, __ReceiverAllocateNetBufferList s allocOk Mdl Offset Length Cookie = .ok (nbl, s0) ∧
      s1.GetList = s0.GetList ∧ s1.PutList = s0.PutList ∧
      s1.InNDIS = s0.InNDIS ∧ s1.InNDISMax = s0.InNDISMax ∧
      s1.Freed = s0.Freed ∧ s1.Notified = s0.Notified ∧ s1.Indicated = s0.Indicated ∧
      s1.Allocated = s0.Allocated ∧
      (∀ q, q ≠ nbl → s1.Heap q = s0.Heap q) ∧
      (s1.Heap nbl).Next = (s0.Heap nbl).Next ∧
      (s1.Heap nbl).Cookie = (s0.Heap nbl).Cookie ∧
      (s1.Heap nbl).FirstNetBuffer = (s0.Heap nbl).FirstNetBuffer ∧
      (TagControlInformation = 0 ∨ U.VlanId TagControlInformation % 4096 = 0) := by
  unfold __ReceiverReceivePacket at hrecv
  cases hacq : __ReceiverAllocateNetBufferList s allocOk Mdl Offset Length Cookie with
  | error f => simp [hacq] at hrecv
  | ok r =>
    obtain ⟨p, s0⟩ := r
    simp only [hacq] at hrecv
    by_cases hp : p = 0
    · simp [hp] at hrecv
      exact absurd hrecv.1.symm hne
    · by_cases ht : TagControlInformation = 0
      · simp [hp, ht] at hrecv
        obtain ⟨rfl, rfl⟩ := hrecv
        refine ⟨s0, rfl, ?_⟩
        simp +contextual [ht, Function.update_noteq]
      · by_cases hv : U.VlanId TagControlInformation % 4096 = 0
        · simp [hp, ht, hv] at hrecv
          obtain ⟨rfl, rfl⟩ := hrecv
          refine ⟨s0, rfl, ?_⟩
          simp +contextual [hv, Function.update_noteq]
        · simp only [hp, ht, hv, if_false, ne_eq, not_false_eq_true, if_true] at hrecv
          cases hrel : __ReceiverReleaseNetBufferList
            { s0 with
              Heap := Function.update s0.Heap p
                { s0.Heap p with
                  SourceHandle := s0.Adapter
                  TcpIpChecksumNetBufferListInfo :=
                    { IpChecksumSucceeded := Flags.IpChecksumSucceeded
                      IpChecksumFailed := Flags.IpChecksumFailed
                      TcpChecksumSucceeded := Flags.TcpChecksumSucceeded
                      TcpChecksumFailed := Flags.TcpChecksumFailed
                      UdpChecksumSucceeded := Flags.UdpChecksumSucceeded
                      UdpChecksumFailed := Flags.UdpChecksumFailed
                      Rest := 0 } } } p true with
          | error f => simp [hrel] at hrecv
          | ok r2 =>
            simp [hrel] at hrecv
            exact absurd hrecv.1.symm hne

theorem IsList_of_heap_eq_off (h h' : Ptr → NET_BUFFER_LIST) (nbl : Ptr) (l : List Ptr)
    (hoff : ∀ q, q ≠ nbl → h' q = h q) (hmem : nbl ∉ l) (p : Ptr) (hl : IsList h p l) :
    IsList h' p l := by
  refine (IsList_congr h h' l ?_ p).mpr hl
  intro x hx
  have hxn : x ≠ nbl := fun e => hmem (e ▸ hx)
  rw [hoff x hxn]

/-- C5: when the reception of a packet succeeded with descriptor `nbl` and the
increment of `InNDIS` returns more than 1024 (a Forced delivery, whatever NDIS
does with it), `ReceiverQueuePacket` returns with the descriptor indicated once
with the resources flag, then freed to NDIS and on neither free list, `InNDIS`
back at its value before the call, and the VIF back end notified once with the
packet's cookie. -/
theorem C5_forced_delivery_released_uncached (U : TagUnpack) (s s1 : State) (allocOk : Bool)
    (Mdl Offset Length : Nat) (Flags : XENVIF_PACKET_CHECKSUM_FLAGS)
    (MaximumSegmentSize TagControlInformation Info Cookie : Nat) (nbl : Ptr)
    (gl pl : List Ptr)
    (hlong : IsLONG s.InNDIS)
    (hgl : IsList s.Heap s.GetList gl) (hpl : IsList s.Heap s.PutList pl)
    (hdisj : ∀ x ∈ gl, x ∉ pl)
    (hrecv : __ReceiverReceivePacket U s allocOk Mdl Offset Length Flags MaximumSegmentSize
      TagControlInformation Info Cookie = .ok (nbl, s1))
    (hne : nbl ≠ 0)
    (hforced : IN_NDIS_MAX < toLONG (s.InNDIS + 1)) :
    ∃ s', ReceiverQueuePacket U s allocOk Mdl Offset Length Flags MaximumSegmentSize
          TagControlInformation Info Cookie = .ok s' ∧
      s'.Indicated = s.Indicated ++
        [{ NetBufferList := nbl,
           Flags := NDIS_RECEIVE_FLAGS_DISPATCH_LEVEL ||| NDIS_RECEIVE_FLAGS_RESOURCES,
           InNDIS := toLONG (s.InNDIS + 1) }] ∧
      s'.Freed = s.Freed ++ [nbl] ∧
      (∃ gl' pl', IsList s'.Heap s'.GetList gl' ∧ IsList s'.Heap s'.PutList pl' ∧
        nbl ∉ gl' ∧ nbl ∉ pl') ∧
      s'.InNDIS = s.InNDIS ∧
      s'.Notified = s.Notified ++ [Cookie] := by
  obtain ⟨s0, hacq, e1, e2, e3, e4, e5, e6, e7, -, hoff, -, hck, -, -⟩ :=
    receive_ok U s s1 allocOk Mdl Offset Length Flags MaximumSegmentSize
      TagControlInformation Info Cookie nbl hrecv hne
  obtain ⟨-, -, hcookie, -, -, a1, -, a3, a4, a5, -⟩ :=
    acquire_ok s s0 allocOk Mdl Offset Length Cookie nbl hacq
  obtain ⟨gl', pl', hgl', hpl', hn1, hn2, -⟩ :=
    acquire_lists s s0 allocOk Mdl Offset Length Cookie nbl gl pl hgl hpl hdisj hacq
  have hin : s1.InNDIS = s.InNDIS := e3.trans a1
  have hf : IN_NDIS_MAX < toLONG (s1.InNDIS + 1) := by rw [hin]; exact hforced
  have hpush := push_forced s1 nbl hf hne
  have hq : ReceiverQueuePacket U s allocOk Mdl Offset Length Flags MaximumSegmentSize
      TagControlInformation Info Cookie = __ReceiverPushPacket s1 nbl := by
    simp [ReceiverQueuePacket, hrecv, hne]
  rw [hq, hpush]
  refine ⟨_, rfl, ?_, ?_, ?_, ?_, ?_⟩
  · simp [hin, e7, a5]
  · simp [e5, a3]
  · refine ⟨gl', pl', ?_, ?_, hn1, hn2⟩
    · simp only [e1]
      exact (IsList_update_of_not_mem _ _ _ _ hn1 _).mpr
        (IsList_of_heap_eq_off s0.Heap s1.Heap nbl gl' hoff hn1 _ hgl')
    · simp only [e2]
      exact (IsList_update_of_not_mem _ _ _ _ hn2 _).mpr
        (IsList_of_heap_eq_off s0.Heap s1.Heap nbl pl' hoff hn2 _ hpl')
  · simp only [hin]
    unfold IsLONG at hlong
    unfold IN_NDIS_MAX toLONG at hforced
    unfold toLONG
    omega
  · simp [e6, a4, hck, hcookie]

/-- C5 on a receiver with 1024 descriptors outstanding and empty free lists: the
packet with cookie `7` gets the fresh descriptor `1`, which is indicated with the
resources flag and freed. -/
theorem C5_forced_delivery_released_uncached_witness :
    (IsLONG (outstanding 1024).InNDIS ∧ IN_NDIS_MAX < toLONG ((outstanding 1024).InNDIS + 1)) ∧
    ∃ s', ReceiverQueuePacket ieee8021Q (outstanding 1024) true 100 0 64 noFlags 0 0 0 7
        = .ok s' ∧
      s'.Freed = [1] ∧ s'.InNDIS = 1024 ∧ s'.Notified = [7] := by
  refine ⟨by decide, ?_⟩
  obtain ⟨s', h1, -, h2, -, h3, h4⟩ :=
    C5_forced_delivery_released_uncached ieee8021Q (outstanding 1024)
      (stateOf (__ReceiverReceivePacket ieee8021Q (outstanding 1024) true 100 0 64 noFlags
        0 0 0 7) initial)
      true 100 0 64 noFlags 0 0 0 7 1 [] [] (by decide) rfl rfl (by simp) rfl (by decide)
      (by decide)
  exact ⟨s', h1, h2, h3, h4⟩

/-! ### The high-water mark -/

theorem release_mark (s s' : State) (p : Ptr) (c : Bool) (k : Nat)
    (h : __ReceiverReleaseNetBufferList s p c = .ok (k, s')) :
    s'.InNDISMax = s.InNDISMax ∧ s'.Indicated = s.Indicated := by
  unfold __ReceiverReleaseNetBufferList at h
  by_cases hp : p = 0
  · simp [hp] at h
  · cases c
    · simp [hp, NdisFreeNetBufferList] at h
      obtain ⟨-, rfl⟩ := h
      exact ⟨rfl, rfl⟩
    · by_cases hn : (s.Heap p).Next = 0
      · simp [hp, hn] at h
        obtain ⟨-, rfl⟩ := h
        exact ⟨rfl, rfl⟩
      · simp [hp, hn] at h

theorem return_mark (s s' : State) (p : Ptr) (c : Bool)
    (h : __ReceiverReturnNetBufferList s p c = .ok s') :
    s'.InNDISMax = s.InNDISMax ∧ s'.Indicated = s.Indicated := by
  unfold __ReceiverReturnNetBufferList at h
  cases hr : __ReceiverReleaseNetBufferList s p c with
  | error f => simp [hr] at h
  | ok r =>
    obtain ⟨k, s1⟩ := r
    simp [hr] at h
    obtain ⟨h1, h2⟩ := release_mark s s1 p c k hr
    subst h
    exact ⟨h1, h2⟩

theorem returnLists_mark (fuel : Nat) (s s' : State) (p rf : Nat)
    (h : ReceiverReturnNetBufferLists fuel s p rf = .ok s') :
    s'.InNDISMax = s.InNDISMax ∧ s'.Indicated = s.Indicated := by
  induction fuel generalizing s p with
  | zero =>
    unfold ReceiverReturnNetBufferLists at h
    by_cases hp : p = 0
    · simp [hp] at h
      subst h
      exact ⟨rfl, rfl⟩
    · simp [hp] at h
  | succ n ih =>
    unfold ReceiverReturnNetBufferLists at h
    by_cases hp : p = 0
    · simp [hp] at h
      subst h
      exact ⟨rfl, rfl⟩
    · simp only [hp, if_false] at h
      cases hr : __ReceiverReturnNetBufferList
          { s with Heap := Function.update s.Heap p { s.Heap p with Next := 0 } } p true with
      | error f => simp [hr] at h
      | ok s2 =>
        simp only [hr] at h
        obtain ⟨h1, h2⟩ := return_mark _ s2 p true hr
        obtain ⟨h3, h4⟩ := ih s2 _ h
        exact ⟨h3.trans h1, h4.trans h2⟩

theorem receive_mark (U : TagUnpack) (s s1 : State) (allocOk : Bool)
    (Mdl Offset Length : Nat) (Flags : XENVIF_PACKET_CHECKSUM_FLAGS)
    (MaximumSegmentSize TagControlInformation Info Cookie : Nat) (nbl : Ptr)
    (hrecv : __ReceiverReceivePacket U s allocOk Mdl Offset Length Flags MaximumSegmentSize
      TagControlInformation Info Cookie = .ok (nbl, s1)) :
    s1.InNDISMax = s.InNDISMax ∧ s1.Indicated = s.Indicated ∧ s1.InNDIS = s.InNDIS := by
  unfold __ReceiverReceivePacket at hrecv
  cases hacq : __ReceiverAllocateNetBufferList s allocOk Mdl Offset Length Cookie with
  | error f => simp [hacq] at hrecv
  | ok r =>
    obtain ⟨p, s0⟩ := r
    obtain ⟨hp, -, -, -, -, a1, a2, -, -, a5, -⟩ :=
      acquire_ok s s0 allocOk Mdl Offset Length Cookie p hacq
    simp only [hacq] at hrecv
    by_cases ht : TagControlInformation = 0
    · simp [hp, ht] at hrecv
      obtain ⟨-, rfl⟩ := hrecv
      exact ⟨a2, a5, a1⟩
    · by_cases hv : U.VlanId TagControlInformation % 4096 = 0
      · simp [hp, ht, hv] at hrecv
        obtain ⟨-, rfl⟩ := hrecv
        exact ⟨a2, a5, a1⟩
      · simp only [hp, ht, hv, if_false, ne_eq, not_false_eq_true, if_true] at hrecv
        simp only [__ReceiverReleaseNetBufferList, hp, if_false, if_true] at hrecv
        by_cases hn : (s0.Heap p).Next = 0
        · simp [hn] at hrecv
          obtain ⟨-, rfl⟩ := hrecv
          exact ⟨a2, a5, a1⟩
        · simp [hn] at hrecv

theorem max_eq_ite (m n : Int) : (if n ≤ m then m else n) = max m n := by
  by_cases h : n ≤ m
  · simp [h]
  · simp [h, le_of_lt (not_le.mp h)]

theorem push_mark (s s' : State) (nbl : Ptr) (h : __ReceiverPushPacket s nbl = .ok s') :
    ∃ i : Indication, s'.Indicated = s.Indicated ++ [i] ∧ i.NetBufferList = nbl ∧
      i.InNDIS = toLONG (s.InNDIS + 1) ∧
      s'.InNDISMax = max s.InNDISMax (toLONG (s.InNDIS + 1)) := by
  by_cases hf : IN_NDIS_MAX < toLONG (s.InNDIS + 1)
  · by_cases hp : nbl = 0
    · have hf' : toLONG (s.InNDIS + 1) > IN_NDIS_MAX := hf
      simp [__ReceiverPushPacket, hf', NDIS_RECEIVE_FLAGS_DISPATCH_LEVEL,
        NDIS_RECEIVE_FLAGS_RESOURCES, __ReceiverReturnNetBufferList,
        __ReceiverReleaseNetBufferList, hp] at h
    · rw [push_forced s nbl hf hp] at h
      simp only [Except.ok.injEq] at h
      subst h
      exact ⟨_, rfl, rfl, rfl, max_eq_ite _ _⟩
  · rw [push_normal s nbl (not_lt.mp hf)] at h
    simp only [Except.ok.injEq] at h
    subst h
    exact ⟨_, rfl, rfl, rfl, max_eq_ite _ _⟩

theorem step_mark (U : TagUnpack) (s s' : State) (c : Call) (h : step U s c = .ok s') :
    (s'.InNDISMax = s.InNDISMax ∧ s'.Indicated = s.Indicated) ∨
      ∃ i : Indication, s'.Indicated = s.Indicated ++ [i] ∧
        s'.InNDISMax = max s.InNDISMax i.InNDIS := by
  cases c with
  | returnDescriptors l rf =>
    simp only [step] at h
    exact Or.inl (returnLists_mark _ { s with Heap := hostChain s.Heap l } s' _ rf h)
  | queuePacket allocOk Mdl Offset Length Flags MaximumSegmentSize TagControlInformation
      Info Cookie =>
    simp only [step, ReceiverQueuePacket] at h
    cases hrecv : __ReceiverReceivePacket U s allocOk Mdl Offset Length Flags
        MaximumSegmentSize TagControlInformation Info Cookie with
    | error f => simp [hrecv] at h
    | ok r =>
      obtain ⟨p, s1⟩ := r
      obtain ⟨r1, r2, -⟩ := receive_mark U s s1 allocOk Mdl Offset Length Flags
        MaximumSegmentSize TagControlInformation Info Cookie p hrecv
      simp only [hrecv] at h
      by_cases hp : p = 0
      · simp [hp] at h
        subst h
        exact Or.inl ⟨r1, r2⟩
      · simp only [hp, ne_eq, not_false_eq_true, if_true] at h
        obtain ⟨i, h1, -, h3, h4⟩ := push_mark s1 s' p h
        refine Or.inr ⟨i, by rw [h1, r2], ?_⟩
        rw [h4, r1, h3]

theorem maxAdmitted_append (s s' : State) (i : Indication)
    (h : s'.Indicated = s.Indicated ++ [i]) :
    maxAdmitted s' = max (maxAdmitted s) i.InNDIS := by
  simp [maxAdmitted, h, List.foldl_append]

theorem run_mark (U : TagUnpack) (cs : List Call) (s s' : State)
    (hs : s.InNDISMax = maxAdmitted s) (h : run U s cs = .ok s') :
    s'.InNDISMax = maxAdmitted s' := by
  induction cs generalizing s with
  | nil =>
    simp only [run, Except.ok.injEq] at h
    subst h
    exact hs
  | cons c cs ih =>
    simp only [run] at h
    cases hstep : step U s c with
    | error f => simp [hstep] at h
    | ok s1 =>
      simp only [hstep] at h
      refine ih s1 ?_ h
      rcases step_mark U s s1 c hstep with ⟨h1, h2⟩ | ⟨i, h1, h2⟩
      · rw [h1, hs]
        simp [maxAdmitted, h2]
      · rw [h2, hs, maxAdmitted_append s s1 i h1]

/-- C6: on a receiver reached from a successful `ReceiverInitialize` by any
sequence `cs` of `ReceiverQueuePacket` and `ReceiverReturnNetBufferLists` calls,
`InNDISMax` equals the largest value that `InterlockedIncrement` returned to an
admission so far (`0` before the first one); a further call `c` does not lower
it; and one `__ReceiverPushPacket`, on any state `t`, leaves it at the larger of
its previous value and the incremented `InNDIS`. -/
theorem C6_high_water_mark (U : TagUnpack) (Adapter : Nat) (s0 s s' t t' : State)
    (cs : List Call) (c : Call) (nbl : Ptr)
    (hinit : ReceiverInitialize Adapter true true = some s0)
    (hrun : run U s0 cs = .ok s)
    (hstep : step U s c = .ok s')
    (hpush : __ReceiverPushPacket t nbl = .ok t') :
    s.InNDISMax = maxAdmitted s ∧ s.InNDISMax ≤ s'.InNDISMax ∧
      s'.InNDISMax = maxAdmitted s' ∧
      t'.InNDISMax = max t.InNDISMax (toLONG (t.InNDIS + 1)) := by
  have h0 : s0.InNDISMax = maxAdmitted s0 := by
    simp [ReceiverInitialize] at hinit
    subst hinit
    rfl
  have hs := run_mark U cs s0 s h0 hrun
  refine ⟨hs, ?_, ?_, ?_⟩
  · rcases step_mark U s s' c hstep with ⟨h1, -⟩ | ⟨i, -, h2⟩
    · rw [h1]
    · rw [h2]
      exact le_max_left _ _
  · rcases step_mark U s s' c hstep with ⟨h1, h2⟩ | ⟨i, h1, h2⟩
    · rw [h1, hs]
      simp [maxAdmitted, h2]
    · rw [h2, hs, maxAdmitted_append s s' i h1]
  · obtain ⟨-, -, -, -, h⟩ := push_mark t t' nbl hpush
    exact h

/-- C6 on a concrete run: a packet with cookie `7` is queued on the initialized
receiver, then NDIS returns descriptor `1`; and one admission on the initialized
receiver. -/
theorem C6_high_water_mark_witness :
    ∃ s s' t', run ieee8021Q initial [.queuePacket true 100 0 64 noFlags 0 0 0 7] = .ok s ∧
      step ieee8021Q s (.returnDescriptors [1] 0) = .ok s' ∧
      __ReceiverPushPacket initial 1 = .ok t' ∧
      s.InNDISMax = maxAdmitted s ∧ s.InNDISMax ≤ s'.InNDISMax ∧
      s'.InNDISMax = maxAdmitted s' ∧
      t'.InNDISMax = max initial.InNDISMax (toLONG (initial.InNDIS + 1)) :=
  ⟨finalState (run ieee8021Q initial [.queuePacket true 100 0 64 noFlags 0 0 0 7]) initial,
    finalState (step ieee8021Q
      (finalState (run ieee8021Q initial [.queuePacket true 100 0 64 noFlags 0 0 0 7]) initial)
      (.returnDescriptors [1] 0)) initial,
    finalState (__ReceiverPushPacket initial 1) initial, rfl, rfl, rfl,
    C6_high_water_mark ieee8021Q 1 initial
      (finalState (run ieee8021Q initial [.queuePacket true 100 0 64 noFlags 0 0 0 7]) initial)
      (finalState (step ieee8021Q
        (finalState (run ieee8021Q initial [.queuePacket true 100 0 64 noFlags 0 0 0 7]) initial)
        (.returnDescriptors [1] 0)) initial)
      initial (finalState (__ReceiverPushPacket initial 1) initial)
      [.queuePacket true 100 0 64 noFlags 0 0 0 7] (.returnDescriptors [1] 0) 1
      rfl rfl rfl rfl⟩

/-- C7: when the reception of a packet succeeded with descriptor `nbl` and the
incremented `InNDIS` is at most 1024, `ReceiverQueuePacket` returns with exactly
one more indication, of `nbl` without the resources flag (Normal); the descriptor
describes `(Mdl, Offset, Length)`, is unlinked and holds the packet's cookie;
`InNDIS` is one larger; nothing was freed and the VIF back end was not
notified. -/
theorem C7_queuePacket_normal_delivery (U : TagUnpack) (s s1 : State) (allocOk : Bool)
    (Mdl Offset Length : Nat) (Flags : XENVIF_PACKET_CHECKSUM_FLAGS)
    (MaximumSegmentSize TagControlInformation Info Cookie : Nat) (nbl : Ptr)
    (hlong : IsLONG s.InNDIS)
    (hrecv : __ReceiverReceivePacket U s allocOk Mdl Offset Length Flags MaximumSegmentSize
      TagControlInformation Info Cookie = .ok (nbl, s1))
    (hne : nbl ≠ 0)
    (hle : s.InNDIS + 1 ≤ IN_NDIS_MAX) :
    ∃ s', ReceiverQueuePacket U s allocOk Mdl Offset Length Flags MaximumSegmentSize
          TagControlInformation Info Cookie = .ok s' ∧
      s'.Indicated = s.Indicated ++
        [{ NetBufferList := nbl, Flags := NDIS_RECEIVE_FLAGS_DISPATCH_LEVEL,
           InNDIS := s.InNDIS + 1 }] ∧
      NDIS_RECEIVE_FLAGS_DISPATCH_LEVEL &&& NDIS_RECEIVE_FLAGS_RESOURCES = 0 ∧
      (s'.Heap nbl).FirstNetBuffer =
        { Next := 0, FirstMdl := Mdl, CurrentMdl := Mdl, DataOffset := Offset,
          DataLength := Length, CurrentMdlOffset := Offset } ∧
      (s'.Heap nbl).Next = 0 ∧
      (s'.Heap nbl).Cookie = Cookie ∧
      s'.InNDIS = s.InNDIS + 1 ∧
      s'.Freed = s.Freed ∧
      s'.Notified = s.Notified ∧
      s'.Allocated = s1.Allocated ∧ s'.GetList = s1.GetList ∧ s'.PutList = s1.PutList := by
  obtain ⟨s0, hacq, -, -, e3, -, e5, e6, e7, -, -, hnx, hck, hnb, -⟩ :=
    receive_ok U s s1 allocOk Mdl Offset Length Flags MaximumSegmentSize
      TagControlInformation Info Cookie nbl hrecv hne
  obtain ⟨-, hnext, hcookie, hbuf, -, a1, -, a3, a4, a5, -⟩ :=
    acquire_ok s s0 allocOk Mdl Offset Length Cookie nbl hacq
  have hin : s1.InNDIS = s.InNDIS := e3.trans a1
  have hn : toLONG (s.InNDIS + 1) = s.InNDIS + 1 := by
    unfold IsLONG at hlong
    unfold IN_NDIS_MAX at hle
    exact toLONG_of_IsLONG _ (by unfold IsLONG; omega)
  have hle1 : toLONG (s1.InNDIS + 1) ≤ IN_NDIS_MAX := by rw [hin, hn]; exact hle
  have hpush := push_normal s1 nbl hle1
  rw [queuePacket_of_receive_ok U s s1 allocOk Mdl Offset Length Flags MaximumSegmentSize
    TagControlInformation Info Cookie nbl hrecv hne, hpush]
  refine ⟨_, rfl, ?_, by decide, ?_, ?_, ?_, ?_, ?_, ?_, rfl, rfl, rfl⟩
  · simp [hin, hn, e7, a5]
  · simp [hnb, hbuf]
  · simp [hnx, hnext]
  · simp [hck, hcookie]
  · simp [hin, hn]
  · simp [e5, a3]
  · simp [e6, a4]

/-- C7 on the freshly initialized receiver: the packet `(100, 0, 64)` with cookie
`7` and tag value `0x2000` is delivered in descriptor `1`. -/
theorem C7_queuePacket_normal_delivery_witness :
    (IsLONG initial.InNDIS ∧ initial.InNDIS + 1 ≤ IN_NDIS_MAX) ∧
    ∃ s', ReceiverQueuePacket ieee8021Q initial true 100 0 64 noFlags 0 8192 0 7 = .ok s' ∧
      s'.Indicated = [{ NetBufferList := 1, Flags := 1, InNDIS := 1 }] ∧
      (s'.Heap 1).Cookie = 7 ∧ s'.InNDIS = 1 ∧ s'.Freed = [] ∧ s'.Notified = [] := by
  refine ⟨by decide, ?_⟩
  obtain ⟨s', h1, h2, -, -, -, h3, h4, h5, h6, -⟩ :=
    C7_queuePacket_normal_delivery ieee8021Q initial
      (stateOf (__ReceiverReceivePacket ieee8021Q initial true 100 0 64 noFlags 0 8192 0 7)
        initial)
      true 100 0 64 noFlags 0 8192 0 7 1 (by decide) rfl (by decide) (by decide)
  exact ⟨s', h1, h2, h3, h4, h5, h6⟩

/-! ### The return path -/

/-- The chain that NDIS builds from distinct non-`NULL` descriptors is the chain of
these descriptors, starting at the first one. -/
theorem hostChain_isList (h : Ptr → NET_BUFFER_LIST) (l : List Ptr) (hnd : l.Nodup)
    (h0 : (0 : Ptr) ∉ l) : IsList (hostChain h l) (l.headD 0) l := by
  induction l with
  | nil => simp [IsList]
  | cons x r ih =>
    obtain ⟨hx, hr⟩ := List.nodup_cons.mp hnd
    have hx0 : x ≠ 0 := fun e => h0 (by simp [e])
    have hr0 : (0 : Ptr) ∉ r := fun e => h0 (by simp [e])
    simp only [hostChain, IsList, List.headD_cons, Function.update_same]
    exact ⟨trivial, hx0, (IsList_update_of_not_mem _ _ _ _ hx _).mpr (ih hr hr0)⟩

/-- One round of the loop of `ReceiverReturnNetBufferLists` on the descriptor `x`
(lines 368-373). -/
theorem returnLists_round (fuel : Nat) (s : State) (x rf : Nat) (hx : x ≠ 0) :
    ReceiverReturnNetBufferLists (fuel + 1) s x rf =
      ReceiverReturnNetBufferLists fuel
        { s with
          Heap := Function.update s.Heap x { s.Heap x with Next := s.PutList, Cookie := 0 }
          PutList := x
          Notified := s.Notified ++ [(s.Heap x).Cookie]
          InNDIS := toLONG (s.InNDIS - 1) }
        (s.Heap x).Next rf := by
  rw [ReceiverReturnNetBufferLists]
  simp [hx, __ReceiverReturnNetBufferList, __ReceiverReleaseNetBufferList]

theorem returnLists_null (fuel : Nat) (s : State) (rf : Nat) :
    ReceiverReturnNetBufferLists fuel s 0 rf = .ok s := by
  cases fuel <;> simp [ReceiverReturnNetBufferLists]

theorem returnLists_chain (l : List Ptr) (fuel : Nat) (s : State) (head rf : Nat)
    (pl : List Ptr)
    (hl : IsList s.Heap head l) (hpl : IsList s.Heap s.PutList pl)
    (hdisj : ∀ x ∈ l, x ∉ pl) (hfuel : l.length ≤ fuel)
    (hlong : IsLONG s.InNDIS) (hlow : IsLONG (s.InNDIS - l.length)) :
    ∃ s', ReceiverReturnNetBufferLists fuel s head rf = .ok s' ∧
      s'.Notified = s.Notified ++ l.map (fun p => (s.Heap p).Cookie) ∧
      s'.InNDIS = s.InNDIS - l.length ∧
      s'.Freed = s.Freed ∧
      (∀ p ∈ l, (s'.Heap p).Cookie = 0) ∧
      IsList s'.Heap s'.PutList (l.reverse ++ pl) ∧
      s'.GetList = s.GetList ∧
      (∀ q, q ∉ l → s'.Heap q = s.Heap q) ∧
      s'.Indicated = s.Indicated ∧ s'.Allocated = s.Allocated ∧
      s'.InNDISMax = s.InNDISMax := by
  induction l generalizing fuel s head pl with
  | nil =>
    have h0 : head = 0 := hl
    subst h0
    refine ⟨s, returnLists_null fuel s rf, ?_⟩
    simp
    exact hpl
  | cons x xs ih =>
    obtain ⟨hhx, hx0, hxs⟩ := hl
    subst hhx
    have hnot : head ∉ xs := IsList_head_not_mem_tail s.Heap head xs head ⟨rfl, hx0, hxs⟩
    have hxpl : head ∉ pl := hdisj head (by simp)
    cases fuel with
    | zero => simp at hfuel
    | succ f =>
      simp only [List.length_cons, Nat.cast_add, Nat.cast_one] at hlow hfuel
      have hdec : toLONG (s.InNDIS - 1) = s.InNDIS - 1 := by
        unfold IsLONG at hlong hlow
        exact toLONG_of_IsLONG _ (by unfold IsLONG; omega)
      rw [returnLists_round f s head rf hx0, hdec]
      obtain ⟨s', h1, h2, h3, h4, h5, h6, h7, h8, h9, h10, h11⟩ := ih f
        { s with
          Heap := Function.update s.Heap head
            { s.Heap head with Next := s.PutList, Cookie := 0 }
          PutList := head
          Notified := s.Notified ++ [(s.Heap head).Cookie]
          InNDIS := s.InNDIS - 1 }
        (s.Heap head).Next (head :: pl)
        ((IsList_update_of_not_mem _ _ _ _ hnot _).mpr hxs)
        (by
          simp only [IsList, Function.update_same]
          exact ⟨trivial, hx0, (IsList_update_of_not_mem _ _ _ _ hxpl _).mpr hpl⟩)
        (by
          intro y hy hmem
          rcases List.mem_cons.mp hmem with e | e
          · exact hnot (e ▸ hy)
          · exact hdisj y (by simp [hy]) e)
        (by omega)
        (by unfold IsLONG at hlong hlow ⊢; simp only; omega)
        (by
          unfold IsLONG at hlong hlow ⊢
          simp only
          omega)
      refine ⟨s', h1, ?_, ?_, ?_, ?_, ?_, ?_, ?_, ?_, ?_, ?_⟩
      · rw [h2]
        simp only [List.map_cons, List.append_assoc, List.singleton_append]
        congr 2
        apply List.map_congr_left
        intro y hy
        have hyx : y ≠ head := fun e => hnot (e ▸ hy)
        simp [Function.update_noteq hyx]
      · rw [h3]
        simp only [List.length_cons, Nat.cast_add, Nat.cast_one]
        omega
      · rw [h4]
      · intro q hq
        rcases List.mem_cons.mp hq with e | e
        · subst e
          rw [h8 q hnot]
          simp
        · exact h5 q e
      · simpa using h6
      · rw [h7]
      · intro q hq
        have hq1 : q ∉ xs := fun e => hq (by simp [e])
        have hq2 : q ≠ head := fun e => hq (by simp [e])
        rw [h8 q hq1]
        simp [Function.update_noteq hq2]
      · rw [h9]
      · rw [h10]
      · rw [h11]

/-- C8: when NDIS returns a chain of the `k` descriptors `l`, none of them on a
free list, `ReceiverReturnNetBufferLists` (given at least `k` rounds) returns
having notified the VIF back end `k` times, with the cookies stored in the
descriptors of `l` in chain order; `InNDIS` is `k` smaller; nothing was freed;
every descriptor of `l` has an empty cookie; the put list is `l` reversed
followed by the previous put list; the get list is the chain it was. -/
theorem C8_returnDescriptors_chain (s : State) (head rf fuel : Nat) (l gl pl : List Ptr)
    (hl : IsList s.Heap head l)
    (hgl : IsList s.Heap s.GetList gl) (hpl : IsList s.Heap s.PutList pl)
    (hdisjg : ∀ x ∈ l, x ∉ gl) (hdisjp : ∀ x ∈ l, x ∉ pl)
    (hfuel : l.length ≤ fuel)
    (hlong : IsLONG s.InNDIS) (hlow : IsLONG (s.InNDIS - l.length)) :
    ∃ s', ReceiverReturnNetBufferLists fuel s head rf = .ok s' ∧
      s'.Notified = s.Notified ++ l.map (fun p => (s.Heap p).Cookie) ∧
      s'.InNDIS = s.InNDIS - l.length ∧
      s'.Freed = s.Freed ∧
      (∀ p ∈ l, (s'.Heap p).Cookie = 0) ∧
      IsList s'.Heap s'.PutList (l.reverse ++ pl) ∧
      s'.GetList = s.GetList ∧ IsList s'.Heap s'.GetList gl ∧
      (∀ q, q ∉ l → s'.Heap q = s.Heap q) := by
  obtain ⟨s', h1, h2, h3, h4, h5, h6, h7, h8, -, -, -⟩ :=
    returnLists_chain l fuel s head rf pl hl hpl hdisjp hfuel hlong hlow
  refine ⟨s', h1, h2, h3, h4, h5, h6, h7, ?_, h8⟩
  rw [h7]
  refine (IsList_congr s.Heap s'.Heap gl ?_ _).mpr hgl
  intro x hx
  have hxl : x ∉ l := fun e => hdisjg x e hx
  rw [h8 x hxl]

/-- C8 on the receiver with the descriptors `2` and `1` delivered and chained for
return: the cookies `8` and `7` are notified in that order and the put list
becomes `1, 2`. -/
theorem C8_returnDescriptors_chain_witness :
    (IsList twoDelivered.Heap 2 [2, 1] ∧ IsLONG twoDelivered.InNDIS ∧
      IsLONG (twoDelivered.InNDIS - ([2, 1] : List Ptr).length)) ∧
    ∃ s', ReceiverReturnNetBufferLists 2 twoDelivered 2 0 = .ok s' ∧
      s'.Notified = [8, 7] ∧ s'.InNDIS = 0 ∧ s'.Freed = [] ∧
      IsList s'.Heap s'.PutList [1, 2] := by
  refine ⟨by decide, ?_⟩
  obtain ⟨s', h1, h2, h3, h4, -, h5, -⟩ :=
    C8_returnDescriptors_chain twoDelivered 2 0 2 [2, 1] [] [] (by decide) rfl rfl
      (by simp) (by simp) (by decide) (by decide) (by decide)
  exact ⟨s', h1, h2, h3, h4, h5⟩

/-- C9: on a receiver whose get list and put list are both empty, when the NDIS
allocator succeeds, `__ReceiverAllocateNetBufferList` returns the descriptor that
the allocator has just handed out (one more allocation is counted), which
describes `(Mdl, Offset, Length)`, has an empty next-link and holds `Cookie`;
both free lists are still empty. -/
theorem C9_acquire_fresh (s : State) (Mdl Offset Length Cookie : Nat)
    (hg : s.GetList = 0) (hp : s.PutList = 0) :
    ∃ nbl s1, __ReceiverAllocateNetBufferList s true Mdl Offset Length Cookie = .ok (nbl, s1) ∧
      nbl ≠ 0 ∧
      (nbl, s1.Allocated) =
        ((NdisAllocateNetBufferAndNetBufferList s true Mdl Offset Length).1,
          (NdisAllocateNetBufferAndNetBufferList s true Mdl Offset Length).2.Allocated) ∧
      s1.Allocated = s.Allocated + 1 ∧
      (s1.Heap nbl).FirstNetBuffer =
        { Next := 0, FirstMdl := Mdl, CurrentMdl := Mdl, DataOffset := Offset,
          DataLength := Length, CurrentMdlOffset := Offset } ∧
      (s1.Heap nbl).Next = 0 ∧
      (s1.Heap nbl).Cookie = Cookie ∧
      s1.GetList = 0 ∧ s1.PutList = 0 ∧
      (∀ q, q ≠ nbl → s1.Heap q = s.Heap q) := by
  refine ⟨_, _, acquire_fresh_eq s Mdl Offset Length Cookie hg hp, ?_⟩
  simp +contextual [NdisAllocateNetBufferAndNetBufferList, Function.update_noteq,
    zeroNetBufferList]

/-- C9 on the freshly initialized receiver: descriptor `1` is allocated for the
packet `(100, 0, 64)` with cookie `7`. -/
theorem C9_acquire_fresh_witness :
    (initial.GetList = 0 ∧ initial.PutList = 0) ∧
    ∃ nbl s1, __ReceiverAllocateNetBufferList initial true 100 0 64 7 = .ok (nbl, s1) ∧
      nbl ≠ 0 ∧ s1.Allocated = 1 ∧ (s1.Heap nbl).Cookie = 7 ∧
      s1.GetList = 0 ∧ s1.PutList = 0 := by
  refine ⟨⟨rfl, rfl⟩, ?_⟩
  obtain ⟨nbl, s1, h1, h2, -, h3, -, -, h4, h5, h6, -⟩ :=
    C9_acquire_fresh initial 100 0 64 7 rfl rfl
  exact ⟨nbl, s1, h1, h2, h3, h4, h5, h6⟩

/-- C10: on a receiver whose free lists are the disjoint chains `gl` and `pl`, not
both empty, and whose first descriptor to be handed out passes the checks of lines
93 and 107 (one `NET_BUFFER`, empty cookie), `__ReceiverAllocateNetBufferList`
succeeds whatever the allocator would answer and counts no allocation.  It returns
the head `x` of the list it pops: `gl` when non-empty, leaving the put list as it
was, else `pl`, which becomes the get list while the put list becomes empty.  The
get list is then the tail of that list; `x` has an empty next-link, describes
`(Mdl, Offset, Length)` and holds `Cookie`; no other descriptor changed. -/
theorem C10_acquire_recycled (s : State) (allocOk : Bool) (Mdl Offset Length Cookie : Nat)
    (gl pl : List Ptr)
    (hgl : IsList s.Heap s.GetList gl) (hpl : IsList s.Heap s.PutList pl)
    (hdisj : ∀ x ∈ gl, x ∉ pl)
    (hne : gl ≠ [] ∨ pl ≠ [])
    (hhead : ∀ x ∈ (if gl = [] then pl else gl).head?,
      (s.Heap x).FirstNetBuffer.Next = 0 ∧ (s.Heap x).Cookie = 0) :
    ∃ x xs s1, (if gl = [] then pl else gl) = x :: xs ∧
      __ReceiverAllocateNetBufferList s allocOk Mdl Offset Length Cookie = .ok (x, s1) ∧
      s1.Allocated = s.Allocated ∧
      IsList s1.Heap s1.GetList xs ∧
      IsList s1.Heap s1.PutList (if gl = [] then [] else pl) ∧
      (gl ≠ [] → s1.PutList = s.PutList) ∧
      (s1.Heap x).Next = 0 ∧
      (s1.Heap x).FirstNetBuffer =
        { Next := 0, FirstMdl := Mdl, CurrentMdl := Mdl, DataOffset := Offset,
          DataLength := Length, CurrentMdlOffset := Offset } ∧
      (s1.Heap x).Cookie = Cookie ∧
      (∀ q, q ≠ x → s1.Heap q = s.Heap q) := by
  cases gl with
  | cons x xs =>
    obtain ⟨hx, hx0, hxs⟩ := hgl
    have hg : s.GetList ≠ 0 := by rw [hx]; exact hx0
    have hnot : x ∉ xs := IsList_head_not_mem_tail s.Heap x xs x ⟨rfl, hx0, hxs⟩
    have hxpl : x ∉ pl := hdisj x (by simp)
    obtain ⟨hnb, hc⟩ := hhead x (by simp)
    rw [← hx] at hnb hc
    have heq := acquire_get_eq s allocOk Mdl Offset Length Cookie hg hnb hc
    rw [hx] at heq
    refine ⟨x, xs, _, by simp, heq, rfl, (IsList_update_of_not_mem _ _ _ _ hnot _).mpr hxs,
      ?_, ?_, ?_⟩
    · simp only [reduceCtorEq, if_false]
      exact (IsList_update_of_not_mem _ _ _ _ hxpl _).mpr hpl
    · intro _; rfl
    · simp +contextual [Function.update_noteq]
  | nil =>
    have hg : s.GetList = 0 := hgl
    cases pl with
    | nil => simp at hne
    | cons x xs =>
      obtain ⟨hx, hx0, hxs⟩ := hpl
      have hp : s.PutList ≠ 0 := by rw [hx]; exact hx0
      have hnot : x ∉ xs := IsList_head_not_mem_tail s.Heap x xs x ⟨rfl, hx0, hxs⟩
      obtain ⟨hnb, hc⟩ := hhead x (by simp)
      rw [← hx] at hnb hc
      have heq := acquire_put_eq s allocOk Mdl Offset Length Cookie hg hp hnb hc
      rw [hx] at heq
      refine ⟨x, xs, _, by simp, heq, rfl, (IsList_update_of_not_mem _ _ _ _ hnot _).mpr hxs,
        ?_, ?_, ?_⟩
      · simp [IsList]
      · intro h; exact absurd rfl h
      · simp +contextual [Function.update_noteq]

/-- C10 on the receiver with an empty get list and descriptor `1` on the put
list, the allocator failing: the packet `(200, 8, 32)` with cookie `9` gets
descriptor `1` and both free lists end empty. -/
theorem C10_acquire_recycled_witness :
    (IsList oneReturned.Heap oneReturned.GetList [] ∧
      IsList oneReturned.Heap oneReturned.PutList [1]) ∧
    ∃ s1, __ReceiverAllocateNetBufferList oneReturned false 200 8 32 9 = .ok (1, s1) ∧
      s1.Allocated = oneReturned.Allocated ∧ IsList s1.Heap s1.GetList [] ∧
      IsList s1.Heap s1.PutList [] ∧ (s1.Heap 1).Cookie = 9 := by
  refine ⟨by decide, ?_⟩
  obtain ⟨x, xs, s1, h0, h1, h2, h3, h4, -, -, -, h5, -⟩ :=
    C10_acquire_recycled oneReturned false 200 8 32 9 [] [1] (by decide)
      (by decide) (by simp) (by simp) (by decide)
  simp only [if_true, List.cons.injEq] at h0 h4
  obtain ⟨rfl, rfl⟩ := h0
  exact ⟨s1, h1, h2, h3, h4, h5⟩

/-! ### The three outcomes of a reception -/

theorem receive_eq_untagged (U : TagUnpack) (s s0 : State) (allocOk : Bool)
    (Mdl Offset Length : Nat) (Flags : XENVIF_PACKET_CHECKSUM_FLAGS)
    (MaximumSegmentSize Info Cookie : Nat) (nbl : Ptr)
    (hacq : __ReceiverAllocateNetBufferList s allocOk Mdl Offset Length Cookie = .ok (nbl, s0)) :
    __ReceiverReceivePacket U s allocOk Mdl Offset Length Flags MaximumSegmentSize 0 Info
        Cookie = .ok (nbl,
      { s0 with
        Heap := Function.update s0.Heap nbl
          { s0.Heap nbl with
            SourceHandle := s0.Adapter
            TcpIpChecksumNetBufferListInfo := checksumInfo Flags } }) := by
  have hne := (acquire_ok s s0 allocOk Mdl Offset Length Cookie nbl hacq).1
  simp [__ReceiverReceivePacket, hacq, hne, checksumInfo]

theorem receive_eq_tagged (U : TagUnpack) (s s0 : State) (allocOk : Bool)
    (Mdl Offset Length : Nat) (Flags : XENVIF_PACKET_CHECKSUM_FLAGS)
    (MaximumSegmentSize TagControlInformation Info Cookie : Nat) (nbl : Ptr)
    (hacq : __ReceiverAllocateNetBufferList s allocOk Mdl Offset Length Cookie = .ok (nbl, s0))
    (ht : TagControlInformation ≠ 0) (hv : U.VlanId TagControlInformation % 4096 = 0) :
    __ReceiverReceivePacket U s allocOk Mdl Offset Length Flags MaximumSegmentSize
        TagControlInformation Info Cookie = .ok (nbl,
      { s0 with
        Heap := Function.update s0.Heap nbl
          { s0.Heap nbl with
            SourceHandle := s0.Adapter
            TcpIpChecksumNetBufferListInfo := checksumInfo Flags
            Ieee8021QNetBufferListInfo := tagHeader U TagControlInformation } }) := by
  have hne := (acquire_ok s s0 allocOk Mdl Offset Length Cookie nbl hacq).1
  simp [__ReceiverReceivePacket, hacq, hne, checksumInfo, tagHeader, ht, hv]

theorem receive_eq_rejected (U : TagUnpack) (s s0 : State) (allocOk : Bool)
    (Mdl Offset Length : Nat) (Flags : XENVIF_PACKET_CHECKSUM_FLAGS)
    (MaximumSegmentSize TagControlInformation Info Cookie : Nat) (nbl : Ptr)
    (hacq : __ReceiverAllocateNetBufferList s allocOk Mdl Offset Length Cookie = .ok (nbl, s0))
    (ht : TagControlInformation ≠ 0) (hv : U.VlanId TagControlInformation % 4096 ≠ 0) :
    __ReceiverReceivePacket U s allocOk Mdl Offset Length Flags MaximumSegmentSize
        TagControlInformation Info Cookie = .ok (0,
      { s0 with
        PutList := nbl
        Heap := Function.update s0.Heap nbl
          { s0.Heap nbl with
            Next := s0.PutList
            Cookie := 0
            SourceHandle := s0.Adapter
            TcpIpChecksumNetBufferListInfo := checksumInfo Flags } }) := by
  obtain ⟨hne, hnext, -⟩ := acquire_ok s s0 allocOk Mdl Offset Length Cookie nbl hacq
  simp [__ReceiverReceivePacket, hacq, hne, checksumInfo, ht, hv,
    __ReceiverReleaseNetBufferList, hnext]

/-- C11: after a successful acquisition of descriptor `nbl`, the annotation of
`__ReceiverReceivePacket` with tag value `t` returns, and it fails (returns
`NULL`) exactly when `t` is non-zero and the identifier unpacked from `t`, as the
12-bit field keeps it, is non-zero.  When `t` is non-zero with identifier zero the
result is `nbl` and its tag metadata holds the priority and the format indicator
unpacked from `t` (as the 3-bit and 1-bit fields keep them) and identifier 0; when
`t` is zero the result is `nbl` and its tag metadata is what it was after the
acquisition. -/
theorem C11_annotation_tag (U : TagUnpack) (s s0 : State) (allocOk : Bool)
    (Mdl Offset Length : Nat) (Flags : XENVIF_PACKET_CHECKSUM_FLAGS)
    (MaximumSegmentSize t Info Cookie : Nat) (nbl : Ptr)
    (hacq : __ReceiverAllocateNetBufferList s allocOk Mdl Offset Length Cookie = .ok (nbl, s0)) :
    ∃ p s1, __ReceiverReceivePacket U s allocOk Mdl Offset Length Flags MaximumSegmentSize
          t Info Cookie = .ok (p, s1) ∧
      (p = 0 ↔ (t ≠ 0 ∧ U.VlanId t % 4096 ≠ 0)) ∧
      (p ≠ 0 → p = nbl) ∧
      (t ≠ 0 → U.VlanId t % 4096 = 0 →
        (s1.Heap nbl).Ieee8021QNetBufferListInfo =
          { UserPriority := U.UserPriority t % 8
            CanonicalFormatId := U.CanonicalFormatId t % 2
            VlanId := 0 }) ∧
      (t = 0 →
        (s1.Heap nbl).Ieee8021QNetBufferListInfo =
          (s0.Heap nbl).Ieee8021QNetBufferListInfo) := by
  have hne := (acquire_ok s s0 allocOk Mdl Offset Length Cookie nbl hacq).1
  by_cases ht : t = 0
  · subst ht
    refine ⟨_, _, receive_eq_untagged U s s0 allocOk Mdl Offset Length Flags MaximumSegmentSize
      Info Cookie nbl hacq, ?_, ?_, ?_, ?_⟩
    · simp [hne]
    · intro _; rfl
    · intro h; exact absurd rfl h
    · intro _; simp
  · by_cases hv : U.VlanId t % 4096 = 0
    · refine ⟨_, _, receive_eq_tagged U s s0 allocOk Mdl Offset Length Flags
        MaximumSegmentSize t Info Cookie nbl hacq ht hv, ?_, ?_, ?_, ?_⟩
      · simp [hne, hv]
      · intro _; rfl
      · intro _ _; simp [tagHeader, hv]
      · intro h; exact absurd h ht
    · refine ⟨_, _, receive_eq_rejected U s s0 allocOk Mdl Offset Length Flags
        MaximumSegmentSize t Info Cookie nbl hacq ht hv, ?_, ?_, ?_, ?_⟩
      · simp [ht, hv]
      · intro h; exact absurd rfl h
      · intro _ h; exact absurd h hv
      · intro h; exact absurd h ht

/-- C11 on the freshly initialized receiver with tag value `0x2000` (priority 1,
identifier 0): the annotation succeeds and the tag metadata holds priority 1. -/
theorem C11_annotation_tag_witness :
    ∃ p s1, __ReceiverReceivePacket ieee8021Q initial true 100 0 64 noFlags 0 8192 0 7
        = .ok (p, s1) ∧ p ≠ 0 ∧
      (s1.Heap 1).Ieee8021QNetBufferListInfo =
        { UserPriority := 1, CanonicalFormatId := 0, VlanId := 0 } := by
  obtain ⟨p, s1, h1, h2, -, h3, -⟩ :=
    C11_annotation_tag ieee8021Q initial
      (stateOf (__ReceiverAllocateNetBufferList initial true 100 0 64 7) initial)
      true 100 0 64 noFlags 0 8192 0 7 1 rfl
  refine ⟨p, s1, h1, ?_, h3 (by decide) (by decide)⟩
  intro hp
  exact absurd (h2.mp hp).2 (by decide)

/-- C12: after a successful acquisition of descriptor `nbl`, the annotation of
`__ReceiverReceivePacket` returns for every combination of the six checksum
flags; whether it returns `NULL` depends on the tag value alone; and the checksum
metadata of `nbl` then has each of the six outcome bits equal to the flag supplied
and every other bit zero, whatever it held before. -/
theorem C12_annotation_checksum (U : TagUnpack) (s s0 : State) (allocOk : Bool)
    (Mdl Offset Length : Nat) (Flags : XENVIF_PACKET_CHECKSUM_FLAGS)
    (MaximumSegmentSize t Info Cookie : Nat) (nbl : Ptr)
    (hacq : __ReceiverAllocateNetBufferList s allocOk Mdl Offset Length Cookie = .ok (nbl, s0)) :
    ∃ p s1, __ReceiverReceivePacket U s allocOk Mdl Offset Length Flags MaximumSegmentSize
          t Info Cookie = .ok (p, s1) ∧
      (p = 0 ↔ (t ≠ 0 ∧ U.VlanId t % 4096 ≠ 0)) ∧
      (s1.Heap nbl).TcpIpChecksumNetBufferListInfo =
        { IpChecksumSucceeded := Flags.IpChecksumSucceeded
          IpChecksumFailed := Flags.IpChecksumFailed
          TcpChecksumSucceeded := Flags.TcpChecksumSucceeded
          TcpChecksumFailed := Flags.TcpChecksumFailed
          UdpChecksumSucceeded := Flags.UdpChecksumSucceeded
          UdpChecksumFailed := Flags.UdpChecksumFailed
          Rest := 0 } := by
  have hne := (acquire_ok s s0 allocOk Mdl Offset Length Cookie nbl hacq).1
  by_cases ht : t = 0
  · subst ht
    refine ⟨_, _, receive_eq_untagged U s s0 allocOk Mdl Offset Length Flags MaximumSegmentSize
      Info Cookie nbl hacq, ?_, ?_⟩
    · simp [hne]
    · simp [checksumInfo]
  · by_cases hv : U.VlanId t % 4096 = 0
    · refine ⟨_, _, receive_eq_tagged U s s0 allocOk Mdl Offset Length Flags
        MaximumSegmentSize t Info Cookie nbl hacq ht hv, ?_, ?_⟩
      · simp [hne, hv]
      · simp [checksumInfo]
    · refine ⟨_, _, receive_eq_rejected U s s0 allocOk Mdl Offset Length Flags
        MaximumSegmentSize t Info Cookie nbl hacq ht hv, ?_, ?_⟩
      · simp [ht, hv]
      · simp [checksumInfo]

/-- C12 on the freshly initialized receiver with all six flags set (success and
failure reported together for each protocol): the annotation succeeds and every
outcome bit is set. -/
theorem C12_annotation_checksum_witness :
    ∃ p s1, __ReceiverReceivePacket ieee8021Q initial true 100 0 64
        { IpChecksumSucceeded := true, IpChecksumFailed := true,
          TcpChecksumSucceeded := true, TcpChecksumFailed := true,
          UdpChecksumSucceeded := true, UdpChecksumFailed := true } 0 0 0 7
        = .ok (p, s1) ∧ p ≠ 0 ∧
      (s1.Heap 1).TcpIpChecksumNetBufferListInfo =
        { IpChecksumSucceeded := true, IpChecksumFailed := true,
          TcpChecksumSucceeded := true, TcpChecksumFailed := true,
          UdpChecksumSucceeded := true, UdpChecksumFailed := true, Rest := 0 } := by
  obtain ⟨p, s1, h1, h2, h3⟩ :=
    C12_annotation_checksum ieee8021Q initial
      (stateOf (__ReceiverAllocateNetBufferList initial true 100 0 64 7) initial)
      true 100 0 64
      { IpChecksumSucceeded := true, IpChecksumFailed := true,
        TcpChecksumSucceeded := true, TcpChecksumFailed := true,
        UdpChecksumSucceeded := true, UdpChecksumFailed := true } 0 0 0 7 1 rfl
  refine ⟨p, s1, h1, ?_, h3⟩
  intro hp
  exact absurd rfl (h2.mp hp).1

/-! ### Two pushes and a refill -/

theorem releaseTwo_then_acquire (s : State) (a b : Ptr) (allocOk : Bool)
    (Mdl Offset Length Cookie : Nat)
    (hg : s.GetList = 0) (hp : s.PutList = 0) (hab : a ≠ b) (ha : a ≠ 0) (hb : b ≠ 0)
    (hna : (s.Heap a).Next = 0) (hnb : (s.Heap b).Next = 0)
    (hbb : (s.Heap b).FirstNetBuffer.Next = 0) :
    ∃ s2 s3, releaseTwo s a b = .ok s2 ∧
      s2.GetList = 0 ∧ IsList s2.Heap s2.PutList [b, a] ∧
      __ReceiverAllocateNetBufferList s2 allocOk Mdl Offset Length Cookie = .ok (b, s3) ∧
      s3.PutList = 0 ∧ IsList s3.Heap s3.GetList [a] ∧ s3.Allocated = s.Allocated := by
  have hba : b ≠ a := fun e => hab e.symm
  have h2 : releaseTwo s a b = .ok
      { s with
        PutList := b
        Heap := Function.update
          (Function.update s.Heap a { s.Heap a with Cookie := 0, Next := 0 }) b
          { s.Heap b with Cookie := 0, Next := a } } := by
    simp [releaseTwo, __ReceiverReleaseNetBufferList, ha, hb, hna, hnb, hp,
      Function.update_noteq hba]
  have h3 := acquire_put_eq
    { s with
      PutList := b
      Heap := Function.update
        (Function.update s.Heap a { s.Heap a with Cookie := 0, Next := 0 }) b
        { s.Heap b with Cookie := 0, Next := a } }
    allocOk Mdl Offset Length Cookie hg hb (by simp [hbb]) (by simp)
  refine ⟨_, _, h2, hg, ?_, h3, rfl, ?_, rfl⟩
  · simp [IsList, ha, hb, Function.update_noteq hab]
  · simp [IsList, ha, Function.update_noteq hab]

/-- C17: on a receiver with empty free lists, when two distinct descriptors `d1`
and `d2` (unlinked, each with its one `NET_BUFFER`) are released with caching, in
either order, the put list is the chain of the two, last pushed first; the next
`__ReceiverAllocateNetBufferList` succeeds without allocating, takes that whole
chain as get list, leaving the put list empty, returns the last pushed descriptor
and leaves the other one as the only member of the get list.  The refilled list is
a permutation of `[d1, d2]` in both orders. -/
theorem C17_two_pushes_then_refill (s : State) (d1 d2 : Ptr) (allocOk : Bool)
    (Mdl Offset Length Cookie : Nat)
    (hg : s.GetList = 0) (hp : s.PutList = 0) (hne : d1 ≠ d2) (h1 : d1 ≠ 0) (h2 : d2 ≠ 0)
    (hn1 : (s.Heap d1).Next = 0) (hn2 : (s.Heap d2).Next = 0)
    (hb1 : (s.Heap d1).FirstNetBuffer.Next = 0) (hb2 : (s.Heap d2).FirstNetBuffer.Next = 0) :
    (∃ s2 s3, releaseTwo s d1 d2 = .ok s2 ∧
      s2.GetList = 0 ∧ IsList s2.Heap s2.PutList [d2, d1] ∧ [d2, d1].Perm [d1, d2] ∧
      __ReceiverAllocateNetBufferList s2 allocOk Mdl Offset Length Cookie = .ok (d2, s3) ∧
      s3.PutList = 0 ∧ IsList s3.Heap s3.GetList [d1] ∧ s3.Allocated = s.Allocated) ∧
    (∃ s2 s3, releaseTwo s d2 d1 = .ok s2 ∧
      s2.GetList = 0 ∧ IsList s2.Heap s2.PutList [d1, d2] ∧ [d1, d2].Perm [d1, d2] ∧
      __ReceiverAllocateNetBufferList s2 allocOk Mdl Offset Length Cookie = .ok (d1, s3) ∧
      s3.PutList = 0 ∧ IsList s3.Heap s3.GetList [d2] ∧ s3.Allocated = s.Allocated) := by
  constructor
  · obtain ⟨s2, s3, e1, e2, e3, e4, e5, e6, e7⟩ :=
      releaseTwo_then_acquire s d1 d2 allocOk Mdl Offset Length Cookie hg hp hne h1 h2 hn1 hn2
        hb2
    exact ⟨s2, s3, e1, e2, e3, List.Perm.swap d1 d2 [], e4, e5, e6, e7⟩
  · obtain ⟨s2, s3, e1, e2, e3, e4, e5, e6, e7⟩ :=
      releaseTwo_then_acquire s d2 d1 allocOk Mdl Offset Length Cookie hg hp
        (fun e => hne e.symm) h2 h1 hn2 hn1 hb1
    exact ⟨s2, s3, e1, e2, e3, List.Perm.refl _, e4, e5, e6, e7⟩

/-- C17 on the receiver holding the descriptors `1` and `2` outside its empty free
lists: both orders of release end with the other descriptor alone on the get
list. -/
theorem C17_two_pushes_then_refill_witness :
    (twoHeld.GetList = 0 ∧ twoHeld.PutList = 0 ∧ (twoHeld.Heap 1).Next = 0 ∧
      (twoHeld.Heap 2).Next = 0) ∧
    (∃ s2 s3, releaseTwo twoHeld 1 2 = .ok s2 ∧
      __ReceiverAllocateNetBufferList s2 false 300 0 64 9 = .ok (2, s3) ∧
      s3.PutList = 0 ∧ IsList s3.Heap s3.GetList [1]) ∧
    (∃ s2 s3, releaseTwo twoHeld 2 1 = .ok s2 ∧
      __ReceiverAllocateNetBufferList s2 false 300 0 64 9 = .ok (1, s3) ∧
      s3.PutList = 0 ∧ IsList s3.Heap s3.GetList [2]) := by
  refine ⟨by decide, ?_⟩
  obtain ⟨⟨s2, s3, a1, -, -, -, a2, a3, a4, -⟩, ⟨t2, t3, b1, -, -, -, b2, b3, b4, -⟩⟩ :=
    C17_two_pushes_then_refill twoHeld 1 2 false 300 0 64 9 rfl rfl (by decide) (by decide)
      (by decide) (by decide) (by decide) (by decide) (by decide)
  exact ⟨⟨s2, s3, a1, a2, a3, a4⟩, ⟨t2, t3, b1, b2, b3, b4⟩⟩

/-! ### The invariant of the receiver -/

theorem cells_step (M M' : Multiset Ptr) (A A' : Nat) (hn : M.Nodup)
    (hr : ∀ x ∈ M, x ≠ 0 ∧ x ≤ A) (hc : Multiset.card M = A)
    (h : (M' = M ∧ A' = A) ∨ (M' = {A + 1} + M ∧ A' = A + 1)) :
    M'.Nodup ∧ (∀ x ∈ M', x ≠ 0 ∧ x ≤ A') ∧ Multiset.card M' = A' := by
  rcases h with ⟨rfl, rfl⟩ | ⟨rfl, rfl⟩
  · exact ⟨hn, hr, hc⟩
  · have hnot : A + 1 ∉ M := fun hm => Nat.not_succ_le_self A (hr _ hm).2
    refine ⟨?_, ?_, ?_⟩
    · rw [Multiset.singleton_add]
      exact Multiset.nodup_cons.mpr ⟨hnot, hn⟩
    · intro x hx
      rw [Multiset.mem_add, Multiset.mem_singleton] at hx
      rcases hx with rfl | hx
      · exact ⟨Nat.succ_ne_zero A, le_refl _⟩
      · exact ⟨(hr x hx).1, Nat.le_succ_of_le (hr x hx).2⟩
    · rw [Multiset.card_add, Multiset.card_singleton, hc]
      omega

theorem acquire_cells (s s0 : State) (allocOk : Bool) (Mdl Offset Length Cookie : Nat)
    (nbl : Ptr) (gl pl : List Ptr)
    (hgl : IsList s.Heap s.GetList gl) (hpl : IsList s.Heap s.PutList pl)
    (hdisj : ∀ x ∈ gl, x ∉ pl)
    (hacq : __ReceiverAllocateNetBufferList s allocOk Mdl Offset Length Cookie = .ok (nbl, s0)) :
    ∃ gl0 pl0, IsList s0.Heap s0.GetList gl0 ∧ IsList s0.Heap s0.PutList pl0 ∧
      nbl ∉ gl0 ∧ nbl ∉ pl0 ∧
      ((({nbl} : Multiset Ptr) + (gl0 : Multiset Ptr) + (pl0 : Multiset Ptr) =
          (gl : Multiset Ptr) + (pl : Multiset Ptr) ∧ s0.Allocated = s.Allocated) ∨
        (({nbl} : Multiset Ptr) + (gl0 : Multiset Ptr) + (pl0 : Multiset Ptr) =
          {s.Allocated + 1} + ((gl : Multiset Ptr) + (pl : Multiset Ptr)) ∧
          s0.Allocated = s.Allocated + 1)) := by
  rcases acquire_ok_cases s s0 allocOk Mdl Offset Length Cookie nbl hacq with
    ⟨hg, hnb, hc⟩ | ⟨hg, hp, hnb, hc⟩ | ⟨hg, hp, hok⟩
  · rw [acquire_get_eq s allocOk Mdl Offset Length Cookie hg hnb hc] at hacq
    simp only [Except.ok.injEq, Prod.mk.injEq] at hacq
    obtain ⟨rfl, rfl⟩ := hacq
    cases gl with
    | nil => exact absurd hgl hg
    | cons x xs =>
      obtain ⟨hx, hx0, hxs⟩ := hgl
      have hnot : x ∉ xs := IsList_head_not_mem_tail s.Heap x xs x ⟨rfl, hx0, hxs⟩
      have hxpl : x ∉ pl := hdisj x (by simp)
      refine ⟨xs, pl, ?_, ?_, ?_, ?_, Or.inl ⟨?_, rfl⟩⟩
      · simp only [hx]
        exact (IsList_update_of_not_mem _ _ _ _ hnot _).mpr hxs
      · simp only [hx]
        exact (IsList_update_of_not_mem _ _ _ _ hxpl _).mpr hpl
      · simpa [hx] using hnot
      · simpa [hx] using hxpl
      · rw [hx, Multiset.singleton_add, Multiset.cons_coe]
  · rw [acquire_put_eq s allocOk Mdl Offset Length Cookie hg hp hnb hc] at hacq
    simp only [Except.ok.injEq, Prod.mk.injEq] at hacq
    obtain ⟨rfl, rfl⟩ := hacq
    have hgl0 : gl = [] := IsList_zero s.Heap gl (hg ▸ hgl)
    subst hgl0
    cases pl with
    | nil => exact absurd hpl hp
    | cons x xs =>
      obtain ⟨hx, hx0, hxs⟩ := hpl
      have hnot : x ∉ xs := IsList_head_not_mem_tail s.Heap x xs x ⟨rfl, hx0, hxs⟩
      refine ⟨xs, [], ?_, ?_, ?_, ?_, Or.inl ⟨?_, rfl⟩⟩
      · simp only [hx]
        exact (IsList_update_of_not_mem _ _ _ _ hnot _).mpr hxs
      · simp [IsList]
      · simpa [hx] using hnot
      · simp
      · rw [hx, Multiset.singleton_add, Multiset.cons_coe]
        simp
  · subst hok
    rw [acquire_fresh_eq s Mdl Offset Length Cookie hg hp] at hacq
    simp only [Except.ok.injEq, Prod.mk.injEq] at hacq
    obtain ⟨rfl, rfl⟩ := hacq
    have hgl0 : gl = [] := IsList_zero s.Heap gl (hg ▸ hgl)
    have hpl0 : pl = [] := IsList_zero s.Heap pl (hp ▸ hpl)
    subst hgl0 hpl0
    exact ⟨[], [], by simp [IsList], by simp [IsList], by simp, by simp,
      Or.inr ⟨by simp, rfl⟩⟩

theorem queuePacket_of_receive_null (U : TagUnpack) (s s1 : State) (allocOk : Bool)
    (Mdl Offset Length : Nat) (Flags : XENVIF_PACKET_CHECKSUM_FLAGS)
    (MaximumSegmentSize TagControlInformation Info Cookie : Nat)
    (hrecv : __ReceiverReceivePacket U s allocOk Mdl Offset Length Flags MaximumSegmentSize
      TagControlInformation Info Cookie = .ok (0, s1)) :
    ReceiverQueuePacket U s allocOk Mdl Offset Length Flags MaximumSegmentSize
      TagControlInformation Info Cookie =
        .ok { s1 with Notified := s1.Notified ++ [Cookie] } := by
  simp [ReceiverQueuePacket, hrecv]

theorem queuePacket_error_of_acquire (U : TagUnpack) (s : State) (allocOk : Bool)
    (Mdl Offset Length : Nat) (Flags : XENVIF_PACKET_CHECKSUM_FLAGS)
    (MaximumSegmentSize TagControlInformation Info Cookie : Nat) (f : Fault)
    (hacq : __ReceiverAllocateNetBufferList s allocOk Mdl Offset Length Cookie = .error f) :
    ReceiverQueuePacket U s allocOk Mdl Offset Length Flags MaximumSegmentSize
      TagControlInformation Info Cookie = .error f := by
  simp [ReceiverQueuePacket, __ReceiverReceivePacket, hacq]

/-- The three ways `ReceiverQueuePacket` returns after the acquisition of `nbl`
on a state with `0 ≤ InNDIS ≤ 1024`: the packet is rejected for its tag, delivered
(Normal), or delivered and released at once (Forced). -/
theorem queue_after_acquire (U : TagUnpack) (s s0 : State) (allocOk : Bool)
    (Mdl Offset Length : Nat) (Flags : XENVIF_PACKET_CHECKSUM_FLAGS)
    (MaximumSegmentSize TagControlInformation Info Cookie : Nat) (nbl : Ptr)
    (h0 : 0 ≤ s.InNDIS) (h1 : s.InNDIS ≤ 1024)
    (hacq : __ReceiverAllocateNetBufferList s allocOk Mdl Offset Length Cookie = .ok (nbl, s0)) :
    ∃ s', ReceiverQueuePacket U s allocOk Mdl Offset Length Flags MaximumSegmentSize
          TagControlInformation Info Cookie = .ok s' ∧
      (∀ q, q ≠ nbl → s'.Heap q = s0.Heap q) ∧
      (s'.Heap nbl).FirstNetBuffer = (s0.Heap nbl).FirstNetBuffer ∧
      s'.Allocated = s0.Allocated ∧ s'.GetList = s0.GetList ∧
      (((TagControlInformation ≠ 0 ∧ U.VlanId TagControlInformation % 4096 ≠ 0) ∧
          s'.PutList = nbl ∧ (s'.Heap nbl).Next = s0.PutList ∧ (s'.Heap nbl).Cookie = 0 ∧
          s'.Freed = s.Freed ∧ s'.Indicated = s.Indicated ∧ s'.InNDIS = s.InNDIS ∧
          s'.InNDISMax = s.InNDISMax ∧ s'.Notified = s.Notified ++ [Cookie]) ∨
        ((TagControlInformation = 0 ∨ U.VlanId TagControlInformation % 4096 = 0) ∧
          s.InNDIS + 1 ≤ 1024 ∧ s'.PutList = s0.PutList ∧ (s'.Heap nbl).Next = 0 ∧
          (s'.Heap nbl).Cookie = Cookie ∧ s'.Freed = s.Freed ∧
          s'.Indicated = s.Indicated ++
            [{ NetBufferList := nbl, Flags := NDIS_RECEIVE_FLAGS_DISPATCH_LEVEL,
               InNDIS := s.InNDIS + 1 }] ∧
          s'.InNDIS = s.InNDIS + 1 ∧ s'.InNDISMax = max s.InNDISMax (s.InNDIS + 1) ∧
          s'.Notified = s.Notified) ∨
        ((TagControlInformation = 0 ∨ U.VlanId TagControlInformation % 4096 = 0) ∧
          s.InNDIS = 1024 ∧ s'.PutList = s0.PutList ∧ (s'.Heap nbl).Cookie = 0 ∧
          s'.Freed = s.Freed ++ [nbl] ∧
          s'.Indicated = s.Indicated ++
            [{ NetBufferList := nbl,
               Flags := NDIS_RECEIVE_FLAGS_DISPATCH_LEVEL ||| NDIS_RECEIVE_FLAGS_RESOURCES,
               InNDIS := s.InNDIS + 1 }] ∧
          s'.InNDIS = s.InNDIS ∧ s'.InNDISMax = max s.InNDISMax (s.InNDIS + 1) ∧
          s'.Notified = s.Notified ++ [Cookie])) := by
  obtain ⟨hne, hnext, hcookie, -, -, a1, a2, a3, a4, a5, -⟩ :=
    acquire_ok s s0 allocOk Mdl Offset Length Cookie nbl hacq
  have hn : toLONG (s.InNDIS + 1) = s.InNDIS + 1 :=
    toLONG_of_IsLONG _ (by unfold IsLONG; omega)
  -- the admission of a descriptor received in `s1`
  have hadmit : ∀ s1 : State,
      __ReceiverReceivePacket U s allocOk Mdl Offset Length Flags MaximumSegmentSize
        TagControlInformation Info Cookie = .ok (nbl, s1) →
      s1.InNDIS = s.InNDIS → s1.InNDISMax = s.InNDISMax → s1.Freed = s.Freed →
      s1.Notified = s.Notified → s1.Indicated = s.Indicated →
      (s1.Heap nbl).Cookie = Cookie → (s1.Heap nbl).Next = 0 →
      ∃ s', ReceiverQueuePacket U s allocOk Mdl Offset Length Flags MaximumSegmentSize
            TagControlInformation Info Cookie = .ok s' ∧
        (∀ q, q ≠ nbl → s'.Heap q = s1.Heap q) ∧
        (s'.Heap nbl).FirstNetBuffer = (s1.Heap nbl).FirstNetBuffer ∧
        s'.Allocated = s1.Allocated ∧ s'.GetList = s1.GetList ∧
        ((s.InNDIS + 1 ≤ 1024 ∧ s'.PutList = s1.PutList ∧ (s'.Heap nbl).Next = 0 ∧
            (s'.Heap nbl).Cookie = Cookie ∧ s'.Freed = s.Freed ∧
            s'.Indicated = s.Indicated ++
              [{ NetBufferList := nbl, Flags := NDIS_RECEIVE_FLAGS_DISPATCH_LEVEL,
                 InNDIS := s.InNDIS + 1 }] ∧
            s'.InNDIS = s.InNDIS + 1 ∧ s'.InNDISMax = max s.InNDISMax (s.InNDIS + 1) ∧
            s'.Notified = s.Notified) ∨
          (s.InNDIS = 1024 ∧ s'.PutList = s1.PutList ∧ (s'.Heap nbl).Cookie = 0 ∧
            s'.Freed = s.Freed ++ [nbl] ∧
            s'.Indicated = s.Indicated ++
              [{ NetBufferList := nbl,
                 Flags := NDIS_RECEIVE_FLAGS_DISPATCH_LEVEL ||| NDIS_RECEIVE_FLAGS_RESOURCES,
                 InNDIS := s.InNDIS + 1 }] ∧
            s'.InNDIS = s.InNDIS ∧ s'.InNDISMax = max s.InNDISMax (s.InNDIS + 1) ∧
            s'.Notified = s.Notified ++ [Cookie])) := by
    intro s1 hrecv e1 e2 e3 e4 e5 e6 e7
    rw [queuePacket_of_receive_ok U s s1 allocOk Mdl Offset Length Flags MaximumSegmentSize
      TagControlInformation Info Cookie nbl hrecv hne]
    by_cases hle : s.InNDIS + 1 ≤ 1024
    · have hle1 : toLONG (s1.InNDIS + 1) ≤ IN_NDIS_MAX := by rw [e1, hn]; exact hle
      rw [push_normal s1 nbl hle1]
      refine ⟨_, rfl, fun q _ => rfl, rfl, rfl, rfl, Or.inl ⟨hle, rfl, e7, e6, e3, ?_, ?_, ?_, e4⟩⟩
      · simp [e1, hn, e5]
      · simp [e1, hn]
      · simp only [e1, hn, e2]
        exact max_eq_ite _ _
    · have hgt : IN_NDIS_MAX < toLONG (s1.InNDIS + 1) := by
        rw [e1, hn]; unfold IN_NDIS_MAX; omega
      rw [push_forced s1 nbl hgt hne]
      refine ⟨_, rfl, ?_, ?_, rfl, rfl, Or.inr ⟨by omega, rfl, ?_, ?_, ?_, ?_, ?_, ?_⟩⟩
      · intro q hq
        simp [Function.update_noteq hq]
      · simp
      · simp
      · simp [e3]
      · simp [e1, hn, e5]
      · simp only [e1, hn]
        unfold toLONG
        omega
      · simp only [e1, hn, e2]
        exact max_eq_ite _ _
      · simp [e4, e6]
  by_cases ht : TagControlInformation = 0
  · subst ht
    obtain ⟨s', q1, q2, q3, q4, q5, q6⟩ := hadmit _
      (receive_eq_untagged U s s0 allocOk Mdl Offset Length Flags MaximumSegmentSize Info
        Cookie nbl hacq) a1 a2 a3 a4 a5 (by simp [hcookie]) (by simp [hnext])
    refine ⟨s', q1, ?_, ?_, q4, q5,
      Or.inr (q6.imp (fun a => ⟨Or.inl rfl, a⟩) (fun b => ⟨Or.inl rfl, b⟩))⟩
    · intro q hq
      rw [q2 q hq]
      simp [Function.update_noteq hq]
    · rw [q3]; simp
  · by_cases hv : U.VlanId TagControlInformation % 4096 = 0
    · obtain ⟨s', q1, q2, q3, q4, q5, q6⟩ := hadmit _
        (receive_eq_tagged U s s0 allocOk Mdl Offset Length Flags MaximumSegmentSize
          TagControlInformation Info Cookie nbl hacq ht hv) a1 a2 a3 a4 a5
        (by simp [hcookie]) (by simp [hnext])
      refine ⟨s', q1, ?_, ?_, q4, q5,
        Or.inr (q6.imp (fun a => ⟨Or.inr hv, a⟩) (fun b => ⟨Or.inr hv, b⟩))⟩
      · intro q hq
        rw [q2 q hq]
        simp [Function.update_noteq hq]
      · rw [q3]; simp
    · rw [queuePacket_of_receive_null U s _ allocOk Mdl Offset Length Flags
        MaximumSegmentSize TagControlInformation Info Cookie
        (receive_eq_rejected U s s0 allocOk Mdl Offset Length Flags MaximumSegmentSize
          TagControlInformation Info Cookie nbl hacq ht hv)]
      refine ⟨_, rfl, ?_, ?_, rfl, rfl, Or.inl ⟨⟨ht, hv⟩, rfl, ?_, ?_, a3, a5, a1, a2, ?_⟩⟩
      · intro q hq
        simp [Function.update_noteq hq]
      · simp
      · simp
      · simp
      · simp [a4]

theorem nodup_add_not_mem (A B : Multiset Ptr) (h : (A + B).Nodup) (x : Ptr) (ha : x ∈ A) :
    x ∉ B := by
  intro hb
  have h1 := Multiset.nodup_iff_count_le_one.mp h x
  have h2 := Multiset.one_le_count_iff_mem.mpr ha
  have h3 := Multiset.one_le_count_iff_mem.mpr hb
  rw [Multiset.count_add] at h1
  omega

theorem Inv.disjoint_lists {s : State} {o : List (Ptr × Nat)} {gl pl : List Ptr}
    (hinv : Inv s o gl pl) : ∀ x ∈ gl, x ∉ pl := by
  intro x hx hp
  have hn := hinv.nodup
  unfold cells at hn
  have h1 : ((gl : Multiset Ptr) + (pl : Multiset Ptr)).Nodup :=
    (Multiset.nodup_add.mp (Multiset.nodup_add.mp hn).1).1
  exact nodup_add_not_mem _ _ h1 x (Multiset.mem_coe.mpr hx) (Multiset.mem_coe.mpr hp)

theorem Inv.inNDIS_bounds {s : State} {o : List (Ptr × Nat)} {gl pl : List Ptr}
    (hinv : Inv s o gl pl) : 0 ≤ s.InNDIS ∧ s.InNDIS ≤ 1024 := by
  have h1 := hinv.inNDIS
  have h2 := hinv.bound
  omega

/-- The part of the invariant that counts descriptors, after an acquisition: the
descriptor handed out, the two free lists, those of NDIS and those freed are
again all the descriptors allocated, each once. -/
theorem acquire_inv_cells (s s0 : State) (o : List (Ptr × Nat)) (gl pl : List Ptr)
    (allocOk : Bool) (Mdl Offset Length Cookie : Nat) (nbl : Ptr)
    (hinv : Inv s o gl pl)
    (hacq : __ReceiverAllocateNetBufferList s allocOk Mdl Offset Length Cookie = .ok (nbl, s0)) :
    ∃ gl0 pl0, IsList s0.Heap s0.GetList gl0 ∧ IsList s0.Heap s0.PutList pl0 ∧
      nbl ∉ gl0 ∧ nbl ∉ pl0 ∧ nbl ∉ o.map Prod.fst ∧ nbl ∉ s.Freed ∧
      (({nbl} : Multiset Ptr) + cells gl0 pl0 o s.Freed).Nodup ∧
      (∀ x ∈ ({nbl} : Multiset Ptr) + cells gl0 pl0 o s.Freed, x ≠ 0 ∧ x ≤ s0.Allocated) ∧
      Multiset.card (({nbl} : Multiset Ptr) + cells gl0 pl0 o s.Freed) = s0.Allocated := by
  obtain ⟨gl0, pl0, hgl0, hpl0, hn1, hn2, hcase⟩ :=
    acquire_cells s s0 allocOk Mdl Offset Length Cookie nbl gl pl hinv.getList hinv.putList
      hinv.disjoint_lists hacq
  have hM : (({nbl} : Multiset Ptr) + cells gl0 pl0 o s.Freed = cells gl pl o s.Freed ∧
        s0.Allocated = s.Allocated) ∨
      (({nbl} : Multiset Ptr) + cells gl0 pl0 o s.Freed =
          {s.Allocated + 1} + cells gl pl o s.Freed ∧ s0.Allocated = s.Allocated + 1) := by
    rcases hcase with ⟨h1, h2⟩ | ⟨h1, h2⟩
    · refine Or.inl ⟨?_, h2⟩
      unfold cells
      rw [← h1]
      abel
    · refine Or.inr ⟨?_, h2⟩
      unfold cells
      have : ({nbl} : Multiset Ptr) + ((gl0 : Multiset Ptr) + (pl0 : Multiset Ptr) +
          ((o.map Prod.fst : List Ptr) : Multiset Ptr) + (s.Freed : Multiset Ptr)) =
          (({nbl} : Multiset Ptr) + (gl0 : Multiset Ptr) + (pl0 : Multiset Ptr)) +
          ((o.map Prod.fst : List Ptr) : Multiset Ptr) + (s.Freed : Multiset Ptr) := by abel
      rw [this, h1]
      abel
  obtain ⟨k1, k2, k3⟩ := cells_step _ _ s.Allocated s0.Allocated hinv.nodup hinv.range
    hinv.card hM
  have hrest : nbl ∉ cells gl0 pl0 o s.Freed := by
    rw [Multiset.singleton_add] at k1
    exact (Multiset.nodup_cons.mp k1).1
  refine ⟨gl0, pl0, hgl0, hpl0, hn1, hn2, ?_, ?_, k1, k2, k3⟩
  · intro hm
    apply hrest
    unfold cells
    simp only [Multiset.mem_add, Multiset.mem_coe]
    exact Or.inl (Or.inr hm)
  · intro hm
    apply hrest
    unfold cells
    simp only [Multiset.mem_add, Multiset.mem_coe]
    exact Or.inr hm

theorem cells_cons_put (gl pl : List Ptr) (o : List (Ptr × Nat)) (F : List Ptr) (x : Ptr) :
    cells gl (x :: pl) o F = ({x} : Multiset Ptr) + cells gl pl o F := by
  unfold cells
  rw [← Multiset.cons_coe, ← Multiset.singleton_add]
  abel

theorem cells_snoc_owned (gl pl : List Ptr) (o : List (Ptr × Nat)) (F : List Ptr) (x : Ptr)
    (c : Nat) :
    cells gl pl (o ++ [(x, c)]) F = ({x} : Multiset Ptr) + cells gl pl o F := by
  unfold cells
  rw [List.map_append, ← Multiset.coe_add]
  simp only [List.map_cons, List.map_nil, Multiset.coe_singleton]
  abel

theorem cells_snoc_freed (gl pl : List Ptr) (o : List (Ptr × Nat)) (F : List Ptr) (x : Ptr) :
    cells gl pl o (F ++ [x]) = ({x} : Multiset Ptr) + cells gl pl o F := by
  unfold cells
  rw [← Multiset.coe_add]
  simp only [Multiset.coe_singleton]
  abel

theorem inv_queue (U : TagUnpack) (s s' : State) (o : List (Ptr × Nat)) (gl pl : List Ptr)
    (allocOk : Bool) (Mdl Offset Length : Nat) (Flags : XENVIF_PACKET_CHECKSUM_FLAGS)
    (MaximumSegmentSize TagControlInformation Info Cookie : Nat)
    (hinv : Inv s o gl pl)
    (h : ReceiverQueuePacket U s allocOk Mdl Offset Length Flags MaximumSegmentSize
      TagControlInformation Info Cookie = .ok s') :
    ∃ gl' pl', Inv s'
      (ownedAfter s s' o (.queuePacket allocOk Mdl Offset Length Flags MaximumSegmentSize
        TagControlInformation Info Cookie)) gl' pl' := by
  obtain ⟨h0, h1⟩ := hinv.inNDIS_bounds
  cases hacq : __ReceiverAllocateNetBufferList s allocOk Mdl Offset Length Cookie with
  | error f =>
    rw [queuePacket_error_of_acquire U s allocOk Mdl Offset Length Flags MaximumSegmentSize
      TagControlInformation Info Cookie f hacq] at h
    cases h
  | ok r =>
    obtain ⟨nbl, s0⟩ := r
    obtain ⟨s'', hq, f1, f2, f3, f4, hcase⟩ := queue_after_acquire U s s0 allocOk Mdl Offset
      Length Flags MaximumSegmentSize TagControlInformation Info Cookie nbl h0 h1 hacq
    rw [hq] at h
    simp only [Except.ok.injEq] at h
    subst h
    obtain ⟨hne, -, -, hbuf, -, -, -, -, -, -, hoff0⟩ :=
      acquire_ok s s0 allocOk Mdl Offset Length Cookie nbl hacq
    obtain ⟨gl0, pl0, hgl0, hpl0, n1, n2, n3, n4, k1, k2, k3⟩ :=
      acquire_inv_cells s s0 o gl pl allocOk Mdl Offset Length Cookie nbl hinv hacq
    have hheap : ∀ q, q ≠ nbl → s''.Heap q = s.Heap q :=
      fun q hq => (f1 q hq).trans (hoff0 q hq)
    have hgl' : IsList s''.Heap s''.GetList gl0 := by
      rw [f4]
      exact IsList_of_heap_eq_off s0.Heap s''.Heap nbl gl0 f1 n1 _ hgl0
    have hpl' : IsList s''.Heap s0.PutList pl0 :=
      IsList_of_heap_eq_off s0.Heap s''.Heap nbl pl0 f1 n2 _ hpl0
    have hbuf' : ∀ x, (s''.Heap x).FirstNetBuffer.Next = 0 := by
      intro x
      by_cases hx : x = nbl
      · subst hx
        rw [f2, hbuf]
      · rw [hheap x hx]
        exact hinv.oneBuffer x
    have hown : ∀ pc ∈ o, (s''.Heap pc.1).Cookie = pc.2 := by
      intro pc hpc
      have hpn : pc.1 ≠ nbl := fun e => n3 (e ▸ List.mem_map_of_mem _ hpc)
      rw [hheap _ hpn]
      exact hinv.cookieOwned pc hpc
    rcases hcase with ⟨-, c1, c2, c3, c4, c5, c6, c7, -⟩ |
      ⟨-, c0, c1, -, c3, c4, c5, c6, c7, -⟩ | ⟨-, c0, c1, c3, c4, c5, c6, c7, -⟩
    · -- rejected for its tag
      have ho : ownedAfter s s'' o (.queuePacket allocOk Mdl Offset Length Flags
          MaximumSegmentSize TagControlInformation Info Cookie) = o := by
        simp [ownedAfter, c5]
      rw [ho]
      have hcells := cells_cons_put gl0 pl0 o s.Freed nbl
      refine ⟨gl0, nbl :: pl0, ⟨hgl', ?_, ?_, ?_, ?_, ?_, hown, hbuf', ?_, hinv.bound, ?_⟩⟩
      · rw [c1]
        exact ⟨rfl, hne, by rw [c2]; exact hpl'⟩
      · rw [c4, hcells]; exact k1
      · rw [c4, hcells, f3]; exact k2
      · rw [c4, hcells, f3]; exact k3
      · intro x hx
        by_cases hxn : x = nbl
        · rw [hxn]; exact c3
        · rw [hheap x hxn]; exact hinv.cookieFree x hx
      · rw [c6]; exact hinv.inNDIS
      · rw [c7]; exact hinv.mark
    · -- delivered
      have ho : ownedAfter s s'' o (.queuePacket allocOk Mdl Offset Length Flags
          MaximumSegmentSize TagControlInformation Info Cookie) = o ++ [(nbl, Cookie)] := by
        simp [ownedAfter, c5, NDIS_RECEIVE_FLAGS_DISPATCH_LEVEL, NDIS_RECEIVE_FLAGS_RESOURCES]
      rw [ho]
      have hcells := cells_snoc_owned gl0 pl0 o s.Freed nbl Cookie
      have hin := hinv.inNDIS
      have hmk := hinv.mark
      refine ⟨gl0, pl0, ⟨hgl', ?_, ?_, ?_, ?_, ?_, ?_, hbuf', ?_, ?_, ?_⟩⟩
      · rw [c1]; exact hpl'
      · rw [c4, hcells]; exact k1
      · rw [c4, hcells, f3]; exact k2
      · rw [c4, hcells, f3]; exact k3
      · intro x hx
        have hxn : x ≠ nbl := fun e => hx (by simp [e])
        have hxo : x ∉ o.map Prod.fst := fun e => hx (by
          simp only [List.map_append, List.mem_append]
          exact Or.inl e)
        rw [hheap x hxn]; exact hinv.cookieFree x hxo
      · intro pc hpc
        rcases List.mem_append.mp hpc with e | e
        · exact hown pc e
        · simp only [List.mem_singleton] at e
          subst e
          exact c3
      · rw [c6, hin]; simp
      · simp only [List.length_append, List.length_singleton]
        omega
      · rw [c7]
        exact max_le hmk (by omega)
    · -- delivered and released at once
      have ho : ownedAfter s s'' o (.queuePacket allocOk Mdl Offset Length Flags
          MaximumSegmentSize TagControlInformation Info Cookie) = o := by
        simp [ownedAfter, c5, NDIS_RECEIVE_FLAGS_DISPATCH_LEVEL, NDIS_RECEIVE_FLAGS_RESOURCES]
      rw [ho]
      have hcells := cells_snoc_freed gl0 pl0 o s.Freed nbl
      have hmk := hinv.mark
      refine ⟨gl0, pl0, ⟨hgl', ?_, ?_, ?_, ?_, ?_, hown, hbuf', ?_, hinv.bound, ?_⟩⟩
      · rw [c1]; exact hpl'
      · rw [c4, hcells]; exact k1
      · rw [c4, hcells, f3]; exact k2
      · rw [c4, hcells, f3]; exact k3
      · intro x hx
        by_cases hxn : x = nbl
        · rw [hxn]; exact c3
        · rw [hheap x hxn]; exact hinv.cookieFree x hx
      · rw [c6]; exact hinv.inNDIS
      · rw [c7]
        exact max_le hmk (by omega)

/-! ### The invariant across a return -/

theorem hostChain_off (h : Ptr → NET_BUFFER_LIST) (l : List Ptr) (q : Ptr) (hq : q ∉ l) :
    hostChain h l q = h q := by
  induction l with
  | nil => rfl
  | cons x r ih =>
    have hqx : q ≠ x := fun e => hq (by simp [e])
    have hqr : q ∉ r := fun e => hq (by simp [e])
    simp only [hostChain, Function.update_noteq hqx]
    exact ih hqr

theorem hostChain_fields (h : Ptr → NET_BUFFER_LIST) (l : List Ptr) (q : Ptr) :
    (hostChain h l q).Cookie = (h q).Cookie ∧
      (hostChain h l q).FirstNetBuffer = (h q).FirstNetBuffer := by
  induction l with
  | nil => exact ⟨rfl, rfl⟩
  | cons x r ih =>
    by_cases hqx : q = x
    · subst hqx
      simp only [hostChain, Function.update_same]
      exact ih
    · simp only [hostChain, Function.update_noteq hqx]
      exact ih

theorem returnLists_buffers (fuel : Nat) (s s' : State) (p rf : Nat)
    (h : ReceiverReturnNetBufferLists fuel s p rf = .ok s') :
    ∀ q, (s'.Heap q).FirstNetBuffer = (s.Heap q).FirstNetBuffer := by
  induction fuel generalizing s p with
  | zero =>
    by_cases hp : p = 0
    · simp [ReceiverReturnNetBufferLists, hp] at h
      subst h
      intro q; rfl
    · simp [ReceiverReturnNetBufferLists, hp] at h
  | succ n ih =>
    by_cases hp : p = 0
    · subst hp
      rw [returnLists_null] at h
      simp only [Except.ok.injEq] at h
      subst h
      intro q; rfl
    · rw [returnLists_round n s p rf hp] at h
      intro q
      rw [ih _ _ h q]
      by_cases hq : q = p
      · subst hq; simp
      · simp [Function.update_noteq hq]

theorem owned_split (o : List (Ptr × Nat)) (l : List Ptr) (hn : (o.map Prod.fst).Nodup)
    (hl : l.Nodup) (hsub : ∀ p ∈ l, p ∈ o.map Prod.fst) :
    ((o.map Prod.fst : List Ptr) : Multiset Ptr) =
      (l : Multiset Ptr) +
        (((o.filter (fun pc => pc.1 ∉ l)).map Prod.fst : List Ptr) : Multiset Ptr) := by
  have e1 : (o.filter (fun pc => decide (pc.1 ∉ l))).map Prod.fst =
      (o.map Prod.fst).filter (fun x => !decide (x ∈ l)) := by
    rw [List.filter_map]
    congr 1
    apply List.filter_congr
    intro x _
    simp
  have e2 : ((o.map Prod.fst).filter (fun x => decide (x ∈ l))).Perm l := by
    refine (List.perm_ext_iff_of_nodup (hn.filter _) hl).mpr ?_
    intro a
    simp only [List.mem_filter, decide_eq_true_eq]
    exact ⟨fun h => h.2, fun h => ⟨hsub a h, h⟩⟩
  have e3 := List.filter_append_perm (fun x => decide (x ∈ l)) (o.map Prod.fst)
  rw [e1, ← Multiset.coe_eq_coe.mpr e3, ← Multiset.coe_add, Multiset.coe_eq_coe.mpr e2]

theorem Inv.owned_facts {s : State} {o : List (Ptr × Nat)} {gl pl : List Ptr}
    (hinv : Inv s o gl pl) :
    (o.map Prod.fst).Nodup ∧ s.Freed.Nodup ∧
      (∀ x ∈ o.map Prod.fst, x ∉ gl ∧ x ∉ pl ∧ x ∉ s.Freed ∧ x ≠ 0) := by
  have hn := hinv.nodup
  unfold cells at hn
  have hn3 := (Multiset.nodup_add.mp hn).1
  refine ⟨Multiset.coe_nodup.mp (Multiset.nodup_add.mp hn3).2.1,
    Multiset.coe_nodup.mp (Multiset.nodup_add.mp hn).2.1, ?_⟩
  intro x hx
  have hxo : x ∈ ((o.map Prod.fst : List Ptr) : Multiset Ptr) := Multiset.mem_coe.mpr hx
  refine ⟨?_, ?_, ?_, ?_⟩
  · intro hg
    exact nodup_add_not_mem _ _ hn3 x
      (Multiset.mem_add.mpr (Or.inl (Multiset.mem_coe.mpr hg))) hxo
  · intro hp
    exact nodup_add_not_mem _ _ hn3 x
      (Multiset.mem_add.mpr (Or.inr (Multiset.mem_coe.mpr hp))) hxo
  · intro hf
    exact nodup_add_not_mem _ _ hn x (Multiset.mem_add.mpr (Or.inr hxo))
      (Multiset.mem_coe.mpr hf)
  · refine (hinv.range x ?_).1
    unfold cells
    exact Multiset.mem_add.mpr (Or.inl (Multiset.mem_add.mpr (Or.inr hxo)))

/-- A return that NDIS may make returns, and the invariant holds afterwards for
the descriptors NDIS still owns, with the descriptors returned pushed on the put
list; nothing is allocated or freed. -/
theorem inv_return (U : TagUnpack) (s : State) (o : List (Ptr × Nat)) (gl pl l : List Ptr)
    (rf : Nat) (hinv : Inv s o gl pl) (hl : l.Nodup) (hsub : ∀ p ∈ l, p ∈ o.map Prod.fst) :
    ∃ s', step U s (.returnDescriptors l rf) = .ok s' ∧
      Inv s' (o.filter (fun pc => pc.1 ∉ l)) gl (l.reverse ++ pl) ∧
      s'.Freed = s.Freed ∧ s'.Allocated = s.Allocated ∧ s'.Indicated = s.Indicated := by
  obtain ⟨hon, -, hfacts⟩ := hinv.owned_facts
  have hsplit := owned_split o l hon hl hsub
  have hlen : o.length = l.length + (o.filter (fun pc => pc.1 ∉ l)).length := by
    have := congrArg Multiset.card hsplit
    simpa using this
  have hin := hinv.inNDIS
  have hbd := hinv.bound
  have h0l : (0 : Ptr) ∉ l := fun h0 => (hfacts 0 (hsub 0 h0)).2.2.2 rfl
  have hlg : ∀ x ∈ l, x ∉ gl := fun x hx => (hfacts x (hsub x hx)).1
  have hlp : ∀ x ∈ l, x ∉ pl := fun x hx => (hfacts x (hsub x hx)).2.1
  have hpl_h : IsList (hostChain s.Heap l) s.PutList pl := by
    refine (IsList_congr s.Heap (hostChain s.Heap l) pl ?_ _).mpr hinv.putList
    intro x hx
    rw [hostChain_off s.Heap l x (fun e => hlp x e hx)]
  obtain ⟨s', h1, -, h3, h4, h5, h6, h7, h8, h9, h10, h11⟩ :=
    returnLists_chain l l.length { s with Heap := hostChain s.Heap l } (l.headD 0) rf pl
      (hostChain_isList s.Heap l hl h0l) hpl_h hlp (le_refl _)
      (by unfold IsLONG; simp only; omega) (by unfold IsLONG; simp only; omega)
  have hheap : ∀ q, q ∉ l → s'.Heap q = s.Heap q := by
    intro q hq
    rw [h8 q hq]
    exact hostChain_off s.Heap l q hq
  have hcells : cells gl (l.reverse ++ pl) (o.filter (fun pc => pc.1 ∉ l)) s.Freed =
      cells gl pl o s.Freed := by
    unfold cells
    rw [hsplit, ← Multiset.coe_add, Multiset.coe_reverse]
    abel
  have hmem : ∀ x, x ∉ l → x ∉ (o.filter (fun pc => pc.1 ∉ l)).map Prod.fst →
      x ∉ o.map Prod.fst := by
    intro x hxl hxo hx
    have : x ∈ ((o.map Prod.fst : List Ptr) : Multiset Ptr) := Multiset.mem_coe.mpr hx
    rw [hsplit, Multiset.mem_add, Multiset.mem_coe, Multiset.mem_coe] at this
    rcases this with e | e
    · exact hxl e
    · exact hxo e
  refine ⟨s', h1, ⟨?_, h6, ?_, ?_, ?_, ?_, ?_, ?_, ?_, ?_, ?_⟩, h4, h10, h9⟩
  · rw [h7]
    refine (IsList_congr s.Heap s'.Heap gl ?_ _).mpr hinv.getList
    intro x hx
    rw [hheap x (fun e => hlg x e hx)]
  · rw [h4, hcells]; exact hinv.nodup
  · rw [h4, hcells, h10]; exact hinv.range
  · rw [h4, hcells, h10]; exact hinv.card
  · intro x hx
    by_cases hxl : x ∈ l
    · exact h5 x hxl
    · rw [hheap x hxl]
      exact hinv.cookieFree x (hmem x hxl hx)
  · intro pc hpc
    obtain ⟨hpo, hpl'⟩ := List.mem_filter.mp hpc
    have hpl2 : pc.1 ∉ l := by simpa using hpl'
    rw [hheap _ hpl2]
    exact hinv.cookieOwned pc hpo
  · intro x
    rw [returnLists_buffers _ _ _ _ _ h1 x]
    simp only
    rw [(hostChain_fields s.Heap l x).2]
    exact hinv.oneBuffer x
  · rw [h3]
    simp only
    omega
  · omega
  · rw [h11]; exact hinv.mark

/-- Every call that NDIS or the VIF back end may make on a state satisfying the
invariant, and that returns, leaves a state satisfying the invariant. -/
theorem inv_step (U : TagUnpack) (s s' : State) (o : List (Ptr × Nat)) (gl pl : List Ptr)
    (c : Call) (hinv : Inv s o gl pl) (ha : allowed o c) (h : step U s c = .ok s') :
    ∃ gl' pl', Inv s' (ownedAfter s s' o c) gl' pl' := by
  cases c with
  | queuePacket allocOk Mdl Offset Length Flags MaximumSegmentSize TagControlInformation
      Info Cookie =>
    exact inv_queue U s s' o gl pl allocOk Mdl Offset Length Flags MaximumSegmentSize
      TagControlInformation Info Cookie hinv h
  | returnDescriptors l rf =>
    obtain ⟨s'', h1, h2, -⟩ := inv_return U s o gl pl l rf hinv ha.1 ha.2
    rw [h1] at h
    simp only [Except.ok.injEq] at h
    subst h
    exact ⟨gl, l.reverse ++ pl, h2⟩

theorem inv_initial (Adapter : Nat) (s0 : State)
    (h : ReceiverInitialize Adapter true true = some s0) : Inv s0 [] [] [] := by
  simp [ReceiverInitialize] at h
  subst h
  exact
    { getList := rfl
      putList := rfl
      nodup := by simp [cells]
      range := by simp [cells]
      card := by simp [cells]
      cookieFree := fun _ _ => rfl
      cookieOwned := by simp
      oneBuffer := fun _ => rfl
      inNDIS := rfl
      bound := by simp
      mark := by simp }

theorem reachable_inv (U : TagUnpack) (s : State) (o : List (Ptr × Nat))
    (h : Reachable U s o) : ∃ gl pl, Inv s o gl pl := by
  induction h with
  | init Adapter s0 h0 => exact ⟨[], [], inv_initial Adapter s0 h0⟩
  | call s s' o c _ ha hs ih =>
    obtain ⟨gl, pl, hinv⟩ := ih
    exact inv_step U s s' o gl pl c hinv ha hs

/-! ### Properties of the reachable states -/

/-- C13: in every state reached from an initialized receiver by calls that
returned, NDIS returning only descriptors it owns, each once, the get list and
the put list are chains without repetition, no descriptor is on both, and no
descriptor that NDIS owns is on either. -/
theorem C13_free_lists_disjoint (U : TagUnpack) (s : State) (o : List (Ptr × Nat))
    (h : Reachable U s o) :
    ∃ gl pl, IsList s.Heap s.GetList gl ∧ IsList s.Heap s.PutList pl ∧
      gl.Nodup ∧ pl.Nodup ∧ (∀ x ∈ gl, x ∉ pl) ∧
      (∀ pc ∈ o, pc.1 ∉ gl ∧ pc.1 ∉ pl) := by
  obtain ⟨gl, pl, hinv⟩ := reachable_inv U s o h
  obtain ⟨-, -, hfacts⟩ := hinv.owned_facts
  refine ⟨gl, pl, hinv.getList, hinv.putList, IsList_nodup _ _ _ hinv.getList,
    IsList_nodup _ _ _ hinv.putList, hinv.disjoint_lists, ?_⟩
  intro pc hpc
  have := hfacts pc.1 (List.mem_map_of_mem _ hpc)
  exact ⟨this.1, this.2.1⟩

/-- C13 on a receiver with all three kinds of descriptor: after three
deliveries, the return of the descriptors `1` and `3` and a packet rejected for
its tag, the get list is `1`, the put list is `3` and NDIS owns descriptor `2`. -/
theorem C13_free_lists_disjoint_witness :
    Reachable ieee8021Q mixed [(2, 10)] ∧
    IsList mixed.Heap mixed.GetList [1] ∧ IsList mixed.Heap mixed.PutList [3] ∧
    ∃ gl pl, IsList mixed.Heap mixed.GetList gl ∧ IsList mixed.Heap mixed.PutList pl ∧
      gl.Nodup ∧ pl.Nodup ∧ (∀ x ∈ gl, x ∉ pl) ∧ (2 : Ptr) ∉ gl ∧ (2 : Ptr) ∉ pl := by
  have r1 : Reachable ieee8021Q delivered [(1, 7)] :=
    Reachable.call initial delivered [] packet7 (Reachable.init 1 initial rfl) trivial rfl
  have r2 : Reachable ieee8021Q mixed2 [(1, 7), (2, 10)] :=
    Reachable.call delivered mixed2 [(1, 7)] (.queuePacket true 200 0 64 noFlags 0 0 0 10) r1
      trivial rfl
  have r3 : Reachable ieee8021Q mixed3 [(1, 7), (2, 10), (3, 12)] :=
    Reachable.call mixed2 mixed3 [(1, 7), (2, 10)]
      (.queuePacket true 300 0 64 noFlags 0 0 0 12) r2 trivial rfl
  have r4 : Reachable ieee8021Q mixed4 [(2, 10), (3, 12)] :=
    Reachable.call mixed3 mixed4 [(1, 7), (2, 10), (3, 12)] (.returnDescriptors [1] 0) r3
      ⟨by simp, by simp⟩ rfl
  have r5 : Reachable ieee8021Q mixed5 [(2, 10)] :=
    Reachable.call mixed4 mixed5 [(2, 10), (3, 12)] (.returnDescriptors [3] 0) r4
      ⟨by simp, by simp⟩ rfl
  have r6 : Reachable ieee8021Q mixed [(2, 10)] :=
    Reachable.call mixed5 mixed [(2, 10)] packetTag5 r5 trivial rfl
  obtain ⟨gl, pl, h1, h2, h3, h4, h5, h6⟩ :=
    C13_free_lists_disjoint ieee8021Q mixed [(2, 10)] r6
  exact ⟨r6, by decide, by decide, gl, pl, h1, h2, h3, h4, h5, (h6 (2, 10) (by simp)).1,
    (h6 (2, 10) (by simp)).2⟩

/-- C14 as stated fails: after a packet with the `NULL` cookie was queued on the
initialized receiver, NDIS owns descriptor `1`, whose cookie is `NULL`; so it is
not true that in every reachable state a descriptor holds a non-null cookie
exactly when NDIS owns it. -/
theorem C14_null_cookie_counterexample :
    ¬ ∀ (s : State) (o : List (Ptr × Nat)), Reachable ieee8021Q s o →
      ∀ x, ((s.Heap x).Cookie ≠ 0 ↔ x ∈ o.map Prod.fst) := by
  intro hall
  have hr : Reachable ieee8021Q deliveredNull [(1, 0)] :=
    Reachable.call initial deliveredNull [] packetNull (Reachable.init 1 initial rfl)
      trivial rfl
  exact (hall deliveredNull [(1, 0)] hr 1).mpr (by simp) rfl

/-- C14 (amended): in every reachable state every descriptor of the get list or
the put list has an empty cookie, and every descriptor that NDIS owns holds
exactly the cookie supplied to the `ReceiverQueuePacket` call that admitted it; so
a descriptor that holds a non-null cookie is owned by NDIS, and when the cookies
supplied for the descriptors NDIS owns are non-null, a descriptor holds a non-null
cookie if and only if NDIS owns it. -/
theorem C14_cookie_ownership (U : TagUnpack) (s : State) (o : List (Ptr × Nat))
    (h : Reachable U s o) :
    ∃ gl pl, IsList s.Heap s.GetList gl ∧ IsList s.Heap s.PutList pl ∧
      (∀ x ∈ gl ++ pl, (s.Heap x).Cookie = 0) ∧
      (∀ pc ∈ o, (s.Heap pc.1).Cookie = pc.2) ∧
      (∀ x, (s.Heap x).Cookie ≠ 0 → x ∈ o.map Prod.fst) ∧
      ((∀ pc ∈ o, pc.2 ≠ 0) → ∀ x, ((s.Heap x).Cookie ≠ 0 ↔ x ∈ o.map Prod.fst)) := by
  obtain ⟨gl, pl, hinv⟩ := reachable_inv U s o h
  obtain ⟨-, -, hfacts⟩ := hinv.owned_facts
  have hback : ∀ x, (s.Heap x).Cookie ≠ 0 → x ∈ o.map Prod.fst := by
    intro x hx
    by_contra hno
    exact hx (hinv.cookieFree x hno)
  refine ⟨gl, pl, hinv.getList, hinv.putList, ?_, hinv.cookieOwned, hback, ?_⟩
  · intro x hx
    refine hinv.cookieFree x ?_
    intro hxo
    rcases List.mem_append.mp hx with e | e
    · exact (hfacts x hxo).1 e
    · exact (hfacts x hxo).2.1 e
  · intro hnz x
    refine ⟨hback x, ?_⟩
    intro hx
    obtain ⟨pc, hpc, rfl⟩ := List.mem_map.mp hx
    rw [hinv.cookieOwned pc hpc]
    exact hnz pc hpc

/-- C14 (amended) on the receiver with descriptor `1` delivered for cookie `7`. -/
theorem C14_cookie_ownership_witness :
    Reachable ieee8021Q delivered [(1, 7)] ∧ (delivered.Heap 1).Cookie = 7 ∧
      ∀ x, (delivered.Heap x).Cookie ≠ 0 → x ∈ ([(1, 7)] : List (Ptr × Nat)).map Prod.fst := by
  have hr : Reachable ieee8021Q delivered [(1, 7)] :=
    Reachable.call initial delivered [] packet7 (Reachable.init 1 initial rfl) trivial rfl
  obtain ⟨-, -, -, -, -, h1, h2, -⟩ := C14_cookie_ownership ieee8021Q delivered [(1, 7)] hr
  exact ⟨hr, h1 (1, 7) (by simp), h2⟩

/-- C19: in every state reached from an initialized receiver by calls that
returned, NDIS returning only descriptors it owns, each once, `InNDIS` is the
number of descriptors NDIS owns (admitted without the resources flag and not yet
returned), hence not negative. -/
theorem C19_inNDIS_counts_owned (U : TagUnpack) (s : State) (o : List (Ptr × Nat))
    (h : Reachable U s o) : s.InNDIS = o.length ∧ 0 ≤ s.InNDIS := by
  obtain ⟨gl, pl, hinv⟩ := reachable_inv U s o h
  exact ⟨hinv.inNDIS, hinv.inNDIS_bounds.1⟩

/-- C19 on the receiver with descriptor `1` delivered to NDIS. -/
theorem C19_inNDIS_counts_owned_witness :
    Reachable ieee8021Q delivered [(1, 7)] ∧ delivered.InNDIS = 1 := by
  have hr : Reachable ieee8021Q delivered [(1, 7)] :=
    Reachable.call initial delivered [] packet7 (Reachable.init 1 initial rfl) trivial rfl
  exact ⟨hr, (C19_inNDIS_counts_owned ieee8021Q delivered [(1, 7)] hr).1⟩

theorem acquire_succeeds (s : State) (o : List (Ptr × Nat)) (gl pl : List Ptr)
    (allocOk : Bool) (Mdl Offset Length Cookie : Nat) (hinv : Inv s o gl pl) :
    (∃ nbl s0, __ReceiverAllocateNetBufferList s allocOk Mdl Offset Length Cookie
        = .ok (nbl, s0)) ∨
      (allocOk = false ∧
        __ReceiverAllocateNetBufferList s allocOk Mdl Offset Length Cookie
          = .error .NullDereference) := by
  obtain ⟨-, -, hfacts⟩ := hinv.owned_facts
  have hfree : ∀ x, x ∈ gl ∨ x ∈ pl → (s.Heap x).Cookie = 0 := by
    intro x hx
    refine hinv.cookieFree x ?_
    intro hxo
    rcases hx with e | e
    · exact (hfacts x hxo).1 e
    · exact (hfacts x hxo).2.1 e
  by_cases hg : s.GetList = 0
  · by_cases hp : s.PutList = 0
    · cases allocOk
      · refine Or.inr ⟨rfl, ?_⟩
        simp [__ReceiverAllocateNetBufferList, NdisAllocateNetBufferAndNetBufferList,
          stampCookie, hg, hp]
      · exact Or.inl ⟨_, _, acquire_fresh_eq s Mdl Offset Length Cookie hg hp⟩
    · have hmem : s.PutList ∈ pl := by
        cases pl with
        | nil => exact absurd hinv.putList hp
        | cons x xs => rw [hinv.putList.1]; simp
      exact Or.inl ⟨_, _, acquire_put_eq s allocOk Mdl Offset Length Cookie hg hp
        (hinv.oneBuffer _) (hfree _ (Or.inr hmem))⟩
  · have hmem : s.GetList ∈ gl := by
      cases gl with
      | nil => exact absurd hinv.getList hg
      | cons x xs => rw [hinv.getList.1]; simp
    exact Or.inl ⟨_, _, acquire_get_eq s allocOk Mdl Offset Length Cookie hg
      (hinv.oneBuffer _) (hfree _ (Or.inl hmem))⟩

/-- C18: on every state reached from an initialized receiver by calls that
returned, NDIS returning only descriptors it owns, each once, the next such call
returns when it does not make the NDIS allocator fail, and in no case stops in a
failed `ASSERT`: neither the check of the cookie slot at line 107 nor the check
of the next-link at line 131 (nor those of lines 93 and 101) fails. -/
theorem C18_no_assertion_fails (U : TagUnpack) (s : State) (o : List (Ptr × Nat))
    (c : Call) (h : Reachable U s o) (ha : allowed o c) :
    (allocSucceeds c → ∃ s', step U s c = .ok s') ∧
      (∀ n, step U s c ≠ .error (.AssertionFailure n)) := by
  obtain ⟨gl, pl, hinv⟩ := reachable_inv U s o h
  cases c with
  | returnDescriptors l rf =>
    obtain ⟨s', h1, -⟩ := inv_return U s o gl pl l rf hinv ha.1 ha.2
    refine ⟨fun _ => ⟨s', h1⟩, ?_⟩
    intro n hn
    rw [h1] at hn
    cases hn
  | queuePacket allocOk Mdl Offset Length Flags MaximumSegmentSize TagControlInformation
      Info Cookie =>
    obtain ⟨h0, h1⟩ := hinv.inNDIS_bounds
    rcases acquire_succeeds s o gl pl allocOk Mdl Offset Length Cookie hinv with
      ⟨nbl, s0, hacq⟩ | ⟨hno, herr⟩
    · obtain ⟨s', hq, -⟩ := queue_after_acquire U s s0 allocOk Mdl Offset Length Flags
        MaximumSegmentSize TagControlInformation Info Cookie nbl h0 h1 hacq
      refine ⟨fun _ => ⟨s', hq⟩, ?_⟩
      intro n hn
      simp only [step] at hn
      rw [hq] at hn
      cases hn
    · have hq := queuePacket_error_of_acquire U s allocOk Mdl Offset Length Flags
        MaximumSegmentSize TagControlInformation Info Cookie _ herr
      refine ⟨?_, ?_⟩
      · intro hok
        simp only [allocSucceeds] at hok
        rw [hno] at hok
        cases hok
      · intro n hn
        simp only [step] at hn
        rw [hq] at hn
        cases hn

/-- C18 on the receiver with descriptor `1` delivered to NDIS: NDIS returns it,
and a further packet is queued. -/
theorem C18_no_assertion_fails_witness :
    (Reachable ieee8021Q delivered [(1, 7)] ∧
      allowed [(1, 7)] (.returnDescriptors [1] 0) ∧ allowed [(1, 7)] packet7) ∧
    (∃ s', step ieee8021Q delivered (.returnDescriptors [1] 0) = .ok s') ∧
    (∃ s', step ieee8021Q delivered packet7 = .ok s') := by
  have hr : Reachable ieee8021Q delivered [(1, 7)] :=
    Reachable.call initial delivered [] packet7 (Reachable.init 1 initial rfl) trivial rfl
  have ha : allowed [(1, 7)] (.returnDescriptors [1] 0) := ⟨by simp, by simp⟩
  exact ⟨⟨hr, ha, trivial⟩,
    (C18_no_assertion_fails ieee8021Q delivered [(1, 7)] (.returnDescriptors [1] 0) hr ha).1
      trivial,
    (C18_no_assertion_fails ieee8021Q delivered [(1, 7)] packet7 hr trivial).1 rfl⟩

/-! ### Descriptors in existence -/

theorem run_append (U : TagUnpack) (l1 l2 : List Call) (s s1 : State)
    (h : run U s l1 = .ok s1) : run U s (l1 ++ l2) = run U s1 l2 := by
  induction l1 generalizing s with
  | nil =>
    simp only [run, Except.ok.injEq] at h
    subst h
    rfl
  | cons c cs ih =>
    simp only [run, List.cons_append] at h ⊢
    cases hc : step U s c with
    | error f => simp [hc] at h
    | ok s2 =>
      simp only [hc] at h ⊢
      exact ih s2 h

theorem run_packet7 (n : Nat) (s : State) (hg : s.GetList = 0) (hp : s.PutList = 0)
    (h0 : 0 ≤ s.InNDIS) (hn : s.InNDIS + n ≤ 1024) :
    ∃ s', run ieee8021Q s (List.replicate n packet7) = .ok s' ∧
      s'.GetList = 0 ∧ s'.PutList = 0 ∧ s'.InNDIS = s.InNDIS + n ∧
      s'.Allocated = s.Allocated + n ∧ s'.Freed = s.Freed := by
  induction n generalizing s with
  | zero => exact ⟨s, rfl, hg, hp, by simp, rfl, rfl⟩
  | succ k ih =>
    have hacq := acquire_fresh_eq s 100 0 64 7 hg hp
    obtain ⟨s1, hq, -, -, f3, f4, hcase⟩ := queue_after_acquire ieee8021Q s _ true 100 0 64
      noFlags 0 0 0 7 _ h0 (by omega) hacq
    have hstep : step ieee8021Q s packet7 = .ok s1 := hq
    rcases hcase with ⟨⟨ht, -⟩, -⟩ | ⟨-, c0, c1, -, -, c4, -, c6, -⟩ | ⟨-, c0, -⟩
    · exact absurd rfl ht
    · obtain ⟨s', r1, r2, r3, r4, r5, r6⟩ := ih s1 (by rw [f4]) (by rw [c1])
        (by rw [c6]; omega) (by rw [c6]; push_cast at hn ⊢; omega)
      refine ⟨s', ?_, r2, r3, ?_, ?_, ?_⟩
      · simp only [List.replicate_succ, run, hstep]
        exact r1
      · rw [r4, c6]; push_cast; omega
      · rw [r5, f3]; simp only; omega
      · rw [r6, c4]
    · push_cast at hn
      omega

/-- C15 as stated fails: after 1024 packets were delivered on the initialized
receiver and a packet with tag identifier 5 was rejected, 1025 descriptors exist
(1024 with NDIS, one on the put list) and none was freed; the next packet reuses
the descriptor of the put list, is delivered Forced and its descriptor `1025` is
freed, so that 1024 descriptors exist afterwards. -/
theorem C15_forced_delivery_counterexample :
    ∃ s s', run ieee8021Q initial (List.replicate 1024 packet7 ++ [packetTag5]) = .ok s ∧
      step ieee8021Q s packet7 = .ok s' ∧
      inExistence s = 1025 ∧ s.Freed = [] ∧ inExistence s' = 1024 ∧ s'.Freed = [1025] := by
  obtain ⟨s1, r1, g1, p1, i1, a1, fr1⟩ := run_packet7 1024 initial rfl rfl (le_refl _)
    (by decide)
  have i1' : s1.InNDIS = 1024 := by rw [i1]; rfl
  have a1' : s1.Allocated = 1024 := by rw [a1]; rfl
  -- the rejected packet
  have hacq := acquire_fresh_eq s1 100 0 64 7 g1 p1
  obtain ⟨s2, hq2, -, b2, f3, f4, hcase⟩ := queue_after_acquire ieee8021Q s1 _ true 100 0 64
    noFlags 0 5 0 7 _ (by omega) (by omega) hacq
  have hstep2 : step ieee8021Q s1 packetTag5 = .ok s2 := hq2
  rcases hcase with ⟨-, c1, c2, c3, c4, -, c6, -⟩ | hB | hC
  · have hrun : run ieee8021Q initial (List.replicate 1024 packet7 ++ [packetTag5])
        = .ok s2 := by
      rw [run_append ieee8021Q _ _ initial s1 r1]
      simp only [run, hstep2]
    have g2 : s2.GetList = 0 := f4
    have p2 : s2.PutList ≠ 0 := by rw [c1, a1']; decide
    have a2 : s2.Allocated = 1025 := by rw [f3]; simp only; omega
    have fr2 : s2.Freed = [] := by rw [c4, fr1]; rfl
    have i2 : s2.InNDIS = 1024 := by rw [c6, i1']
    have hnb2 : (s2.Heap s2.PutList).FirstNetBuffer.Next = 0 := by
      rw [c1, b2]; simp
    have hc2 : (s2.Heap s2.PutList).Cookie = 0 := by rw [c1]; exact c3
    -- the packet delivered in the descriptor of the put list
    have hacq3 := acquire_put_eq s2 true 100 0 64 7 g2 p2 hnb2 hc2
    obtain ⟨s3, hq3, -, -, e3, -, hcase3⟩ := queue_after_acquire ieee8021Q s2 _ true 100 0 64
      noFlags 0 0 0 7 _ (by omega) (by omega) hacq3
    have hstep3 : step ieee8021Q s2 packet7 = .ok s3 := hq3
    rcases hcase3 with ⟨⟨ht, -⟩, -⟩ | ⟨-, d0, -⟩ | ⟨-, -, -, -, d4, -⟩
    · exact absurd rfl ht
    · omega
    · have fr3 : s3.Freed = [1025] := by rw [d4, fr2, c1, a1']; rfl
      have a3 : s3.Allocated = 1025 := by rw [e3]; exact a2
      refine ⟨s2, s3, hrun, hstep3, ?_, fr2, ?_, fr3⟩
      · simp [inExistence, a2, fr2]
      · simp [inExistence, a3, fr3]
  · exact absurd hB.1 (by decide)
  · exact absurd hC.1 (by decide)

theorem returnLists_logs (fuel : Nat) (s s' : State) (p rf : Nat)
    (h : ReceiverReturnNetBufferLists fuel s p rf = .ok s') :
    s'.Freed = s.Freed ∧ s'.Allocated = s.Allocated := by
  induction fuel generalizing s p with
  | zero =>
    by_cases hp : p = 0
    · simp [ReceiverReturnNetBufferLists, hp] at h
      subst h
      exact ⟨rfl, rfl⟩
    · simp [ReceiverReturnNetBufferLists, hp] at h
  | succ n ih =>
    by_cases hp : p = 0
    · subst hp
      rw [returnLists_null] at h
      simp only [Except.ok.injEq] at h
      subst h
      exact ⟨rfl, rfl⟩
    · rw [returnLists_round n s p rf hp] at h
      have h2 := ih _ _ h
      exact h2

theorem acquire_allocated (s s0 : State) (allocOk : Bool) (Mdl Offset Length Cookie : Nat)
    (nbl : Ptr)
    (hacq : __ReceiverAllocateNetBufferList s allocOk Mdl Offset Length Cookie = .ok (nbl, s0)) :
    s.Allocated ≤ s0.Allocated ∧ s0.Allocated ≤ s.Allocated + 1 := by
  rcases acquire_ok_cases s s0 allocOk Mdl Offset Length Cookie nbl hacq with
    ⟨hg, hnb, hc⟩ | ⟨hg, hp, hnb, hc⟩ | ⟨hg, hp, hok⟩
  · rw [acquire_get_eq s allocOk Mdl Offset Length Cookie hg hnb hc] at hacq
    simp only [Except.ok.injEq, Prod.mk.injEq] at hacq
    obtain ⟨-, rfl⟩ := hacq
    exact ⟨le_refl _, Nat.le_succ _⟩
  · rw [acquire_put_eq s allocOk Mdl Offset Length Cookie hg hp hnb hc] at hacq
    simp only [Except.ok.injEq, Prod.mk.injEq] at hacq
    obtain ⟨-, rfl⟩ := hacq
    exact ⟨le_refl _, Nat.le_succ _⟩
  · subst hok
    rw [acquire_fresh_eq s Mdl Offset Length Cookie hg hp] at hacq
    simp only [Except.ok.injEq, Prod.mk.injEq] at hacq
    obtain ⟨-, rfl⟩ := hacq
    exact ⟨Nat.le_succ _, le_refl _⟩

/-- What `ReceiverQueuePacket` does to the allocator, on any state: it allocates
at most once, and it frees only the descriptor of a Forced delivery. -/
theorem queue_logs (U : TagUnpack) (s s' : State) (allocOk : Bool)
    (Mdl Offset Length : Nat) (Flags : XENVIF_PACKET_CHECKSUM_FLAGS)
    (MaximumSegmentSize TagControlInformation Info Cookie : Nat)
    (h : ReceiverQueuePacket U s allocOk Mdl Offset Length Flags MaximumSegmentSize
      TagControlInformation Info Cookie = .ok s') :
    s.Allocated ≤ s'.Allocated ∧ s'.Allocated ≤ s.Allocated + 1 ∧
      (s'.Freed = s.Freed ∨
        (IN_NDIS_MAX < toLONG (s.InNDIS + 1) ∧
          ∃ i : Indication, s'.Indicated = s.Indicated ++ [i] ∧
            i.Flags &&& NDIS_RECEIVE_FLAGS_RESOURCES ≠ 0 ∧
            s'.Freed = s.Freed ++ [i.NetBufferList])) := by
  cases hacq : __ReceiverAllocateNetBufferList s allocOk Mdl Offset Length Cookie with
  | error f =>
    rw [queuePacket_error_of_acquire U s allocOk Mdl Offset Length Flags MaximumSegmentSize
      TagControlInformation Info Cookie f hacq] at h
    cases h
  | ok r =>
    obtain ⟨nbl, s0⟩ := r
    obtain ⟨hne, -, -, -, -, a1, -, a3, -, a5, -⟩ :=
      acquire_ok s s0 allocOk Mdl Offset Length Cookie nbl hacq
    obtain ⟨b1, b2⟩ := acquire_allocated s s0 allocOk Mdl Offset Length Cookie nbl hacq
    -- the admission of the descriptor received in `s1`
    have hadmit : ∀ s1 : State,
        __ReceiverReceivePacket U s allocOk Mdl Offset Length Flags MaximumSegmentSize
          TagControlInformation Info Cookie = .ok (nbl, s1) →
        s1.Allocated = s0.Allocated → s1.Freed = s0.Freed → s1.Indicated = s0.Indicated →
        s1.InNDIS = s0.InNDIS →
        s.Allocated ≤ s'.Allocated ∧ s'.Allocated ≤ s.Allocated + 1 ∧
          (s'.Freed = s.Freed ∨
            (IN_NDIS_MAX < toLONG (s.InNDIS + 1) ∧
              ∃ i : Indication, s'.Indicated = s.Indicated ++ [i] ∧
                i.Flags &&& NDIS_RECEIVE_FLAGS_RESOURCES ≠ 0 ∧
                s'.Freed = s.Freed ++ [i.NetBufferList])) := by
      intro s1 hrecv e1 e2 e3 e4
      rw [queuePacket_of_receive_ok U s s1 allocOk Mdl Offset Length Flags MaximumSegmentSize
        TagControlInformation Info Cookie nbl hrecv hne] at h
      by_cases hf : IN_NDIS_MAX < toLONG (s1.InNDIS + 1)
      · rw [push_forced s1 nbl hf hne] at h
        simp only [Except.ok.injEq] at h
        subst h
        refine ⟨by simp only; omega, by simp only; omega,
          Or.inr ⟨?_, { NetBufferList := nbl,
                        Flags := NDIS_RECEIVE_FLAGS_DISPATCH_LEVEL ||| NDIS_RECEIVE_FLAGS_RESOURCES,
                        InNDIS := toLONG (s1.InNDIS + 1) }, ?_, ?_, ?_⟩⟩
        · rw [← a1, ← e4]; exact hf
        · simp only [e3, a5]
        · simp [NDIS_RECEIVE_FLAGS_DISPATCH_LEVEL, NDIS_RECEIVE_FLAGS_RESOURCES]
        · simp only [e2, a3]
      · rw [push_normal s1 nbl (not_lt.mp hf)] at h
        simp only [Except.ok.injEq] at h
        subst h
        exact ⟨by simp only; omega, by simp only; omega, Or.inl (by simp only [e2, a3])⟩
    by_cases ht : TagControlInformation = 0
    · subst ht
      exact hadmit _ (receive_eq_untagged U s s0 allocOk Mdl Offset Length Flags
        MaximumSegmentSize Info Cookie nbl hacq) rfl rfl rfl rfl
    · by_cases hv : U.VlanId TagControlInformation % 4096 = 0
      · exact hadmit _ (receive_eq_tagged U s s0 allocOk Mdl Offset Length Flags
          MaximumSegmentSize TagControlInformation Info Cookie nbl hacq ht hv) rfl rfl rfl rfl
      · rw [queuePacket_of_receive_null U s _ allocOk Mdl Offset Length Flags
          MaximumSegmentSize TagControlInformation Info Cookie
          (receive_eq_rejected U s s0 allocOk Mdl Offset Length Flags MaximumSegmentSize
            TagControlInformation Info Cookie nbl hacq ht hv)] at h
        simp only [Except.ok.injEq] at h
        subst h
        exact ⟨b1, b2, Or.inl a3⟩

/-- C15 (amended): a call that returns, on any state, never lowers the count of
allocations; it frees a descriptor only when it is a `ReceiverQueuePacket` whose
increment of `InNDIS` returns more than 1024, a Forced delivery, and then it frees
exactly the descriptor it indicated with the resources flag.  So the number of
descriptors in existence does not decrease in a call without a Forced delivery,
and drops by at most one in any call. -/
theorem C15_freed_only_by_forced_delivery (U : TagUnpack) (s s' : State) (c : Call)
    (hs : step U s c = .ok s') :
    s.Allocated ≤ s'.Allocated ∧
      (s'.Freed = s.Freed ∨
        (IN_NDIS_MAX < toLONG (s.InNDIS + 1) ∧
          ∃ i : Indication, s'.Indicated = s.Indicated ++ [i] ∧
            i.Flags &&& NDIS_RECEIVE_FLAGS_RESOURCES ≠ 0 ∧
            s'.Freed = s.Freed ++ [i.NetBufferList])) ∧
      (toLONG (s.InNDIS + 1) ≤ IN_NDIS_MAX →
        s'.Freed = s.Freed ∧ inExistence s ≤ inExistence s') ∧
      inExistence s ≤ inExistence s' + 1 := by
  have key : s.Allocated ≤ s'.Allocated ∧
      (s'.Freed = s.Freed ∨
        (IN_NDIS_MAX < toLONG (s.InNDIS + 1) ∧
          ∃ i : Indication, s'.Indicated = s.Indicated ++ [i] ∧
            i.Flags &&& NDIS_RECEIVE_FLAGS_RESOURCES ≠ 0 ∧
            s'.Freed = s.Freed ++ [i.NetBufferList])) := by
    cases c with
    | returnDescriptors l rf =>
      obtain ⟨h1, h2⟩ := returnLists_logs _ _ _ _ _ hs
      exact ⟨le_of_eq h2.symm, Or.inl h1⟩
    | queuePacket allocOk Mdl Offset Length Flags MaximumSegmentSize TagControlInformation
        Info Cookie =>
      obtain ⟨h1, -, h3⟩ := queue_logs U s s' allocOk Mdl Offset Length Flags
        MaximumSegmentSize TagControlInformation Info Cookie hs
      exact ⟨h1, h3⟩
  obtain ⟨hA, hF⟩ := key
  refine ⟨hA, hF, ?_, ?_⟩
  · intro hle
    rcases hF with e | ⟨hgt, -⟩
    · refine ⟨e, ?_⟩
      simp only [inExistence, e]
      omega
    · exact absurd hle (not_le.mpr hgt)
  · rcases hF with e | ⟨-, i, -, -, e⟩
    · simp only [inExistence, e]
      omega
    · simp only [inExistence, e, List.length_append, List.length_singleton]
      omega

/-- C15 (amended) on the receiver with descriptor `1` delivered to NDIS, when a
further packet is queued: a second descriptor is allocated and none is freed. -/
theorem C15_freed_only_by_forced_delivery_witness :
    ∃ s', step ieee8021Q delivered packet7 = .ok s' ∧
      delivered.Allocated ≤ s'.Allocated ∧ s'.Freed = delivered.Freed ∧
      inExistence delivered ≤ inExistence s' := by
  obtain ⟨h1, -, h2, -⟩ :=
    C15_freed_only_by_forced_delivery ieee8021Q delivered
      (finalState (step ieee8021Q delivered packet7) initial) packet7 rfl
  exact ⟨_, rfl, h1, (h2 (by decide)).1, (h2 (by decide)).2⟩

/-! ### Teardown -/

theorem teardownLoop_chain (l : List Ptr) (fuel : Nat) (s : State) (p : Ptr)
    (hl : IsList s.Heap p l) (hfuel : l.length ≤ fuel) :
    ∃ s', teardownLoop fuel s p = .ok s' ∧ s'.Freed = s.Freed ++ l ∧
      s'.Allocated = s.Allocated ∧ s'.GetList = s.GetList ∧ s'.PutList = s.PutList ∧
      (∀ q, q ∉ l → s'.Heap q = s.Heap q) := by
  induction l generalizing fuel s p with
  | nil =>
    have h0 : p = 0 := hl
    subst h0
    refine ⟨s, ?_, by simp, rfl, rfl, rfl, fun _ _ => rfl⟩
    cases fuel <;> simp [teardownLoop]
  | cons x xs ih =>
    obtain ⟨hpx, hx0, hxs⟩ := hl
    subst hpx
    have hnot : p ∉ xs := IsList_head_not_mem_tail s.Heap p xs p ⟨rfl, hx0, hxs⟩
    cases fuel with
    | zero => simp at hfuel
    | succ f =>
      simp only [List.length_cons] at hfuel
      obtain ⟨s', h1, h2, h3, h4, h5, h6⟩ := ih f
        (NdisFreeNetBufferList
          { s with Heap := Function.update s.Heap p { s.Heap p with Next := 0 } } p)
        (s.Heap p).Next
        ((IsList_update_of_not_mem _ _ _ _ hnot _).mpr hxs) (by omega)
      refine ⟨s', ?_, ?_, h3, h4, h5, ?_⟩
      · simp only [teardownLoop, hx0, if_false]
        exact h1
      · rw [h2]
        simp [NdisFreeNetBufferList]
      · intro q hq
        have hq1 : q ∉ xs := fun e => hq (by simp [e])
        have hq2 : q ≠ p := fun e => hq (by simp [e])
        rw [h6 q hq1]
        simp [NdisFreeNetBufferList, Function.update_noteq hq2]

/-- C16: in every state reached from an initialized receiver by calls that
returned, NDIS returning only descriptors it owns, each once, the number of
allocations minus the number of frees is the number of descriptors on the get
list plus those on the put list plus those NDIS owns, and no descriptor was
freed twice.  `ReceiverTeardown`, given a round of its loops for every
descriptor, returns having freed the descriptors of the get list and then those
of the put list, each once and none that had been freed before; when NDIS owns
no descriptor the number of frees is then the number of allocations. -/
theorem C16_allocation_balance (U : TagUnpack) (s : State) (o : List (Ptr × Nat))
    (fuel : Nat) (h : Reachable U s o) :
    ∃ gl pl, IsList s.Heap s.GetList gl ∧ IsList s.Heap s.PutList pl ∧
      (s.Allocated : Int) - s.Freed.length = gl.length + pl.length + o.length ∧
      s.Freed.Nodup ∧
      (gl.length ≤ fuel → pl.length ≤ fuel →
        ∃ s', ReceiverTeardown fuel s = .ok s' ∧
          s'.Freed = s.Freed ++ gl ++ pl ∧ s'.Freed.Nodup ∧
          s'.Allocated = s.Allocated ∧
          (o = [] → s'.Freed.length = s'.Allocated)) := by
  obtain ⟨gl, pl, hinv⟩ := reachable_inv U s o h
  obtain ⟨-, hfn, -⟩ := hinv.owned_facts
  have hcard : gl.length + pl.length + o.length + s.Freed.length = s.Allocated := by
    have := hinv.card
    simp [cells] at this
    omega
  refine ⟨gl, pl, hinv.getList, hinv.putList, by omega, hfn, ?_⟩
  intro hfg hfp
  obtain ⟨s1, t1, t2, t3, -, t5, t6⟩ :=
    teardownLoop_chain gl fuel s s.GetList hinv.getList hfg
  have hpl1 : IsList s1.Heap s1.PutList pl := by
    rw [t5]
    refine (IsList_congr s.Heap s1.Heap pl ?_ _).mpr hinv.putList
    intro x hx
    rw [t6 x (fun e => hinv.disjoint_lists x e hx)]
  obtain ⟨s2, u1, u2, u3, -, -, -⟩ := teardownLoop_chain pl fuel s1 s1.PutList hpl1 hfp
  have hfreed : s2.Freed = s.Freed ++ gl ++ pl := by rw [u2, t2]
  refine ⟨{ s2 with Adapter := 0 }, ?_, hfreed, ?_, by simp only; rw [u3, t3], ?_⟩
  · simp only [ReceiverTeardown, t1, u1]
  · simp only
    rw [hfreed]
    have hle : (((s.Freed ++ gl ++ pl : List Ptr)) : Multiset Ptr) ≤ cells gl pl o s.Freed := by
      refine Multiset.le_iff_exists_add.mpr ⟨((o.map Prod.fst : List Ptr) : Multiset Ptr), ?_⟩
      unfold cells
      rw [← Multiset.coe_add, ← Multiset.coe_add]
      abel
    exact Multiset.coe_nodup.mp (Multiset.nodup_of_le hle hinv.nodup)
  · intro ho
    subst ho
    simp only
    rw [hfreed, u3, t3]
    simp only [List.length_append, List.length_nil] at hcard ⊢
    omega

/-- C16 on the receiver whose only descriptor `1` was delivered and returned:
teardown frees it, and the one allocation is matched by one free. -/
theorem C16_allocation_balance_witness :
    Reachable ieee8021Q returned [] ∧
    ∃ s', ReceiverTeardown 1 returned = .ok s' ∧ s'.Freed = [1] ∧ s'.Allocated = 1 := by
  have hr : Reachable ieee8021Q delivered [(1, 7)] :=
    Reachable.call initial delivered [] packet7 (Reachable.init 1 initial rfl) trivial rfl
  have hr2 : Reachable ieee8021Q returned [] :=
    Reachable.call delivered returned [(1, 7)] (.returnDescriptors [1] 0) hr
      ⟨by simp, by simp⟩ rfl
  refine ⟨hr2, ?_⟩
  obtain ⟨gl, pl, h1, h2, -, -, h3⟩ := C16_allocation_balance ieee8021Q returned [] 1 hr2
  have hgl : gl = [] := IsList_functional returned.Heap gl [] _ h1 (by decide)
  have hpl : pl = [1] := IsList_functional returned.Heap pl [1] _ h2 (by decide)
  subst hgl hpl
  obtain ⟨s', k1, k2, -, k3, -⟩ := h3 (by simp) (by simp)
  exact ⟨s', k1, k2, k3⟩

end Xennet
